import Mathlib

/-!
# Fatras parametric nuclear interaction and scattering: a shallow embedding

The hadronic-interaction sampler of
`Core/include/Fatras/Physics/HadronicInteraction/detail/ParametricNuclearInt.ipp`
and the scattering sampler of `Core/include/Fatras/Physics/Scattering/GeneralMixture.hpp`
are embedded as pure functions.

* `double` is an arbitrary linearly ordered field `K`: a `double` is the number it
  represents, and products, quotients and comparisons are those of `K`. The sum that
  `energyFractions` accumulates and compares with 1 is formed with the rounded addition of
  `double`, the field `add` of `Env` (any binary operation). Every definition is
  computable and runs at `K = ℚ`.
* The random generator `generator_t&` is a state type `G` with a step function
  `gen : G → K × G` (the drawn variate and the advanced generator).
* `std::map::at` is `List.lookup` on the initializer list; a missing key is the
  error `Err.outOfRange` (the `std::out_of_range` exception).
* The two `while` loops take a fuel argument (the number of iterations allowed);
  running out of fuel is the error `Err.fuel`.
* An index past the end of an array or vector is the error `Err.outOfBounds`.
* Counts are natural numbers; the one conversion of a `size_t` to `unsigned int`
  (the call of `energyFractions` in `kinematics`) is taken modulo `2 ^ 32`.
* Member functions and constants that the file uses but does not define
  (`energyFraction`, `sampleTheta`, `nuclearInteractionProb`, `finalStateHadrons`,
  the particle accessors `E()` and `p()`, `std::sin`, `std::cos`, `M_PI`, the
  unit constants) are the fields of `Env`; for the scattering sampler (the uniform and
  normal distributions, `highlandForumla`, the accessors `beta()` and `p()`, `std::sqrt`,
  `std::log`, `std::pow`, `M_SQRT2`) they are the fields of `ScatterEnv`.
* The member `finalStateHadrons` has, next to the field of `Env`, a model written from
  the specification of the interaction (`ParametricNuclearInt.finalStateHadrons`);
  `withFinalStateHadrons` puts that model in the place of the field.
* A `std::array<double, n>` of scattering parameters is a function `Fin n → K`.
-/

namespace Fatras

/-- Ways in which a call does not return a value. -/
inductive Err where
  /-- The exception `std::out_of_range` thrown by `std::map::at`. -/
  | outOfRange
  /-- An index past the end of a `std::array` or `std::vector`. -/
  | outOfBounds
  /-- The iteration budget of a `while` loop is used up. -/
  | fuel
  deriving DecidableEq, Repr

/-- The vector type `Acts::Vector3D`. -/
structure Vector3D (K : Type) where
  x : K
  y : K
  z : K
  deriving DecidableEq, Repr

/-- The statement `momentum *= kinEnergy`. -/
def Vector3D.scale {K : Type} [Mul K] (v : Vector3D K) (s : K) : Vector3D K :=
  ⟨v.x * s, v.y * s, v.z * s⟩

/-- The particle type `particle_t`, with the arguments of the constructor called in
`kinematics`: position, momentum, mass, charge, species code, barcode, time. -/
structure Particle (K : Type) where
  position : Vector3D K
  momentum : Vector3D K
  m : K
  q : K
  pdg : Int
  barcode : Nat
  time : K
  deriving DecidableEq, Repr

/-- The detector type `detector_t`: the two accessors read by the call operator. -/
structure Detector (K : Type) where
  thickness : K
  averageL0 : K
  deriving DecidableEq, Repr

/-- What `ParametricNuclearInt.ipp` uses without defining it. -/
structure Env (K G : Type) where
  /-- The call `generator()`: the variate drawn and the advanced generator. -/
  gen : G → K × G
  /-- The member `energyFraction(cProbability, scaling, n)`. -/
  energyFraction : K → K → Nat → K
  /-- The member `sampleTheta(generator, thetaFitParameters)`. -/
  sampleTheta : G → List K → K × G
  /-- The member `nuclearInteractionProb(p, thicknessInL0, pdg)`. -/
  nuclearInteractionProb : K → K → Int → K
  /-- The member `finalStateHadrons(generator, thicknessInL0, particle)`. -/
  finalStateHadrons : G → K → Particle K → Except Err (List (Particle K) × G)
  /-- The accessor `particle.E()`. -/
  E : Particle K → K
  /-- The accessor `particle.p()`. -/
  p : Particle K → K
  /-- The function `std::sin`. -/
  sin : K → K
  /-- The function `std::cos`. -/
  cos : K → K
  /-- The constant `M_PI`. -/
  pi : K
  /-- The constant `Acts::units::_GeV`. -/
  GeV : K
  /-- The constant `Acts::units::_MeV`. -/
  MeV : K
  /-- The addition of two `double` values with its result rounded to a `double`, as in
  the statement `sumFractions += eFraction`. -/
  add : K → K → K

namespace detail

/-- The array `detail::pdgCodes`. -/
def pdgCodes : List Int := [-211, 111, 211, 2112, 2212]

/-- The map `detail::particleData`: species code to (mass, charge). -/
def particleData {K : Type} [LinearOrderedField K] (GeV MeV : K) : List (Int × (K × K)) :=
  [ (-211, (0.1395701 * GeV, -1)),
    (111, (0.1349766 * GeV, 0)),
    (130, (0.497614 * GeV, 0)),
    (211, (0.1395701 * GeV, 1)),
    (321, (0.493677 * GeV, 1)),
    (2112, (939.56563 * MeV, 0)),
    (2212, (938.27231 * MeV, 1)) ]

/-- The list `detail::partTypesPiMinus`. -/
def partTypesPiMinus {K : Type} [LinearOrderedField K] : List (K × Int) :=
  [ (0.58345, -211), (0.585245, 130), (0.612815, 211), (0.614008, 321),
    (0.949433, 2112), (0.996385, 2212) ]

/-- The list `detail::partTypesPiPlus`. -/
def partTypesPiPlus {K : Type} [LinearOrderedField K] : List (K × Int) :=
  [ (0.037348, -211), (0.0384697, 130), (0.634316, 211), (0.636931, 321),
    (0.926136, 2112), (0.996833, 2212) ]

/-- The list `detail::partTypesNeutron`. -/
def partTypesNeutron {K : Type} [LinearOrderedField K] : List (K × Int) :=
  [ (0.0381688, -211), (0.0516587, 211), (0.91314, 2112), (0.99883, 2212) ]

/-- The list `detail::partTypesProton`. -/
def partTypesProton {K : Type} [LinearOrderedField K] : List (K × Int) :=
  [ (0.0170427, -211), (0.0457174, 211), (0.378015, 2112), (0.998838, 2212) ]

/-- The map `detail::particleTypes`: cumulative probabilities of the secondary
species, per parent species. -/
def particleTypes {K : Type} [LinearOrderedField K] : List (Int × List (K × Int)) :=
  [ (-211, [ (0.58345, -211), (0.585245, 130), (0.612815, 211), (0.614008, 321),
             (0.949433, 2112), (0.996385, 2212) ]),
    (111, [ (0.0745813, -211), (0.129518, 211), (0.86305, 2112), (0.997921, 2212) ]),
    (211, [ (0.037348, -211), (0.0384697, 130), (0.634316, 211), (0.636931, 321),
            (0.926136, 2112), (0.996833, 2212) ]),
    (2112, [ (0.0381688, -211), (0.0516587, 211), (0.91314, 2112), (0.99883, 2212) ]),
    (2212, [ (0.0170427, -211), (0.0457174, 211), (0.378015, 2112), (0.998838, 2212) ]) ]

/-- The map `detail::energyScaling`: ten scaling factors per parent species. -/
def energyScaling {K : Type} [LinearOrderedField K] : List (Int × List K) :=
  [ (-211, [1.43911, 3.03515, 6.24957, 13.4978, 35.7948, 53.0301, 63.4815, 72.3156,
            80.5419, 88.7695]),
    (111, [0, 0, 0, 0, 0, 0, 0, 0, 0, 0]),
    (211, [1.48089, 3.11388, 6.53058, 14.2392, 38.2195, 54.059, 63.3495, 71.2761,
           78.8044, 86.3353]),
    (2112, [0.984621, 2.5168, 5.44376, 12.6065, 41.0249, 58.18, 69.3694, 79.4628,
            88.9836, 98.8031]),
    (2212, [1.06923, 2.75259, 5.86034, 13.6034, 42.9559, 58.9314, 69.3068, 78.6077,
            87.4014, 95.5143]) ]

/-- The map `detail::energyScalingFit`: the extrapolation pair per parent species. -/
def energyScalingFit {K : Type} [LinearOrderedField K] : List (Int × (K × K)) :=
  [ (-211, (4.80037, 8.40903)),
    (111, (0, 0)),
    (211, (9.92848, 7.64857)),
    (2112, (1.00611, 9.78219)),
    (2212, (8.40378, 8.74162)) ]

/-- The map `detail::thetaParameters`. -/
def thetaParameters {K : Type} [LinearOrderedField K] : List (Int × List K) :=
  [ (-211, [0.28118, 0.226549, 0.027127, 0.15234, 0.17351, 0.106461]),
    (111, [0, 0, 0, 0, 0, 0]),
    (211, [0.280964, 0.230181, 0.0207953, 0.134091, 0.18035, 0.122065]),
    (2112, [0.246799, 0.201138, 0.0291222, 0.142521, 0.204159, 0.141606]),
    (2212, [0.248282, 0.197624, 0.0174567, 0.135244, 0.213525, 0.151874]) ]

/-- The struct `detail::Parameters`: the fit parameters of one parent species. -/
structure Parameters (K : Type) where
  /-- Fit parameters for the probability of nuclear interaction. -/
  nuclearInteractionProbability : List K
  /-- Fit parameters for the multiplicity distribution. -/
  multiplicity : List K
  /-- Probabilities to produce certain particles. -/
  particleTypes : List (K × Int)
  /-- Fit parameters for the energy of the first 10 outgoing particles. -/
  energyScaling : List K
  /-- Fit parameters for the energy of all other outgoing particles. -/
  energyScalingExtrapolation : K × K
  /-- Fit parameters for the distribution of the theta angles. -/
  thetaAngle : List K

/-- The array `detail::nuclIntProbPiMinus`. -/
def nuclIntProbPiMinus {K : Type} [LinearOrderedField K] : List K :=
  [-0.85589, 1.0763, -0.028606, 0.01827, 1.3097, 0.081749]

/-- The array `detail::nuclIntProbPiPlus`. -/
def nuclIntProbPiPlus {K : Type} [LinearOrderedField K] : List K :=
  [-0.904434, 0.985991, -0.015039, 0.036966, 1.31977, 0.12179]

/-- The array `detail::nuclIntProbNeutron`. -/
def nuclIntProbNeutron {K : Type} [LinearOrderedField K] : List K :=
  [-1.04484, 0.67312, 0.079093, 0.42005, 1.8368, 0.92685]

/-- The array `detail::nuclIntProbProton`. -/
def nuclIntProbProton {K : Type} [LinearOrderedField K] : List K :=
  [-1.01212, 0.717381, 0.075032, 0.35375, 1.89725, 0.83433]

/-- The array `detail::multPiMinus`. -/
def multPiMinus {K : Type} [LinearOrderedField K] : List K :=
  [1.9677, -0.399229, -0.0405634, 0.915227, 1.39859, 0.130268, 0.0292009]

/-- The array `detail::multPiPlus`. -/
def multPiPlus {K : Type} [LinearOrderedField K] : List K :=
  [1.22082, -0.661119, 0, 0.880236, 1.28554, 0.18008, 0]

/-- The array `detail::multNeutron`. -/
def multNeutron {K : Type} [LinearOrderedField K] : List K :=
  [1.8136, -0.453892, 0, 0.900732, 1.187129, 0.125797, 0]

/-- The array `detail::multProton`. -/
def multProton {K : Type} [LinearOrderedField K] : List K :=
  [0.679744, -1.18508, 0.157405, 1.07033, 1.09336, -0.119505, 0.0505715]

/-- The array `detail::eScalingPiMinus`. -/
def eScalingPiMinus {K : Type} [LinearOrderedField K] : List K :=
  [1.43911, 3.03515, 6.24957, 13.4978, 35.7948, 53.0301, 63.4815, 72.3156, 80.5419, 88.7695]

/-- The array `detail::eScalingPiPlus`. -/
def eScalingPiPlus {K : Type} [LinearOrderedField K] : List K :=
  [1.48089, 3.11388, 6.53058, 14.2392, 38.2195, 54.059, 63.3495, 71.2761, 78.8044, 86.3353]

/-- The array `detail::eScalingNeutron`. -/
def eScalingNeutron {K : Type} [LinearOrderedField K] : List K :=
  [0.984621, 2.5168, 5.44376, 12.6065, 41.0249, 58.18, 69.3694, 79.4628, 88.9836, 98.8031]

/-- The array `detail::eScalingProton`. -/
def eScalingProton {K : Type} [LinearOrderedField K] : List K :=
  [1.06923, 2.75259, 5.86034, 13.6034, 42.9559, 58.9314, 69.3068, 78.6077, 87.4014, 95.5143]

/-- The pair `detail::eScalingFitPiMinus`. -/
def eScalingFitPiMinus {K : Type} [LinearOrderedField K] : K × K := (4.80037, 8.40903)

/-- The pair `detail::eScalingFitPiPlus`. -/
def eScalingFitPiPlus {K : Type} [LinearOrderedField K] : K × K := (9.92848, 7.64857)

/-- The pair `detail::eScalingFitNeutron`. -/
def eScalingFitNeutron {K : Type} [LinearOrderedField K] : K × K := (1.00611, 9.78219)

/-- The pair `detail::eScalingFitProton`. -/
def eScalingFitProton {K : Type} [LinearOrderedField K] : K × K := (8.40378, 8.74162)

/-- The array `detail::thAnglePiMinus`. -/
def thAnglePiMinus {K : Type} [LinearOrderedField K] : List K :=
  [0.28118, 0.226549, 0.027127, 0.15234, 0.17351, 0.106461]

/-- The array `detail::thAnglePiPlus`. -/
def thAnglePiPlus {K : Type} [LinearOrderedField K] : List K :=
  [0.280964, 0.230181, 0.0207953, 0.134091, 0.18035, 0.122065]

/-- The array `detail::thAngleNeutron`. -/
def thAngleNeutron {K : Type} [LinearOrderedField K] : List K :=
  [0.246799, 0.201138, 0.0291222, 0.142521, 0.204159, 0.141606]

/-- The array `detail::thAngleProton`. -/
def thAngleProton {K : Type} [LinearOrderedField K] : List K :=
  [0.248282, 0.197624, 0.0174567, 0.135244, 0.213525, 0.151874]

/-- The map `detail::parametrizations`: species code to its `Parameters` record. -/
def parametrizations {K : Type} [LinearOrderedField K] : List (Int × Parameters K) :=
  [ (-211, ⟨nuclIntProbPiMinus, multPiMinus, partTypesPiMinus, eScalingPiMinus,
            eScalingFitPiMinus, thAnglePiMinus⟩),
    (211, ⟨nuclIntProbPiPlus, multPiPlus, partTypesPiPlus, eScalingPiPlus,
           eScalingFitPiPlus, thAnglePiPlus⟩),
    (2112, ⟨nuclIntProbNeutron, multNeutron, partTypesNeutron, eScalingNeutron,
            eScalingFitNeutron, thAngleNeutron⟩),
    (2212, ⟨nuclIntProbProton, multProton, partTypesProton, eScalingProton,
            eScalingFitProton, thAngleProton⟩) ]

/-- The map `detail::probability`: parameters used to estimate the probability for a
nuclear interaction. -/
def probability {K : Type} [LinearOrderedField K] : List (Int × List K) :=
  [ (-211, [-0.85589, 1.0763, -0.028606, 0.01827, 1.3097, 0.081749]),
    (111, [0, 0, 0, 0, 0, 0]),
    (211, [-0.904434, 0.985991, -0.015039, 0.036966, 1.31977, 0.12179]),
    (2112, [-1.04484, 0.67312, 0.079093, 0.42005, 1.8368, 0.92685]),
    (2212, [-1.01212, 0.717381, 0.075032, 0.35375, 1.89725, 0.83433]) ]

/-- The map `detail::multiplicity`: parameters used to estimate the multiplicity in a
nuclear interaction. The initializer of the entry 111 lists six zeros; the seventh
element of the array is zero as well (aggregate initialization). -/
def multiplicity {K : Type} [LinearOrderedField K] : List (Int × List K) :=
  [ (-211, [1.9677, -0.399229, -0.0405634, 0.915227, 1.39859, 0.130268, 0.0292009]),
    (111, [0, 0, 0, 0, 0, 0, 0]),
    (211, [1.22082, -0.661119, 0, 0.880236, 1.28554, 0.18008, 0]),
    (2112, [1.8136, -0.453892, 0, 0.900732, 1.187129, 0.125797, 0]),
    (2212, [0.679744, -1.18508, 0.157405, 1.07033, 1.09336, -0.119505, 0.0505715]) ]

end detail

namespace ParametricNuclearInt

variable {K G : Type} [LinearOrderedField K]

/-- The inner `for` loop of `particleComposition`: the species of the first entry
whose cumulative probability is above `dice`, if there is one. -/
def particleCompositionFor (dice : K) : List (K × Int) → Option Int
  | [] => none
  | cit :: rest => if dice < cit.1 then some cit.2 else particleCompositionFor dice rest

/-- The `while` loop of `particleComposition`; `fuel` bounds the number of draws. -/
def particleCompositionWhile (env : Env K G) (particleLookUp : List (K × Int))
    (nParticles : Nat) : Nat → G → List Int → Except Err (List Int × G)
  | 0, generator, result =>
    if result.length < nParticles then .error .fuel else .ok (result, generator)
  | fuel + 1, generator, result =>
    if result.length < nParticles then
      let dice := (env.gen generator).1
      let generator := (env.gen generator).2
      match particleCompositionFor dice particleLookUp with
      | some code =>
        particleCompositionWhile env particleLookUp nParticles fuel generator (result ++ [code])
      | none => particleCompositionWhile env particleLookUp nParticles fuel generator result
    else .ok (result, generator)

/-- The member `ParametricNuclearInt::particleComposition`. -/
def particleComposition (env : Env K G) (fuel : Nat) (generator : G) (pdg : Int)
    (nParticles : Nat) : Except Err (List Int × G) :=
  match (detail.particleTypes (K := K)).lookup pdg with
  | none => .error .outOfRange
  | some particleLookUp => particleCompositionWhile env particleLookUp nParticles fuel generator []

/-- The `for` loop of one attempt in `energyFractions`: `k` iterations remain, `n` is
the loop index. It returns the result vector, `sumFractions` and the generator. -/
def energyFractionsFor (env : Env K G) (pdg : Int) (scalingFactors : List K)
    (nParticles : Nat) : Nat → Nat → G → List K → K → Except Err (List K × K × G)
  | 0, _, generator, result, sumFractions => .ok (result, sumFractions, generator)
  | k + 1, n, generator, result, sumFractions =>
    if nParticles ≤ 10 then
      match scalingFactors[n]? with
      | none => .error .outOfBounds
      | some scaling =>
        let eFraction := env.energyFraction (env.gen generator).1 scaling (n + 1)
        energyFractionsFor env pdg scalingFactors nParticles k (n + 1) (env.gen generator).2
          (result.set n eFraction) (env.add sumFractions eFraction)
    else
      match (detail.energyScalingFit (K := K)).lookup pdg with
      | none => .error .outOfRange
      | some fitParameters =>
        let eFraction := env.energyFraction (env.gen generator).1
          (fitParameters.1 + ((n + 1 : Nat) : K) * fitParameters.2) (n + 1)
        energyFractionsFor env pdg scalingFactors nParticles k (n + 1) (env.gen generator).2
          (result.set n eFraction) (env.add sumFractions eFraction)

/-- The loop `while(true)` of `energyFractions`; `fuel` bounds the number of attempts. -/
def energyFractionsWhile (env : Env K G) (pdg : Int) (scalingFactors : List K)
    (nParticles : Nat) : Nat → G → List K → Except Err (List K × G)
  | 0, _, _ => .error .fuel
  | fuel + 1, generator, result =>
    match energyFractionsFor env pdg scalingFactors nParticles nParticles 0 generator result 0 with
    | .error e => .error e
    | .ok (result, sumFractions, generator) =>
      if sumFractions ≤ 1 then .ok (result, generator)
      else energyFractionsWhile env pdg scalingFactors nParticles fuel generator result

/-- The member `ParametricNuclearInt::energyFractions`. -/
def energyFractions (env : Env K G) (fuel : Nat) (generator : G) (pdg : Int)
    (nParticles : Nat) : Except Err (List K × G) :=
  match (detail.energyScaling (K := K)).lookup pdg with
  | none => .error .outOfRange
  | some scalingFactors =>
    energyFractionsWhile env pdg scalingFactors nParticles fuel generator
      (List.replicate nParticles 0)

/-- The unit vector built from the two sampled angles in `kinematics`. -/
def direction (env : Env K G) (theta phi : K) : Vector3D K :=
  ⟨env.sin theta * env.cos phi, env.sin theta * env.sin phi, env.cos theta⟩

/-- The azimuthal angle drawn at the start of an iteration of the loop of `kinematics`. -/
def samplePhi (env : Env K G) (generator : G) : K :=
  -env.pi + 2 * env.pi * (env.gen generator).1

/-- The `for` loop of `kinematics` from index `i` on; the first list holds the species
codes `particlesPDGs[i], particlesPDGs[i+1], ...` still to be treated. -/
def kinematicsFor (env : Env K G) (particle : Particle K) (energy : List K)
    (thetaFitParameters : List K) :
    List Int → Nat → G → Except Err (List (Particle K) × G)
  | [], _, generator => .ok ([], generator)
  | code :: rest, i, generator =>
    let phi := samplePhi env generator
    let sampled := env.sampleTheta (env.gen generator).2 thetaFitParameters
    let theta := sampled.1
    let momentum := direction env theta phi
    match energy[i]? with
    | none => .error .outOfBounds
    | some fraction =>
      let kinEnergy := fraction * env.E particle
      let momentum := momentum.scale kinEnergy
      match (detail.particleData env.GeV env.MeV).lookup code with
      | none => .error .outOfRange
      | some pData =>
        match kinematicsFor env particle energy thetaFitParameters rest (i + 1) sampled.2 with
        | .error e => .error e
        | .ok (outgoingParticles, generator) =>
          .ok (⟨particle.position, momentum, pData.1, pData.2, code, 0, particle.time⟩
                 :: outgoingParticles, generator)

/-- The member `ParametricNuclearInt::kinematics`. The size of `particlesPDGs` is
passed to `energyFractions` as an `unsigned int`. The particle is taken by
reference; its value after the call is the second component of the result. -/
def kinematics (env : Env K G) (fuel : Nat) (generator : G) (particle : Particle K)
    (particlesPDGs : List Int) : Except Err (List (Particle K) × Particle K × G) :=
  match energyFractions env fuel generator particle.pdg (particlesPDGs.length % 2 ^ 32) with
  | .error e => .error e
  | .ok (energy, generator) =>
    match (detail.thetaParameters (K := K)).lookup particle.pdg with
    | none => .error .outOfRange
    | some thetaFitParameters =>
      match kinematicsFor env particle energy thetaFitParameters particlesPDGs 0 generator with
      | .error e => .error e
      | .ok (outgoingParticles, generator) => .ok (outgoingParticles, particle, generator)

/-- The loop over `detail::pdgCodes` in the call operator, with the `return` that
follows it: the body runs at the first code equal to the species of the particle and
either returns the final state hadrons or leaves the loop. -/
def callFor (env : Env K G) (generator : G) (detector : Detector K) (particle : Particle K) :
    List Int → Except Err (List (Particle K) × G)
  | [] => .ok ([particle], generator)
  | pc :: rest =>
    if particle.pdg = pc then
      let thicknessInL0 := detector.thickness / detector.averageL0
      if (env.gen generator).1 <
          env.nuclearInteractionProb (env.p particle) thicknessInL0 particle.pdg then
        env.finalStateHadrons (env.gen generator).2 thicknessInL0 particle
      else .ok ([particle], (env.gen generator).2)
    else callFor env generator detector particle rest

/-- The call operator `ParametricNuclearInt::operator()` of the implementation file. -/
def call (env : Env K G) (generator : G) (detector : Detector K) (particle : Particle K) :
    Except Err (List (Particle K) × G) :=
  callFor env generator detector particle detail.pdgCodes

/-- The generator after `i` calls of `generator()`. -/
def advance (env : Env K G) (generator : G) (i : Nat) : G :=
  (fun g => (env.gen g).2)^[i] generator

/-- The variate returned by call number `i` (counted from 0) of `generator()`. -/
def draw (env : Env K G) (generator : G) (i : Nat) : K :=
  (env.gen (advance env generator i)).1

/-- The generator at the start of iteration `i` of the loop of `kinematics`, started
with `generator`: each iteration calls `generator()` once and then `sampleTheta`. -/
def kinematicsGen (env : Env K G) (thetaFitParameters : List K) (generator : G) (i : Nat) : G :=
  (fun g => (env.sampleTheta (env.gen g).2 thetaFitParameters).2)^[i] generator

/-- A list of (cumulative probability, species code) pairs whose cumulative values are
strictly increasing in list order and lie in (0,1], the final one included. -/
def StrictlyIncreasingCDF {K : Type} [LinearOrderedField K] (l : List (K × Int)) : Prop :=
  (l.map Prod.fst).Pairwise (fun a b => a < b) ∧ (∀ e ∈ l, 0 < e.1 ∧ e.1 ≤ 1) ∧
    ∃ final, l.getLast? = some final ∧ 0 < final.1 ∧ final.1 ≤ 1

/-! ## Concrete instances used to evaluate the definitions -/

/-- An environment whose generator is the list of variates still to be drawn (an
exhausted list yields 0). Its `energyFraction` returns the variate itself, its
`sampleTheta` draws one variate as the angle, its interaction probability is the
constant one half, its `finalStateHadrons` produces no hadron, energy and momentum
of every particle are 1, and its addition is exact. -/
def listEnv {K : Type} [LinearOrderedField K] (sin cos : K → K) (pi : K) : Env K (List K) where
  gen := fun g => (g.headD 0, g.tail)
  energyFraction := fun dice _ _ => dice
  sampleTheta := fun g _ => (g.headD 0, g.tail)
  nuclearInteractionProb := fun _ _ _ => 1 / 2
  finalStateHadrons := fun g _ _ => .ok ([], g)
  E := fun _ => 1
  p := fun _ => 1
  sin := sin
  cos := cos
  pi := pi
  GeV := 1
  MeV := 1 / 1000
  add := fun a b => a + b

/-- The environment `listEnv` over the rationals, with stand-ins for sine, cosine and pi. -/
def ratEnv : Env ℚ (List ℚ) := listEnv (fun _ => 0) (fun _ => 1) 3

/-- A particle at the origin with the given species code. -/
def particleAtOrigin {K : Type} [LinearOrderedField K] (pdg : Int) : Particle K :=
  ⟨⟨0, 0, 0⟩, ⟨0, 0, 1⟩, 1, 1, pdg, 1, 0⟩

/-- A detector of thickness 1 and nuclear interaction length 10. -/
def slab {K : Type} [LinearOrderedField K] : Detector K := ⟨1, 10⟩

/-- The environment `ratEnv` with the interaction probability constantly 0. -/
def zeroProbEnv : Env ℚ (List ℚ) :=
  { ratEnv with nuclearInteractionProb := fun _ _ _ => 0 }

/-- The environment `ratEnv` with an `energyFraction` that returns the scaling parameter
it is given, divided by 10000. -/
def scalingEnv : Env ℚ (List ℚ) :=
  { ratEnv with energyFraction := fun _ scaling _ => scaling / 10000 }

/-- One attempt of the loop of `energyFractions`: the `for` loop run once, from the
generator given, on a result vector of `nParticles` zeros. It returns the block of
fractions, the accumulated sum `sumFractions` and the advanced generator. -/
def energyFractionsAttempt (env : Env K G) (pdg : Int) (nParticles : Nat) (generator : G) :
    Except Err (List K × K × G) :=
  match (detail.energyScaling (K := K)).lookup pdg with
  | none => .error .outOfRange
  | some scalingFactors =>
    energyFractionsFor env pdg scalingFactors nParticles nParticles 0 generator
      (List.replicate nParticles 0) 0

/-- The value of the variable `sumFractions` of `energyFractions` once the `for` loop has
added the fractions given to it in rank order, starting from `0.`; every addition is
the rounded addition of `double`. -/
def sumFractions (env : Env K G) (fractions : List K) : K :=
  fractions.foldl env.add 0

/-- An environment whose generator has a single state and returns the variate 0.9 at
every call; apart from the generator it is `ratEnv`. -/
def constEnv : Env ℚ Unit where
  gen := fun _ => (0.9, ())
  energyFraction := fun dice _ _ => dice
  sampleTheta := fun g _ => (0, g)
  nuclearInteractionProb := fun _ _ _ => 1 / 2
  finalStateHadrons := fun g _ _ => .ok ([], g)
  E := fun _ => 1
  p := fun _ => 1
  sin := fun _ => 0
  cos := fun _ => 1
  pi := 3
  GeV := 1
  MeV := 1 / 1000
  add := fun a b => a + b

/-- The environment `ratEnv` with an addition that rounds as `double` does just above 1:
a sum above 1 and below `1 + 2 ^ (-53)` becomes 1, its nearest `double` (the doubles next
to 1 are `1 - 2 ^ (-53)` and `1 + 2 ^ (-52)`); every other sum is left as it is, which is
what `double` does whenever the sum is itself a `double`. -/
def roundEnv : Env ℚ (List ℚ) :=
  { ratEnv with add := fun a b => if 1 < a + b ∧ a + b < 1 + 1 / 2 ^ 53 then 1 else a + b }

/-- Modelled from the spec: the multiplicity of step 3 of the interaction, "compute
multiplicity n (integer ≥ 1) from multiplicityFit and the path length via a second
parametrized curve (rounded to nearest integer, floored at 1)". The sources hold the
parameters `detail::multiplicity` and no function that reads them; `curve` is the
parametrized curve with its value rounded to the nearest integer, and a species without
parameters is the error of a failed lookup. -/
def multiplicityAtLeastOne (curve : List K → K → Int) (thicknessInL0 : K) (pdg : Int) :
    Except Err Nat :=
  match (detail.multiplicity (K := K)).lookup pdg with
  | none => .error .outOfRange
  | some multiplicityFit => .ok (max 1 (curve multiplicityFit thicknessInL0)).toNat

/-- Modelled from the spec: the member `finalStateHadrons(generator, thicknessInL0,
particle)`, which the call operator calls and the sources do not define. It is steps 3
to 7 of the interaction: the multiplicity `n`, the `n` species codes of
`particleComposition`, the secondaries of `kinematics`, and "return the sequence of
newly created secondaries". -/
def finalStateHadrons (env : Env K G) (curve : List K → K → Int) (fuel : Nat) (generator : G)
    (thicknessInL0 : K) (particle : Particle K) : Except Err (List (Particle K) × G) :=
  match multiplicityAtLeastOne curve thicknessInL0 particle.pdg with
  | .error e => .error e
  | .ok nParticles =>
    match particleComposition env fuel generator particle.pdg nParticles with
    | .error e => .error e
    | .ok (particlesPDGs, generator) =>
      match kinematics env fuel generator particle particlesPDGs with
      | .error e => .error e
      | .ok (outgoingParticles, _, generator) => .ok (outgoingParticles, generator)

/-- The environment `env` whose member `finalStateHadrons` is the model above; the model
reads the other fields of `env` only. -/
def withFinalStateHadrons (env : Env K G) (curve : List K → K → Int) (fuel : Nat) : Env K G :=
  { env with
    finalStateHadrons := fun generator thicknessInL0 particle =>
      finalStateHadrons env curve fuel generator thicknessInL0 particle }

/-- The environment `ratEnv` for particles whose momentum is three quarters of their
mass: the momentum `p()` is three quarters and the energy `E()` five quarters of the
mass. -/
def boostEnv : Env ℚ (List ℚ) :=
  { ratEnv with
    E := fun particle => 5 / 4 * particle.m
    p := fun particle => 3 / 4 * particle.m }

/-- A proton with barcode 0, as `kinematics` builds its secondaries, at the origin, with
the proton mass of `detail::particleData` and a momentum of three quarters of that mass
along the z axis. -/
def protonWithoutBarcode : Particle ℚ :=
  ⟨⟨0, 0, 0⟩, ⟨0, 0, 3 / 4 * 0.93827231⟩, 0.93827231, 1, 2212, 0, 0⟩

/-- A multiplicity curve that is constantly 1. -/
def oneSecondary : List ℚ → ℚ → Int := fun _ _ => 1

end ParametricNuclearInt

/-! ## The scattering sampler of `Scattering/GeneralMixture.hpp` -/

/-- The material of a detector: the accessors `X0()` and `Z()`. -/
structure Material (K : Type) where
  X0 : K
  Z : K
  deriving DecidableEq, Repr

/-- The detector type `detector_t` of the scattering sampler: the accessors
`thickness()` and `material()`. -/
structure MaterialProperties (K : Type) where
  thickness : K
  material : Material K
  deriving DecidableEq, Repr

/-- What `GeneralMixture.hpp` uses without defining it. -/
structure ScatterEnv (K G : Type) where
  /-- The call `udist(generator)` of a `UniformDist(0., 1.)`: the variate drawn and the
  advanced generator. -/
  uniformDist : G → K × G
  /-- The call `gaussDist(generator)` of a `GaussDist(0., 1.)`. -/
  gaussDist : G → K × G
  /-- The member `highlandForumla(p, beta, tInX0, electron)`. -/
  highlandForumla : K → K → K → Bool → K
  /-- The accessor `particle.beta()`. -/
  beta : Particle K → K
  /-- The accessor `particle.p()`. -/
  p : Particle K → K
  /-- The function `std::sqrt`. -/
  sqrt : K → K
  /-- The function `std::log`. -/
  log : K → K
  /-- The function `std::pow`. -/
  pow : K → K → K
  /-- The constant `M_SQRT2`. -/
  sqrt2 : K

/-- The struct `GeneralMixture` with its two data members. -/
structure GeneralMixture (K : Type) where
  /-- Steering parameter. -/
  log_include : Bool
  /-- Scale the mixture level. -/
  genMixtureScalor : K

namespace GeneralMixture

variable {K G : Type} [LinearOrderedField K]

/-- The member `GeneralMixture::getGaussian`. -/
def getGaussian (env : ScatterEnv K G) (beta p tInX0 scale : K) : Fin 4 → K :=
  ![15 / beta / p * env.sqrt tInX0 * scale, 1, 1, 0.5]

/-- The member `GeneralMixture::getGaussmix`. -/
def getGaussmix (env : ScatterEnv K G) (beta p tInX0 Z scale : K) : Fin 4 → K :=
  let d1 := env.log (tInX0 / (beta * beta))
  let d2 := env.log (env.pow Z (2 / 3) * tInX0 / (beta * beta))
  let var1 := (-1.843e-3 * d1 + 3.347e-2) * d1 + 8.471e-1
  let epsi :=
    if d2 < 0.5 then (6.096e-4 * d2 + 6.348e-3) * d2 + 4.841e-2
    else (-5.729e-3 * d2 + 1.106e-1) * d2 - 1.908e-2
  ![15 / beta / p * env.sqrt tInX0 * scale, var1, (1 - (1 - epsi) * var1) / epsi, epsi]

/-- The fitted tail weight `epsi` computed in `getSemigauss`, before it is floored. -/
def semigaussEpsi (env : ScatterEnv K G) (beta tInX0 Z : K) : K :=
  let N := tInX0 * 1.587E7 * env.pow Z (1 / 3) / (beta * beta) / (Z + 1)
    / env.log (287 / env.sqrt Z)
  let rho := 41000 / env.pow Z (2 / 3)
  let b := rho / env.sqrt (N * (env.log rho - 0.5))
  let n := env.pow Z 0.1 * env.log N
  let var1 := (5.783E-4 * n + 3.803E-2) * n + 1.827E-1
  let a := (((-4.590E-5 * n + 1.330E-3) * n - 1.355E-2) * n + 9.828E-2) * n + 2.822E-1
  (1 - var1) / (a * a * (env.log (b / a) - 0.5) - var1)

/-- The member `GeneralMixture::getSemigauss`. -/
def getSemigauss (env : ScatterEnv K G) (beta p tInX0 Z scale : K) : Fin 6 → K :=
  let N := tInX0 * 1.587E7 * env.pow Z (1 / 3) / (beta * beta) / (Z + 1)
    / env.log (287 / env.sqrt Z)
  let rho := 41000 / env.pow Z (2 / 3)
  let b := rho / env.sqrt (N * (env.log rho - 0.5))
  let n := env.pow Z 0.1 * env.log N
  let var1 := (5.783E-4 * n + 3.803E-2) * n + 1.827E-1
  let a := (((-4.590E-5 * n + 1.330E-3) * n - 1.355E-2) * n + 9.828E-2) * n + 2.822E-1
  let epsi := (1 - var1) / (a * a * (env.log (b / a) - 0.5) - var1)
  ![a, b, var1, if epsi > 0 then epsi else 0, 15 / beta / p * env.sqrt tInX0 * scale, N]

/-- The member `GeneralMixture::gaussmix`: the value and the advanced generator. -/
def gaussmix (env : ScatterEnv K G) (generator : G) (scattering_params : Fin 4 → K) : K × G :=
  let sigma_tot := scattering_params 0
  let var1 := scattering_params 1
  let var2 := scattering_params 2
  let epsi := scattering_params 3
  let ind : Bool := decide ((env.uniformDist generator).1 > epsi)
  let generator := (env.uniformDist generator).2
  let u := (env.uniformDist generator).1
  let generator := (env.uniformDist generator).2
  if ind then (env.sqrt var1 * env.sqrt (-2 * env.log u) * sigma_tot, generator)
  else (env.sqrt var2 * env.sqrt (-2 * env.log u) * sigma_tot, generator)

/-- The member `GeneralMixture::semigauss`: the value and the advanced generator. -/
def semigauss (env : ScatterEnv K G) (generator : G) (scattering_params : Fin 6 → K) : K × G :=
  let a := scattering_params 0
  let b := scattering_params 1
  let var1 := scattering_params 2
  let epsi := scattering_params 3
  let sigma_tot := scattering_params 4
  let ind : Bool := decide ((env.uniformDist generator).1 > epsi)
  let generator := (env.uniformDist generator).2
  let u := (env.uniformDist generator).1
  let generator := (env.uniformDist generator).2
  if ind then (env.sqrt var1 * env.sqrt (-2 * env.log u) * sigma_tot, generator)
  else (a * b * env.sqrt ((1 - u) / (u * b * b + a * a)) * sigma_tot, generator)

/-- The call operator `GeneralMixture::operator()`: the scattering angle and the
advanced generator. -/
def call (self : GeneralMixture K) (env : ScatterEnv K G) (generator : G)
    (detector : MaterialProperties K) (particle : Particle K) : K × G :=
  let tInX0 := detector.thickness / detector.material.X0
  let Z := detector.material.Z
  if particle.pdg.natAbs ≠ 11 then
    let beta2 := env.beta particle * env.beta particle
    let tob2 := tInX0 / beta2
    if tob2 > 0.6 / env.pow Z 0.6 then
      let scattering_params :=
        if tob2 > 10 then
          getGaussian env (env.beta particle) (env.p particle) tInX0 self.genMixtureScalor
        else
          getGaussmix env (env.beta particle) (env.p particle) tInX0 detector.material.Z
            self.genMixtureScalor
      let theta := gaussmix env generator scattering_params
      (env.sqrt2 * theta.1, theta.2)
    else
      let scattering_params_sg :=
        getSemigauss env (env.beta particle) (env.p particle) tInX0 detector.material.Z
          self.genMixtureScalor
      let theta := semigauss env generator scattering_params_sg
      (env.sqrt2 * theta.1, theta.2)
  else
    let theta := env.highlandForumla (env.p particle) (env.beta particle) tInX0 true
      * (env.gaussDist generator).1
    (env.sqrt2 * theta, (env.gaussDist generator).2)

/-- The local variable `tInX0` of the call operator. -/
def tInX0 (detector : MaterialProperties K) : K :=
  detector.thickness / detector.material.X0

/-- The local variable `tob2` of the call operator: `tInX0` over `beta` squared. -/
def tob2 (env : ScatterEnv K G) (detector : MaterialProperties K) (particle : Particle K) : K :=
  tInX0 detector / (env.beta particle * env.beta particle)

/-- A scattering environment whose generator is the list of variates still to be drawn
(an exhausted list yields 0); both distributions return the next variate. Every particle
has `beta` and `p` equal to 1, and the Highland width is `tInX0 / (p * beta)`. -/
def listScatterEnv {K : Type} [LinearOrderedField K] (sqrt log : K → K) (pow : K → K → K)
    (sqrt2 : K) : ScatterEnv K (List K) where
  uniformDist := fun g => (g.headD 0, g.tail)
  gaussDist := fun g => (g.headD 0, g.tail)
  highlandForumla := fun p beta tInX0 _ => tInX0 / (p * beta)
  beta := fun _ => 1
  p := fun _ => 1
  sqrt := sqrt
  log := log
  pow := pow
  sqrt2 := sqrt2

/-- The environment `listScatterEnv` over the rationals, with stand-ins for the square
root, the logarithm, the power function and the square root of 2. -/
def ratScatterEnv : ScatterEnv ℚ (List ℚ) :=
  listScatterEnv (fun x => x) (fun x => x - 1) (fun x _ => x) (3 / 2)

/-- A detector of the given thickness whose material has `X0 = 1` and `Z = 1`. -/
def plate {K : Type} [LinearOrderedField K] (thickness : K) : MaterialProperties K :=
  ⟨thickness, ⟨1, 1⟩⟩

/-- The sampler with its default scale 1. -/
def defaultMixture {K : Type} [LinearOrderedField K] : GeneralMixture K := ⟨true, 1⟩

end GeneralMixture

namespace ParametricNuclearInt

variable {K G : Type} [LinearOrderedField K]

/-! ## Auxiliary facts about the loops -/

theorem take_succ_set {α : Type} (a : α) : ∀ (l : List α) (n : Nat), n < l.length →
    (l.set n a).take (n + 1) = l.take n ++ [a]
  | [], n, h => by simp at h
  | x :: xs, 0, _ => by simp
  | x :: xs, n + 1, h => by
    have h1 : n < xs.length := by simpa using h
    simp [take_succ_set a xs n h1]

theorem energyFractionsFor_ok (env : Env K G) (pdg : Int) (scalingFactors : List K)
    (nParticles : Nat) : ∀ (k n : Nat) (g : G) (result : List K) (sum : K)
    (r : List K) (s : K) (g1 : G),
    energyFractionsFor env pdg scalingFactors nParticles k n g result sum = .ok (r, s, g1) →
    n + k ≤ result.length →
    ∃ fs : List K, fs.length = k ∧ r = result.take n ++ fs ++ result.drop (n + k) ∧
      s = fs.foldl env.add sum := by
  intro k
  induction k with
  | zero =>
    intro n g result sum r s g1 h _
    simp only [energyFractionsFor, Except.ok.injEq, Prod.mk.injEq] at h
    refine ⟨[], rfl, ?_, ?_⟩
    · simp [← h.1]
    · simp [← h.2.1]
  | succ k ih =>
    intro n g result sum r s g1 h hlen
    have hn : n < result.length := by omega
    have key : ∀ e : K,
        energyFractionsFor env pdg scalingFactors nParticles k (n + 1) (env.gen g).2
          (result.set n e) (env.add sum e) = .ok (r, s, g1) →
        ∃ fs : List K, fs.length = k + 1 ∧
          r = result.take n ++ fs ++ result.drop (n + (k + 1)) ∧
          s = fs.foldl env.add sum := by
      intro e he
      obtain ⟨fs, hfs, hr, hs⟩ := ih (n + 1) _ _ _ r s g1 he (by simp; omega)
      refine ⟨e :: fs, by simp [hfs], ?_, ?_⟩
      · rw [hr, take_succ_set e result n hn, List.drop_set_of_lt e result (by omega)]
        simp [Nat.add_assoc, Nat.add_comm 1 k]
      · rw [hs, List.foldl_cons]
    unfold energyFractionsFor at h
    split_ifs at h with h10
    · split at h
      · exact absurd h (by simp)
      · exact key _ h
    · split at h
      · exact absurd h (by simp)
      · exact key _ h

theorem energyFractionsFor_full (env : Env K G) (pdg : Int) (scalingFactors : List K)
    (nParticles : Nat) (g : G) (result r : List K) (s : K) (g1 : G)
    (h : energyFractionsFor env pdg scalingFactors nParticles nParticles 0 g result 0
      = .ok (r, s, g1))
    (hlen : result.length = nParticles) :
    r.length = nParticles ∧ s = sumFractions env r := by
  obtain ⟨fs, hfs, hr, hs⟩ :=
    energyFractionsFor_ok env pdg scalingFactors nParticles nParticles 0 g result 0 r s g1 h
      (by omega)
  have hdrop : result.drop nParticles = [] := by
    apply List.drop_eq_nil_of_le
    omega
  have hrfs : r = fs := by simpa [hdrop] using hr
  subst hrfs
  exact ⟨hfs, hs⟩

theorem energyFractionsWhile_ok (env : Env K G) (pdg : Int) (scalingFactors : List K)
    (nParticles : Nat) : ∀ (fuel : Nat) (g : G) (result fs : List K) (g1 : G),
    energyFractionsWhile env pdg scalingFactors nParticles fuel g result = .ok (fs, g1) →
    result.length = nParticles → fs.length = nParticles ∧ sumFractions env fs ≤ 1 := by
  intro fuel
  induction fuel with
  | zero =>
    intro g result fs g1 h _
    simp [energyFractionsWhile] at h
  | succ fuel ih =>
    intro g result fs g1 h hlen
    unfold energyFractionsWhile at h
    split at h
    · exact absurd h (by simp)
    · next r s g2 hfor =>
      have hfull := energyFractionsFor_full env pdg scalingFactors nParticles g result r s g2
        hfor hlen
      split_ifs at h with hs
      · simp only [Except.ok.injEq, Prod.mk.injEq] at h
        rw [← h.1]
        exact ⟨hfull.1, hfull.2 ▸ hs⟩
      · exact ih g2 r fs g1 h hfull.1

theorem energyFractions_ok (env : Env K G) (fuel : Nat) (g : G) (pdg : Int) (nParticles : Nat)
    (fs : List K) (g1 : G) (h : energyFractions env fuel g pdg nParticles = .ok (fs, g1)) :
    fs.length = nParticles ∧ sumFractions env fs ≤ 1 := by
  unfold energyFractions at h
  split at h
  · exact absurd h (by simp)
  · exact energyFractionsWhile_ok env pdg _ nParticles fuel g _ fs g1 h (by simp)

theorem particleCompositionFor_eq_find (dice : K) : ∀ l : List (K × Int),
    particleCompositionFor dice l = (l.find? (fun e => decide (dice < e.1))).map Prod.snd
  | [] => rfl
  | e :: rest => by
    by_cases h : dice < e.1
    · simp [particleCompositionFor, List.find?, h]
    · simp [particleCompositionFor, List.find?, h, particleCompositionFor_eq_find dice rest]

theorem particleCompositionFor_some (dice : K) (code : Int) : ∀ l : List (K × Int),
    particleCompositionFor dice l = some code → ∃ e ∈ l, e.2 = code ∧ dice < e.1
  | [], h => by simp [particleCompositionFor] at h
  | e :: rest, h => by
    unfold particleCompositionFor at h
    split_ifs at h with hlt
    · exact ⟨e, by simp, by simpa using h, hlt⟩
    · obtain ⟨e1, hmem, hcode, hdice⟩ := particleCompositionFor_some dice code rest h
      exact ⟨e1, by simp [hmem], hcode, hdice⟩

theorem particleCompositionFor_isSome (dice : K) : ∀ (l : List (K × Int)) (e : K × Int),
    e ∈ l → dice < e.1 → ∃ code, particleCompositionFor dice l = some code
  | [], e, hmem, _ => by simp at hmem
  | e1 :: rest, e, hmem, hlt => by
    unfold particleCompositionFor
    split_ifs with h1
    · exact ⟨e1.2, rfl⟩
    · rcases List.mem_cons.mp hmem with heq | hrest
      · exact absurd (heq ▸ hlt) h1
      · exact particleCompositionFor_isSome dice rest e hrest hlt

theorem particleCompositionWhile_ok (env : Env K G) (particleLookUp : List (K × Int))
    (nParticles : Nat) : ∀ (fuel : Nat) (g : G) (result codes : List Int) (g1 : G),
    particleCompositionWhile env particleLookUp nParticles fuel g result = .ok (codes, g1) →
    result.length ≤ nParticles →
    codes.length = nParticles ∧
      ∃ new : List Int, codes = result ++ new ∧ ∀ c ∈ new, ∃ e ∈ particleLookUp, e.2 = c := by
  intro fuel
  induction fuel with
  | zero =>
    intro g result codes g1 h hlen
    unfold particleCompositionWhile at h
    split_ifs at h with hlt
    simp only [Except.ok.injEq, Prod.mk.injEq] at h
    exact ⟨by rw [← h.1]; omega, [], by simp [h.1], by simp⟩
  | succ fuel ih =>
    intro g result codes g1 h hlen
    unfold particleCompositionWhile at h
    split_ifs at h with hlt
    · dsimp only at h
      split at h
      · next code hfor =>
        obtain ⟨hn, new, hnew, hall⟩ := ih _ _ codes g1 h (by simp; omega)
        obtain ⟨e, hmem, hcode, _⟩ := particleCompositionFor_some _ code particleLookUp hfor
        refine ⟨hn, code :: new, by simp [hnew], ?_⟩
        intro c hc
        rcases List.mem_cons.mp hc with heq | hrest
        · exact ⟨e, hmem, by rw [heq, hcode]⟩
        · exact hall c hrest
      · exact ih _ _ codes g1 h hlen
    · simp only [Except.ok.injEq, Prod.mk.injEq] at h
      exact ⟨by rw [← h.1]; omega, [], by simp [h.1], by simp⟩

theorem advance_succ {F S : Type} (env : Env F S) (g : S) (i : Nat) :
    advance env g (i + 1) = advance env (env.gen g).2 i := by
  simp [advance, Function.iterate_succ_apply]

theorem draw_succ {F S : Type} (env : Env F S) (g : S) (i : Nat) :
    draw env g (i + 1) = draw env (env.gen g).2 i := by
  simp [draw, advance_succ]

theorem particleCompositionWhile_total (env : Env K G) (particleLookUp : List (K × Int))
    (nParticles : Nat) : ∀ (m fuel : Nat) (g : G) (result : List Int),
    result.length + m = nParticles → m ≤ fuel →
    (∀ i, i < m → ∃ code, particleCompositionFor (draw env g i) particleLookUp = some code) →
    ∃ new : List Int,
      particleCompositionWhile env particleLookUp nParticles fuel g result
        = .ok (result ++ new, advance env g m) ∧
      new.length = m ∧
      ∀ i, i < m → particleCompositionFor (draw env g i) particleLookUp = new[i]? := by
  intro m
  induction m with
  | zero =>
    intro fuel g result hlen _ _
    refine ⟨[], ?_, rfl, by simp⟩
    have hnot : ¬ result.length < nParticles := by omega
    cases fuel <;> simp [particleCompositionWhile, hnot, advance]
  | succ m ih =>
    intro fuel g result hlen hfuel hdraws
    obtain ⟨fuel, rfl⟩ : ∃ f, fuel = f + 1 := ⟨fuel - 1, by omega⟩
    have hlt : result.length < nParticles := by omega
    obtain ⟨code, hcode⟩ := hdraws 0 (by omega)
    have hcode0 : particleCompositionFor (env.gen g).1 particleLookUp = some code := by
      simpa [draw, advance] using hcode
    obtain ⟨new, hrun, hnew, hall⟩ := ih fuel (env.gen g).2 (result ++ [code])
      (by simp; omega) (by omega)
      (fun i hi => by simpa [draw_succ] using hdraws (i + 1) (by omega))
    refine ⟨code :: new, ?_, by simp [hnew], ?_⟩
    · unfold particleCompositionWhile
      simp only [hlt, if_true, hcode0]
      rw [hrun, advance_succ]
      simp
    · intro i hi
      cases i with
      | zero => simpa using hcode
      | succ i => simpa [draw_succ] using hall i (by omega)

theorem kinematicsGen_succ {F S : Type} (env : Env F S) (fit : List F) (g : S) (i : Nat) :
    kinematicsGen env fit g (i + 1)
      = kinematicsGen env fit (env.sampleTheta (env.gen g).2 fit).2 i := by
  simp [kinematicsGen, Function.iterate_succ_apply]

theorem kinematicsFor_ok (env : Env K G) (particle : Particle K) (energy fit : List K) :
    ∀ (codes : List Int) (i : Nat) (g : G) (out : List (Particle K)) (g1 : G),
    kinematicsFor env particle energy fit codes i g = .ok (out, g1) →
    out.length = codes.length ∧
      ∀ (j : Nat) (code : Int), codes[j]? = some code →
        ∃ (fraction : K) (pData : K × K),
          energy[i + j]? = some fraction ∧
          (detail.particleData env.GeV env.MeV).lookup code = some pData ∧
          out[j]? = some
            ⟨particle.position,
             (direction env
                (env.sampleTheta (env.gen (kinematicsGen env fit g j)).2 fit).1
                (samplePhi env (kinematicsGen env fit g j))).scale (fraction * env.E particle),
             pData.1, pData.2, code, 0, particle.time⟩ := by
  intro codes
  induction codes with
  | nil =>
    intro i g out g1 h
    simp only [kinematicsFor, Except.ok.injEq, Prod.mk.injEq] at h
    exact ⟨by simp [← h.1], by simp⟩
  | cons c rest ih =>
    intro i g out g1 h
    unfold kinematicsFor at h
    dsimp only at h
    split at h
    · exact absurd h (by simp)
    · next fraction hfrac =>
      split at h
      · exact absurd h (by simp)
      · next pData hdata =>
        split at h
        · exact absurd h (by simp)
        · next out1 g2 hrest =>
          simp only [Except.ok.injEq, Prod.mk.injEq] at h
          obtain ⟨hlen, hall⟩ := ih (i + 1) _ out1 g2 hrest
          refine ⟨by simp [← h.1, hlen], ?_⟩
          intro j code hj
          cases j with
          | zero =>
            have hc : c = code := by simpa using hj
            subst hc
            exact ⟨fraction, pData, by simpa using hfrac, hdata, by simp [← h.1, kinematicsGen]⟩
          | succ j =>
            obtain ⟨f, pd, h1, h2, h3⟩ := hall j code (by simpa using hj)
            refine ⟨f, pd, ?_, h2, ?_⟩
            · rw [← h1]; congr 1; omega
            · rw [kinematicsGen_succ, ← h.1]
              simpa using h3

theorem kinematics_ok (env : Env K G) (fuel : Nat) (g : G) (particle : Particle K)
    (codes : List Int) (out : List (Particle K)) (p1 : Particle K) (g1 : G)
    (h : kinematics env fuel g particle codes = .ok (out, p1, g1)) :
    p1 = particle ∧ ∃ (energy : List K) (g2 : G) (fit : List K),
      energyFractions env fuel g particle.pdg (codes.length % 2 ^ 32) = .ok (energy, g2) ∧
      (detail.thetaParameters (K := K)).lookup particle.pdg = some fit ∧
      kinematicsFor env particle energy fit codes 0 g2 = .ok (out, g1) ∧
      energy.length = codes.length := by
  unfold kinematics at h
  split at h
  · exact absurd h (by simp)
  · next energy g2 hfrac =>
    split at h
    · exact absurd h (by simp)
    · next fit hfit =>
      split at h
      · exact absurd h (by simp)
      · next out1 g3 hfor =>
        simp only [Except.ok.injEq, Prod.mk.injEq] at h
        obtain ⟨hout, hp, hg⟩ := h
        subst hout hp hg
        refine ⟨rfl, energy, g2, fit, hfrac, hfit, hfor, ?_⟩
        have hlen := (energyFractions_ok env fuel g particle.pdg _ energy g2 hfrac).1
        have hmod : codes.length % 2 ^ 32 ≤ codes.length := Nat.mod_le _ _
        obtain ⟨_, hall⟩ := kinematicsFor_ok env particle energy fit codes 0 g2 out1 g3 hfor
        cases hc : codes.length with
        | zero => rw [hlen, hc]; rfl
        | succ m =>
          have hm : m < codes.length := by omega
          obtain ⟨f, _, hf, _⟩ := hall m codes[m] (List.getElem?_eq_getElem hm)
          have hlt : 0 + m < energy.length := by
            by_contra hge
            rw [List.getElem?_eq_none (by omega)] at hf
            exact absurd hf (by simp)
          omega

theorem kinematicsFor_get (env : Env K G) (particle : Particle K) (energy fit : List K)
    (codes : List Int) (i : Nat) (g : G) (out : List (Particle K)) (g1 : G)
    (h : kinematicsFor env particle energy fit codes i g = .ok (out, g1))
    (j : Nat) (s : Particle K) (hs : out[j]? = some s) :
    ∃ (code : Int) (fraction : K) (pData : K × K),
      codes[j]? = some code ∧ energy[i + j]? = some fraction ∧
      (detail.particleData env.GeV env.MeV).lookup code = some pData ∧
      s = ⟨particle.position,
           (direction env
              (env.sampleTheta (env.gen (kinematicsGen env fit g j)).2 fit).1
              (samplePhi env (kinematicsGen env fit g j))).scale (fraction * env.E particle),
           pData.1, pData.2, code, 0, particle.time⟩ := by
  obtain ⟨hlen, hall⟩ := kinematicsFor_ok env particle energy fit codes i g out g1 h
  have hj : j < codes.length := by
    rw [← hlen]
    by_contra hge
    rw [List.getElem?_eq_none (by omega)] at hs
    exact absurd hs (by simp)
  obtain ⟨f, pd, h1, h2, h3⟩ := hall j codes[j] (List.getElem?_eq_getElem hj)
  refine ⟨codes[j], f, pd, List.getElem?_eq_getElem hj, h1, h2, ?_⟩
  rw [hs] at h3
  exact Option.some.inj h3

theorem kinematicsFor_map_pdg (env : Env K G) (particle : Particle K) (energy fit : List K)
    (codes : List Int) (i : Nat) (g : G) (out : List (Particle K)) (g1 : G)
    (h : kinematicsFor env particle energy fit codes i g = .ok (out, g1)) :
    out.map Particle.pdg = codes := by
  obtain ⟨hlen, hall⟩ := kinematicsFor_ok env particle energy fit codes i g out g1 h
  apply List.ext_getElem?
  intro j
  by_cases hj : j < codes.length
  · obtain ⟨f, pd, _, _, h3⟩ := hall j codes[j] (List.getElem?_eq_getElem hj)
    rw [List.getElem?_map, h3, List.getElem?_eq_getElem hj]
    rfl
  · rw [List.getElem?_eq_none (by simp; omega), List.getElem?_eq_none (by omega)]

theorem lookup_cons_self {β : Type} (k : Int) (v : β) (t : List (Int × β)) :
    ((k, v) :: t).lookup k = some v := by
  simp [List.lookup]

theorem lookup_cons_of_ne {β : Type} (k k1 : Int) (v : β) (t : List (Int × β)) (h : k ≠ k1) :
    ((k1, v) :: t).lookup k = t.lookup k := by
  have hb : (k == k1) = false := by simpa using h
  simp [List.lookup, hb]

theorem mem_of_lookup {α β : Type} [BEq α] [LawfulBEq α] (k : α) (v : β) :
    ∀ t : List (α × β), t.lookup k = some v → (k, v) ∈ t
  | [], h => by simp at h
  | (k1, v1) :: rest, h => by
    by_cases hk : k = k1
    · subst hk
      simp only [List.lookup_cons, beq_self_eq_true, Option.some.injEq] at h
      simp [h]
    · have hb : (k == k1) = false := by simpa using hk
      simp only [List.lookup_cons, hb] at h
      exact List.mem_cons_of_mem _ (mem_of_lookup k v rest h)

theorem particleTypes_codes (GeV MeV : K) :
    ∀ x ∈ detail.particleTypes (K := K), ∀ e ∈ x.2,
      e.2 ∈ ([-211, 130, 211, 321, 2112, 2212] : List Int) ∧
      ((detail.particleData GeV MeV).lookup e.2).isSome = true := by
  have hmap : (detail.particleTypes (K := K)).map (fun x => x.2.map Prod.snd)
      = [[-211, 130, 211, 321, 2112, 2212], [-211, 211, 2112, 2212],
         [-211, 130, 211, 321, 2112, 2212], [-211, 211, 2112, 2212],
         [-211, 211, 2112, 2212]] := by
    simp [detail.particleTypes]
  have hcodes : ∀ cs ∈ (detail.particleTypes (K := K)).map (fun x => x.2.map Prod.snd),
      ∀ c ∈ cs, c ∈ ([-211, 130, 211, 321, 2112, 2212] : List Int) ∧
        ((detail.particleData GeV MeV).lookup c).isSome = true := by
    rw [hmap]
    simp [detail.particleData, List.lookup]
  intro x hx e he
  exact hcodes _ (List.mem_map_of_mem _ hx) _ (List.mem_map_of_mem _ he)

theorem kinematicsFor_ne_outOfRange (env : Env K G) (particle : Particle K)
    (energy fit : List K) : ∀ (codes : List Int) (i : Nat) (g : G),
    (∀ c ∈ codes, ((detail.particleData env.GeV env.MeV).lookup c).isSome = true) →
    kinematicsFor env particle energy fit codes i g ≠ .error .outOfRange := by
  intro codes
  induction codes with
  | nil =>
    intro i g _
    simp [kinematicsFor]
  | cons c rest ih =>
    intro i g hall
    have hc := hall c (by simp)
    have hrest := ih (i + 1) (env.sampleTheta (env.gen g).2 fit).2
      (fun c1 hc1 => hall c1 (by simp [hc1]))
    obtain ⟨pData, hdata⟩ := Option.isSome_iff_exists.mp hc
    unfold kinematicsFor
    dsimp only
    split
    · simp
    · rw [hdata]
      dsimp only
      split
      · next e he =>
        intro heq
        simp only [Except.error.injEq] at heq
        exact hrest (heq ▸ he)
      · simp

theorem energyFractions_example :
    energyFractions ratEnv 2 [0.3, 0.2, 0.5, 0, 0.5, 0] 2212 2
      = .ok ([0.3, 0.2], [0.5, 0, 0.5, 0]) := by
  simp [energyFractions, detail.energyScaling, List.lookup]
  norm_num [energyFractionsWhile, energyFractionsFor, ratEnv, listEnv]

theorem kinematics_example :
    kinematics ratEnv 2 [0.3, 0.2, 0.5, 0, 0.5, 0] (particleAtOrigin 2212) [-211, 2112]
      = .ok ([⟨⟨0, 0, 0⟩, ⟨0, 0, 0.3⟩, 0.1395701, -1, -211, 0, 0⟩,
              ⟨⟨0, 0, 0⟩, ⟨0, 0, 0.2⟩, 0.93956563, 0, 2112, 0, 0⟩],
             particleAtOrigin 2212, []) := by
  simp [kinematics, energyFractions_example, particleAtOrigin, detail.thetaParameters,
    List.lookup]
  norm_num [kinematicsFor, detail.particleData, lookup_cons_self, lookup_cons_of_ne,
    direction, samplePhi, Vector3D.scale, ratEnv, listEnv]

/-! ## The claims -/

/-- C1 as stated fails: with the rounded addition of `double` next to 1, the fractions
1/2, 1/2 and 2^(-60) of a proton with three secondaries are accepted at the first attempt,
the sum accumulated by the loop being 0 + 1/2 = 1/2, 1/2 + 1/2 = 1 and 1 + 2^(-60) = 1
after rounding; the sum of the three returned fractions is above 1. -/
theorem energyFractions_accepts_sum_above_one :
    energyFractions roundEnv 1 [1 / 2, 1 / 2, 1 / 2 ^ 60] 2212 3
        = .ok ([1 / 2, 1 / 2, 1 / 2 ^ 60], []) ∧
      roundEnv.add 0 (1 / 2) = 1 / 2 ∧ roundEnv.add (1 / 2) (1 / 2) = 1 ∧
      roundEnv.add 1 (1 / 2 ^ 60) = 1 ∧
      ¬ (([1 / 2, 1 / 2, 1 / 2 ^ 60] : List ℚ).sum ≤ 1) := by
  refine ⟨?_, ?_, ?_, ?_, ?_⟩
  · simp [energyFractions, detail.energyScaling, List.lookup]
    norm_num [energyFractionsWhile, energyFractionsFor, roundEnv, ratEnv, listEnv]
  · norm_num [roundEnv]
  · norm_num [roundEnv]
  · norm_num [roundEnv]
  · norm_num

/-- C1, amended: whenever `energyFractions` returns, it returns `nParticles` fractions
whose sum as the loop accumulates it (from 0, in rank order, every addition rounded to a
`double`) is at most 1, for every species code, every `nParticles`, every generator and
every per-fraction sampler `energyFraction`; where the addition does not round, the sum
of the fractions is at most 1. -/
theorem energyFractions_sum_le_one (env : Env K G) (fuel : Nat) (generator : G) (pdg : Int)
    (nParticles : Nat) (fractions : List K) (generator1 : G)
    (h : energyFractions env fuel generator pdg nParticles = .ok (fractions, generator1)) :
    fractions.length = nParticles ∧ sumFractions env fractions ≤ 1 ∧
      ((∀ a b, env.add a b = a + b) → fractions.sum ≤ 1) := by
  obtain ⟨hlen, hsum⟩ := energyFractions_ok env fuel generator pdg nParticles fractions
    generator1 h
  refine ⟨hlen, hsum, fun hadd => ?_⟩
  have hfun : env.add = fun a b => a + b := funext fun a => funext fun b => hadd a b
  rw [List.sum_eq_foldl]
  simpa [sumFractions, hfun] using hsum

/-- Witness of C1 amended: for a proton and three secondaries the first attempt
0.9 + 0.8 + 0.3 is rejected and the second attempt, whose accumulated sum is 1, is
returned. -/
theorem energyFractions_sum_le_one_witness :
    energyFractions roundEnv 2 [0.9, 0.8, 0.3, 1 / 2, 1 / 2, 1 / 2 ^ 60] 2212 3
        = .ok ([1 / 2, 1 / 2, 1 / 2 ^ 60], []) ∧
      ([1 / 2, 1 / 2, 1 / 2 ^ 60] : List ℚ).length = 3 ∧
      sumFractions roundEnv [1 / 2, 1 / 2, 1 / 2 ^ 60] ≤ 1 := by
  have h : energyFractions roundEnv 2 [0.9, 0.8, 0.3, 1 / 2, 1 / 2, 1 / 2 ^ 60] 2212 3
      = .ok ([1 / 2, 1 / 2, 1 / 2 ^ 60], []) := by
    simp [energyFractions, detail.energyScaling, List.lookup]
    norm_num [energyFractionsWhile, energyFractionsFor, roundEnv, ratEnv, listEnv]
  have h1 := energyFractions_sum_le_one roundEnv 2 _ 2212 3 _ _ h
  exact ⟨h, h1.1, h1.2.1⟩

theorem callFor_no_match (env : Env K G) (g : G) (detector : Detector K)
    (particle : Particle K) : ∀ codes : List Int, particle.pdg ∉ codes →
    callFor env g detector particle codes = .ok ([particle], g)
  | [], _ => rfl
  | pc :: rest, h => by
    have hne : particle.pdg ≠ pc := fun heq => h (by simp [heq])
    have hrest : particle.pdg ∉ rest := fun hmem => h (by simp [hmem])
    simp [callFor, hne, callFor_no_match env g detector particle rest hrest]

/-- C2: for a particle whose species code is none of -211, 111, 211, 2112, 2212 the call
operator returns the one-element sequence holding the unmodified particle and leaves the
generator as it was (no variate is drawn). -/
theorem call_not_applicable (env : Env K G) (generator : G) (detector : Detector K)
    (particle : Particle K)
    (h : particle.pdg ≠ -211 ∧ particle.pdg ≠ 111 ∧ particle.pdg ≠ 211 ∧
      particle.pdg ≠ 2112 ∧ particle.pdg ≠ 2212) :
    call env generator detector particle = .ok ([particle], generator) := by
  apply callFor_no_match
  simp [detail.pdgCodes, h]

/-- Witness of C2: an electron (species code 11) is returned unmodified and the
generator still holds its variate. -/
theorem call_not_applicable_witness :
    call ratEnv [0.25] slab (particleAtOrigin 11) = .ok ([particleAtOrigin 11], [0.25]) :=
  call_not_applicable ratEnv [0.25] slab (particleAtOrigin 11) (by decide)

theorem callFor_match (env : Env K G) (g : G) (detector : Detector K)
    (particle : Particle K) : ∀ codes : List Int, particle.pdg ∈ codes →
    callFor env g detector particle codes =
      if (env.gen g).1 < env.nuclearInteractionProb (env.p particle)
          (detector.thickness / detector.averageL0) particle.pdg then
        env.finalStateHadrons (env.gen g).2 (detector.thickness / detector.averageL0) particle
      else .ok ([particle], (env.gen g).2)
  | [], h => by simp at h
  | pc :: rest, h => by
    by_cases heq : particle.pdg = pc
    · simp [callFor, heq]
    · have hrest : particle.pdg ∈ rest := by
        rcases List.mem_cons.mp h with h1 | h1
        · exact absurd h1 heq
        · exact h1
      simp [callFor, heq, callFor_match env g detector particle rest hrest]

theorem finalStateHadrons_ok (env : Env K G) (curve : List K → K → Int) (fuel : Nat) (g : G)
    (thicknessInL0 : K) (particle : Particle K) (out : List (Particle K)) (g1 : G)
    (h : finalStateHadrons env curve fuel g thicknessInL0 particle = .ok (out, g1)) :
    1 ≤ out.length ∧ ∀ s ∈ out, s.barcode = 0 := by
  unfold finalStateHadrons at h
  split at h
  · exact absurd h (by simp)
  · next n hn =>
    split at h
    · exact absurd h (by simp)
    · next codes g2 hcomp =>
      split at h
      · exact absurd h (by simp)
      · next out1 p1 g3 hkin =>
        simp only [Except.ok.injEq, Prod.mk.injEq] at h
        obtain ⟨hout, _⟩ := h
        subst hout
        have hn1 : 1 ≤ n := by
          unfold multiplicityAtLeastOne at hn
          split at hn
          · exact absurd hn (by simp)
          · simp only [Except.ok.injEq] at hn
            omega
        have hcodes : codes.length = n := by
          unfold particleComposition at hcomp
          split at hcomp
          · exact absurd hcomp (by simp)
          · exact (particleCompositionWhile_ok env _ n fuel g [] codes g2 hcomp (by simp)).1
        obtain ⟨_, energy, g4, fit, _, _, hfor, _⟩ :=
          kinematics_ok env fuel g2 particle codes out1 p1 g3 hkin
        have hlen := (kinematicsFor_ok env particle energy fit codes 0 g4 out1 g3 hfor).1
        refine ⟨by omega, ?_⟩
        intro s hs
        obtain ⟨j, hj⟩ := List.getElem?_of_mem hs
        obtain ⟨code, f, pd, _, _, _, hrec⟩ :=
          kinematicsFor_get env particle energy fit codes 0 g4 out1 g3 hfor j s hj
        rw [hrec]

/-- C3 as stated fails, twice. With the occurrence draw equal to the interaction
probability (both one half) the draw does not exceed the probability, yet the call
operator returns the unmodified proton and not the final state hadrons. And with the draw
one quarter, below the probability, and a proton of barcode 0 whose momentum is three
quarters of its mass along the z axis, the one secondary is a proton with the fraction
3/5 of the energy and the polar angle 0, which is the parent itself: the parent is in the
output, and the output is the one-element sequence with the unmodified particle. -/
theorem call_boundary_and_coincidence :
    ((ratEnv.gen [1 / 2]).1 = 1 / 2 ∧
      ratEnv.nuclearInteractionProb (ratEnv.p (particleAtOrigin 2212))
        (slab.thickness / slab.averageL0) 2212 = 1 / 2 ∧
      ¬ ((ratEnv.gen [1 / 2]).1 > ratEnv.nuclearInteractionProb
          (ratEnv.p (particleAtOrigin 2212)) (slab.thickness / slab.averageL0) 2212) ∧
      call (withFinalStateHadrons ratEnv oneSecondary 2) [1 / 2] slab (particleAtOrigin 2212)
        = .ok ([particleAtOrigin 2212], []) ∧
      finalStateHadrons ratEnv oneSecondary 2 (ratEnv.gen [1 / 2]).2
          (slab.thickness / slab.averageL0) (particleAtOrigin 2212)
        = .ok ([⟨⟨0, 0, 0⟩, ⟨0, 0, 0⟩, 0.1395701, -1, -211, 0, 0⟩], [])) ∧
    ((boostEnv.gen [1 / 4, 1 / 2, 3 / 5]).1 = 1 / 4 ∧
      boostEnv.nuclearInteractionProb (boostEnv.p protonWithoutBarcode)
        (slab.thickness / slab.averageL0) 2212 = 1 / 2 ∧
      call (withFinalStateHadrons boostEnv oneSecondary 2) [1 / 4, 1 / 2, 3 / 5] slab
          protonWithoutBarcode
        = .ok ([protonWithoutBarcode], []) ∧
      finalStateHadrons boostEnv oneSecondary 2 (boostEnv.gen [1 / 4, 1 / 2, 3 / 5]).2
          (slab.thickness / slab.averageL0) protonWithoutBarcode
        = .ok ([protonWithoutBarcode], [])) := by
  have hB : finalStateHadrons boostEnv oneSecondary 2 [1 / 2, 3 / 5]
      (slab.thickness / slab.averageL0) protonWithoutBarcode
        = .ok ([protonWithoutBarcode], []) := by
    simp [finalStateHadrons, multiplicityAtLeastOne, detail.multiplicity, oneSecondary,
      protonWithoutBarcode, particleComposition, detail.particleTypes, List.lookup]
    norm_num [particleCompositionWhile, particleCompositionFor, detail.partTypesProton,
      boostEnv, ratEnv, listEnv]
    simp [kinematics, energyFractions, detail.energyScaling, detail.thetaParameters,
      List.lookup]
    norm_num [energyFractionsWhile, energyFractionsFor, kinematicsFor, detail.particleData,
      lookup_cons_self, lookup_cons_of_ne, direction, samplePhi, Vector3D.scale]
  refine ⟨⟨?_, ?_, ?_, ?_, ?_⟩, ?_, ?_, ?_, ?_⟩
  · norm_num [ratEnv, listEnv]
  · norm_num [ratEnv, listEnv]
  · norm_num [ratEnv, listEnv]
  · norm_num [call, callFor, detail.pdgCodes, withFinalStateHadrons, ratEnv, listEnv,
      particleAtOrigin, slab]
  · simp [finalStateHadrons, multiplicityAtLeastOne, detail.multiplicity, oneSecondary,
      particleAtOrigin, particleComposition, detail.particleTypes, List.lookup]
    norm_num [particleCompositionWhile, particleCompositionFor, detail.partTypesProton,
      ratEnv, listEnv]
    simp [kinematics, energyFractions, detail.energyScaling, detail.thetaParameters,
      List.lookup]
    norm_num [energyFractionsWhile, energyFractionsFor, kinematicsFor, detail.particleData,
      lookup_cons_self, lookup_cons_of_ne, direction, samplePhi, Vector3D.scale]
  · norm_num [boostEnv, ratEnv, listEnv]
  · norm_num [boostEnv, ratEnv, listEnv]
  · have hcall : call (withFinalStateHadrons boostEnv oneSecondary 2) [1 / 4, 1 / 2, 3 / 5]
        slab protonWithoutBarcode
          = finalStateHadrons boostEnv oneSecondary 2 [1 / 2, 3 / 5]
              (slab.thickness / slab.averageL0) protonWithoutBarcode := by
      norm_num [call, callFor, detail.pdgCodes, withFinalStateHadrons, boostEnv, ratEnv,
        listEnv, protonWithoutBarcode, slab]
    rw [hcall, hB]
  · have hgen : (boostEnv.gen [1 / 4, 1 / 2, 3 / 5]).2 = [1 / 2, 3 / 5] := by
      norm_num [boostEnv, ratEnv, listEnv]
    rw [hgen, hB]

/-- C3, amended: for a particle whose species code is one of -211, 111, 211, 2112, 2212
the call operator draws one variate `u` and compares it with
`P = nuclearInteractionProb(p, thickness / averageL0, pdg)`. If `u` is not below `P` it
returns the one-element sequence holding the unmodified particle; if `u` is below `P` it
returns the final state hadrons, computed from the generator advanced by that one draw:
at least one secondary, each with barcode 0. For a particle whose barcode is not 0 the
one-element sequence with the unmodified particle is returned if and only if `u` is not
below `P`, and the parent is not in the output when `u` is below `P`. -/
theorem call_occurrence_decision (env : Env K G) (curve : List K → K → Int) (fuel : Nat)
    (generator : G) (detector : Detector K) (particle : Particle K)
    (h : particle.pdg = -211 ∨ particle.pdg = 111 ∨ particle.pdg = 211 ∨
      particle.pdg = 2112 ∨ particle.pdg = 2212) :
    (env.nuclearInteractionProb (env.p particle) (detector.thickness / detector.averageL0)
        particle.pdg ≤ (env.gen generator).1 →
      call (withFinalStateHadrons env curve fuel) generator detector particle
        = .ok ([particle], (env.gen generator).2)) ∧
    ((env.gen generator).1 < env.nuclearInteractionProb (env.p particle)
        (detector.thickness / detector.averageL0) particle.pdg →
      call (withFinalStateHadrons env curve fuel) generator detector particle
        = finalStateHadrons env curve fuel (env.gen generator).2
            (detector.thickness / detector.averageL0) particle ∧
      ∀ out generator1,
        call (withFinalStateHadrons env curve fuel) generator detector particle
          = .ok (out, generator1) →
        1 ≤ out.length ∧ ∀ s ∈ out, s.barcode = 0) ∧
    (particle.barcode ≠ 0 →
      ((∃ generator1, call (withFinalStateHadrons env curve fuel) generator detector particle
          = .ok ([particle], generator1)) ↔
        env.nuclearInteractionProb (env.p particle) (detector.thickness / detector.averageL0)
          particle.pdg ≤ (env.gen generator).1) ∧
      ((env.gen generator).1 < env.nuclearInteractionProb (env.p particle)
          (detector.thickness / detector.averageL0) particle.pdg →
        ∀ out generator1,
          call (withFinalStateHadrons env curve fuel) generator detector particle
            = .ok (out, generator1) →
          particle ∉ out)) := by
  have hmem : particle.pdg ∈ detail.pdgCodes := by
    simpa [detail.pdgCodes] using h
  have hcall : call (withFinalStateHadrons env curve fuel) generator detector particle
      = if (env.gen generator).1 < env.nuclearInteractionProb (env.p particle)
            (detector.thickness / detector.averageL0) particle.pdg then
          finalStateHadrons env curve fuel (env.gen generator).2
            (detector.thickness / detector.averageL0) particle
        else .ok ([particle], (env.gen generator).2) := by
    unfold call
    rw [callFor_match (withFinalStateHadrons env curve fuel) generator detector particle _ hmem]
    rfl
  have hge : env.nuclearInteractionProb (env.p particle)
      (detector.thickness / detector.averageL0) particle.pdg ≤ (env.gen generator).1 →
      call (withFinalStateHadrons env curve fuel) generator detector particle
        = .ok ([particle], (env.gen generator).2) := by
    intro hle
    rw [hcall, if_neg (not_lt.mpr hle)]
  have hlt : (env.gen generator).1 < env.nuclearInteractionProb (env.p particle)
      (detector.thickness / detector.averageL0) particle.pdg →
      call (withFinalStateHadrons env curve fuel) generator detector particle
        = finalStateHadrons env curve fuel (env.gen generator).2
            (detector.thickness / detector.averageL0) particle := by
    intro hu
    rw [hcall, if_pos hu]
  have hout : (env.gen generator).1 < env.nuclearInteractionProb (env.p particle)
      (detector.thickness / detector.averageL0) particle.pdg →
      ∀ out generator1,
        call (withFinalStateHadrons env curve fuel) generator detector particle
          = .ok (out, generator1) →
        1 ≤ out.length ∧ ∀ s ∈ out, s.barcode = 0 := by
    intro hu out generator1 hok
    rw [hlt hu] at hok
    exact finalStateHadrons_ok env curve fuel _ _ particle out generator1 hok
  refine ⟨hge, fun hu => ⟨hlt hu, hout hu⟩, fun hbar => ⟨⟨?_, fun hle => ⟨_, hge hle⟩⟩, ?_⟩⟩
  · rintro ⟨generator1, hok⟩
    by_contra hnot
    exact hbar ((hout (not_le.mp hnot) _ _ hok).2 particle (by simp))
  · intro hu out generator1 hok hin
    exact hbar ((hout hu out generator1 hok).2 particle hin)

/-- Witness of C3 amended: a proton with barcode 1 and one secondary per interaction.
With the draw 0.75 against the probability one half it stays unmodified; with the draw
0.25 the result is the one of the final state hadrons, a single proton of barcode 0, and
the parent is not in it. -/
theorem call_occurrence_decision_witness :
    call (withFinalStateHadrons ratEnv oneSecondary 2) [0.75] slab (particleAtOrigin 2212)
        = .ok ([particleAtOrigin 2212], []) ∧
      (∀ out generator1,
        call (withFinalStateHadrons ratEnv oneSecondary 2) [0.25, 0.5, 0.3] slab
            (particleAtOrigin 2212) = .ok (out, generator1) →
          particleAtOrigin 2212 ∉ out) ∧
      call (withFinalStateHadrons ratEnv oneSecondary 2) [0.25, 0.5, 0.3] slab
          (particleAtOrigin 2212)
        = .ok ([⟨⟨0, 0, 0⟩, ⟨0, 0, 0.3⟩, 0.93827231, 1, 2212, 0, 0⟩], []) := by
  refine ⟨?_, ?_, ?_⟩
  · exact (call_occurrence_decision ratEnv oneSecondary 2 [0.75] slab (particleAtOrigin 2212)
      (by simp [particleAtOrigin])).1 (by norm_num [ratEnv, listEnv])
  · exact ((call_occurrence_decision ratEnv oneSecondary 2 [0.25, 0.5, 0.3] slab
      (particleAtOrigin 2212) (by simp [particleAtOrigin])).2.2
      (by simp [particleAtOrigin])).2 (by norm_num [ratEnv, listEnv])
  · rw [((call_occurrence_decision ratEnv oneSecondary 2 [0.25, 0.5, 0.3] slab
      (particleAtOrigin 2212) (by simp [particleAtOrigin])).2.1
      (by norm_num [ratEnv, listEnv])).1]
    simp [finalStateHadrons, multiplicityAtLeastOne, detail.multiplicity, oneSecondary,
      particleAtOrigin, particleComposition, detail.particleTypes, List.lookup]
    norm_num [particleCompositionWhile, particleCompositionFor, detail.partTypesProton,
      ratEnv, listEnv]
    simp [kinematics, energyFractions, detail.energyScaling, detail.thetaParameters,
      List.lookup]
    norm_num [energyFractionsWhile, energyFractionsFor, kinematicsFor, detail.particleData,
      lookup_cons_self, lookup_cons_of_ne, direction, samplePhi, Vector3D.scale]

/-- C4 as stated fails: for a negative pion and one secondary, the draws 0.999 and 0.5
lie in [0,1), no entry of the cumulative list exceeds the first draw, the call consumes
both variates (the generator is left empty, not advanced by one draw) and the returned
code stems from the second draw. -/
theorem particleComposition_discards_high_draw :
    (∀ u ∈ ([0.999, 0.5] : List ℚ), 0 ≤ u ∧ u < 1) ∧
      (detail.particleTypes (K := ℚ)).lookup (-211) = some detail.partTypesPiMinus ∧
      detail.partTypesPiMinus.find? (fun e => decide (draw ratEnv [0.999, 0.5] 0 < e.1))
        = none ∧
      particleComposition ratEnv 2 [0.999, 0.5] (-211) 1 = .ok ([-211], []) ∧
      advance ratEnv [0.999, 0.5] 1 = [0.5] ∧
      advance ratEnv [0.999, 0.5] 2 = [] := by
  refine ⟨?_, ?_, ?_, ?_, ?_, ?_⟩
  · norm_num
  · simp [detail.particleTypes, detail.partTypesPiMinus, List.lookup]
  · norm_num [detail.partTypesPiMinus, draw, advance, ratEnv, listEnv, List.find?]
  · norm_num [particleComposition, particleCompositionWhile, particleCompositionFor,
      detail.particleTypes, ratEnv, listEnv, List.lookup]
  · simp [advance, ratEnv, listEnv]
  · simp [advance, ratEnv, listEnv]

/-- C4, amended: for a species code with cumulative list `l`, if each of the first
`nParticles` draws lies below the final cumulative value of `l`, then (given fuel for
`nParticles` iterations) `particleComposition` returns, consumes exactly `nParticles`
variates, and its `i`-th code is the species of the first entry of `l`, in list order,
whose cumulative value exceeds the `i`-th draw. -/
theorem particleComposition_first_match (env : Env K G) (fuel : Nat) (generator : G)
    (pdg : Int) (nParticles : Nat) (l : List (K × Int))
    (hl : (detail.particleTypes (K := K)).lookup pdg = some l)
    (hfuel : nParticles ≤ fuel)
    (hdraws : ∀ i, i < nParticles →
      ∃ final, l.getLast? = some final ∧ draw env generator i < final.1) :
    ∃ codes : List Int,
      particleComposition env fuel generator pdg nParticles
        = .ok (codes, advance env generator nParticles) ∧
      codes.length = nParticles ∧
      ∀ i, i < nParticles →
        ∃ e, l.find? (fun e => decide (draw env generator i < e.1)) = some e ∧
          codes[i]? = some e.2 := by
  have hsome : ∀ i, i < nParticles →
      ∃ code, particleCompositionFor (draw env generator i) l = some code := by
    intro i hi
    obtain ⟨final, hlast, hlt⟩ := hdraws i hi
    exact particleCompositionFor_isSome _ l final (List.mem_of_getLast?_eq_some hlast) hlt
  obtain ⟨new, hrun, hlen, hall⟩ :=
    particleCompositionWhile_total env l nParticles nParticles fuel generator []
      (by simp) hfuel hsome
  refine ⟨new, ?_, hlen, ?_⟩
  · unfold particleComposition
    rw [hl]
    simpa using hrun
  · intro i hi
    have hfind := hall i hi
    rw [particleCompositionFor_eq_find, List.getElem?_eq_getElem (by omega)] at hfind
    cases hf : l.find? (fun e => decide (draw env generator i < e.1)) with
    | none => rw [hf] at hfind; exact absurd hfind (by simp)
    | some e =>
      rw [hf] at hfind
      refine ⟨e, rfl, ?_⟩
      rw [List.getElem?_eq_getElem (by omega)]
      simpa using hfind.symm

/-- Witness of C4 amended: for a negative pion the draws 0.5 and 0.6 lie below the final
cumulative value 0.996385. -/
theorem particleComposition_first_match_witness :
    ∃ codes : List Int,
      particleComposition ratEnv 2 [0.5, 0.6] (-211) 2
        = .ok (codes, advance ratEnv [0.5, 0.6] 2) ∧
      codes.length = 2 ∧
      ∀ i, i < 2 →
        ∃ e, detail.partTypesPiMinus.find?
            (fun e => decide (draw ratEnv [0.5, 0.6] i < e.1)) = some e ∧
          codes[i]? = some e.2 :=
  particleComposition_first_match ratEnv 2 [0.5, 0.6] (-211) 2 detail.partTypesPiMinus
    (by simp [detail.particleTypes, detail.partTypesPiMinus, List.lookup])
    (by decide)
    (by
      intro i hi
      refine ⟨(0.996385, 2212), by simp [detail.partTypesPiMinus], ?_⟩
      interval_cases i <;> norm_num [draw, advance, ratEnv, listEnv])

/-- C5: the count of secondaries is preserved. Whenever they return,
`particleComposition` yields exactly `nParticles` codes, `energyFractions` yields exactly
`nParticles` fractions, and `kinematics` yields as many particles as it was given codes,
the `i`-th particle carrying the `i`-th code. -/
theorem secondary_count_preserved (env : Env K G) (fuel : Nat) (generator : G) (pdg : Int)
    (nParticles : Nat) (particle : Particle K) (particlesPDGs : List Int) :
    (∀ codes g1, particleComposition env fuel generator pdg nParticles = .ok (codes, g1) →
      codes.length = nParticles) ∧
    (∀ fractions g1, energyFractions env fuel generator pdg nParticles = .ok (fractions, g1) →
      fractions.length = nParticles) ∧
    (∀ out p1 g1, kinematics env fuel generator particle particlesPDGs = .ok (out, p1, g1) →
      out.length = particlesPDGs.length ∧ out.map Particle.pdg = particlesPDGs) := by
  refine ⟨?_, ?_, ?_⟩
  · intro codes g1 h
    unfold particleComposition at h
    split at h
    · exact absurd h (by simp)
    · exact (particleCompositionWhile_ok env _ nParticles fuel generator [] codes g1 h
        (by simp)).1
  · intro fractions g1 h
    exact (energyFractions_ok env fuel generator pdg nParticles fractions g1 h).1
  · intro out p1 g1 h
    obtain ⟨_, energy, g2, fit, _, _, hfor, _⟩ :=
      kinematics_ok env fuel generator particle particlesPDGs out p1 g1 h
    exact ⟨(kinematicsFor_ok env particle energy fit particlesPDGs 0 g2 out g1 hfor).1,
      kinematicsFor_map_pdg env particle energy fit particlesPDGs 0 g2 out g1 hfor⟩

/-- Witness of C5: for a proton all three functions return: `particleComposition` with
two codes, `energyFractions` with two fractions, and `kinematics`, given the codes -211
and 2112, with two particles carrying these codes in this order. -/
theorem secondary_count_preserved_witness :
    particleComposition ratEnv 2 [0.3, 0.2, 0.5, 0, 0.5, 0] 2212 2
        = .ok ([2112, 2112], [0.5, 0, 0.5, 0]) ∧
      ([2112, 2112] : List Int).length = 2 ∧
      energyFractions ratEnv 2 [0.3, 0.2, 0.5, 0, 0.5, 0] 2212 2
        = .ok ([0.3, 0.2], [0.5, 0, 0.5, 0]) ∧
      ([0.3, 0.2] : List ℚ).length = 2 ∧
      ∃ out : List (Particle ℚ),
        kinematics ratEnv 2 [0.3, 0.2, 0.5, 0, 0.5, 0] (particleAtOrigin 2212) [-211, 2112]
          = .ok (out, particleAtOrigin 2212, []) ∧
        out.length = ([-211, 2112] : List Int).length ∧
        out.map Particle.pdg = [-211, 2112] := by
  have h1 : particleComposition ratEnv 2 [0.3, 0.2, 0.5, 0, 0.5, 0] 2212 2
      = .ok ([2112, 2112], [0.5, 0, 0.5, 0]) := by
    simp [particleComposition, detail.particleTypes, List.lookup]
    norm_num [particleCompositionWhile, particleCompositionFor, ratEnv, listEnv]
  have h2 := energyFractions_example
  have h3 := kinematics_example
  have h := secondary_count_preserved ratEnv 2 [0.3, 0.2, 0.5, 0, 0.5, 0] 2212 2
    (particleAtOrigin 2212) [-211, 2112]
  exact ⟨h1, h.1 _ _ h1, h2, h.2.1 _ _ h2, _, h3, h.2.2 _ _ _ h3⟩

/-- C6: every code returned by `particleComposition` is the species of an entry of the
cumulative list of the parent species; every code listed in a cumulative list of
`detail::particleTypes` is one of -211, 130, 211, 321, 2112, 2212 and a key of
`detail::particleData`; hence the mass and charge lookup succeeds for every returned code
and the loop of `kinematics` never fails with `std::out_of_range` on the returned codes. -/
theorem particleComposition_codes_in_tables (env : Env K G) (fuel : Nat) (generator : G)
    (pdg : Int) (nParticles : Nat) (codes : List Int) (g1 : G)
    (h : particleComposition env fuel generator pdg nParticles = .ok (codes, g1)) :
    (∃ l, (detail.particleTypes (K := K)).lookup pdg = some l ∧
      ∀ c ∈ codes, ∃ e ∈ l, e.2 = c) ∧
    (∀ x ∈ detail.particleTypes (K := K), ∀ e ∈ x.2,
      e.2 ∈ ([-211, 130, 211, 321, 2112, 2212] : List Int) ∧
      ((detail.particleData env.GeV env.MeV).lookup e.2).isSome = true) ∧
    (∀ c ∈ codes, ((detail.particleData env.GeV env.MeV).lookup c).isSome = true) ∧
    (∀ (particle : Particle K) (energy fit : List K) (i : Nat) (g2 : G),
      kinematicsFor env particle energy fit codes i g2 ≠ .error .outOfRange) := by
  have hlist : ∃ l, (detail.particleTypes (K := K)).lookup pdg = some l ∧
      ∀ c ∈ codes, ∃ e ∈ l, e.2 = c := by
    unfold particleComposition at h
    split at h
    · exact absurd h (by simp)
    · next l hl =>
      obtain ⟨_, new, hnew, hall⟩ :=
        particleCompositionWhile_ok env l nParticles fuel generator [] codes g1 h (by simp)
      refine ⟨l, hl, ?_⟩
      intro c hc
      exact hall c (by simpa [hnew] using hc)
  have hdata : ∀ c ∈ codes,
      ((detail.particleData env.GeV env.MeV).lookup c).isSome = true := by
    obtain ⟨l, hl, hall⟩ := hlist
    intro c hc
    obtain ⟨e, he, hec⟩ := hall c hc
    have := (particleTypes_codes env.GeV env.MeV (pdg, l) (mem_of_lookup pdg l _ hl) e he).2
    rwa [hec] at this
  exact ⟨hlist, particleTypes_codes env.GeV env.MeV, hdata,
    fun particle energy fit i g2 =>
      kinematicsFor_ne_outOfRange env particle energy fit codes i g2 hdata⟩

/-- Witness of C6: the two codes sampled for a proton with the draws 0.3 and 0.02. -/
theorem particleComposition_codes_in_tables_witness :
    particleComposition ratEnv 2 [0.3, 0.02] 2212 2 = .ok ([2112, 211], []) ∧
      ∀ c ∈ ([2112, 211] : List Int),
        ((detail.particleData ratEnv.GeV ratEnv.MeV).lookup c).isSome = true := by
  have h : particleComposition ratEnv 2 [0.3, 0.02] 2212 2 = .ok ([2112, 211], []) := by
    simp [particleComposition, detail.particleTypes, List.lookup]
    norm_num [particleCompositionWhile, particleCompositionFor, ratEnv, listEnv]
  exact ⟨h, (particleComposition_codes_in_tables ratEnv 2 [0.3, 0.02] 2212 2 _ _ h).2.2.1⟩

/-- C7: every secondary built by `kinematics` has the position and the time of the
parent, barcode 0, the species code sampled for it (the codes of the secondaries are the
given codes, in order) and the mass and charge that `detail::particleData` lists for
that code; the parent particle is the same after the call. -/
theorem kinematics_secondary_fields (env : Env K G) (fuel : Nat) (generator : G)
    (particle : Particle K) (particlesPDGs : List Int) (out : List (Particle K))
    (p1 : Particle K) (g1 : G)
    (h : kinematics env fuel generator particle particlesPDGs = .ok (out, p1, g1)) :
    p1 = particle ∧ out.map Particle.pdg = particlesPDGs ∧
      ∀ s ∈ out, s.position = particle.position ∧ s.time = particle.time ∧
        s.barcode = 0 ∧
        (detail.particleData env.GeV env.MeV).lookup s.pdg = some (s.m, s.q) := by
  obtain ⟨hp, energy, g2, fit, _, _, hfor, _⟩ :=
    kinematics_ok env fuel generator particle particlesPDGs out p1 g1 h
  refine ⟨hp, kinematicsFor_map_pdg env particle energy fit particlesPDGs 0 g2 out g1 hfor, ?_⟩
  intro s hs
  obtain ⟨j, hj⟩ := List.getElem?_of_mem hs
  obtain ⟨code, f, pd, _, _, hdata, hrec⟩ :=
    kinematicsFor_get env particle energy fit particlesPDGs 0 g2 out g1 hfor j s hj
  subst hrec
  exact ⟨rfl, rfl, rfl, hdata⟩

/-- Witness of C7: the secondaries -211 and 2112 of a proton at the origin. -/
theorem kinematics_secondary_fields_witness :
    ∃ out : List (Particle ℚ),
      kinematics ratEnv 2 [0.3, 0.2, 0.5, 0, 0.5, 0] (particleAtOrigin 2212) [-211, 2112]
        = .ok (out, particleAtOrigin 2212, []) ∧
      out.map Particle.pdg = [-211, 2112] ∧
      ∀ s ∈ out, s.position = (particleAtOrigin (K := ℚ) 2212).position ∧
        s.time = (particleAtOrigin (K := ℚ) 2212).time ∧ s.barcode = 0 ∧
        (detail.particleData ratEnv.GeV ratEnv.MeV).lookup s.pdg = some (s.m, s.q) := by
  have h3 := kinematics_example
  exact ⟨_, h3, (kinematics_secondary_fields ratEnv 2 _ _ _ _ _ _ h3).2⟩

/-- C8: over the real numbers, with `std::sin` and `std::cos` the real sine and cosine,
the direction built from any two angles has unit length, and the momentum of secondary
`i` is `f_i * E * (sin θ cos φ, sin θ sin φ, cos θ)` for the angles sampled in iteration
`i`, so that its magnitude is `f_i * E` whenever `f_i * E ≥ 0`. -/
theorem kinematics_momentum (env : Env ℝ G) (hsin : env.sin = Real.sin)
    (hcos : env.cos = Real.cos) (fuel : Nat) (generator : G) (particle : Particle ℝ)
    (particlesPDGs : List Int) (out : List (Particle ℝ)) (p1 : Particle ℝ) (g1 : G)
    (h : kinematics env fuel generator particle particlesPDGs = .ok (out, p1, g1)) :
    (∀ theta phi : ℝ, (direction env theta phi).x ^ 2 + (direction env theta phi).y ^ 2
      + (direction env theta phi).z ^ 2 = 1) ∧
    ∃ (energy : List ℝ) (g2 : G) (fit : List ℝ),
      energyFractions env fuel generator particle.pdg (particlesPDGs.length % 2 ^ 32)
        = .ok (energy, g2) ∧
      (detail.thetaParameters (K := ℝ)).lookup particle.pdg = some fit ∧
      ∀ (i : Nat) (s : Particle ℝ), out[i]? = some s →
        ∃ f theta phi : ℝ, energy[i]? = some f ∧
          theta = (env.sampleTheta (env.gen (kinematicsGen env fit g2 i)).2 fit).1 ∧
          phi = -env.pi + 2 * env.pi * (env.gen (kinematicsGen env fit g2 i)).1 ∧
          s.momentum = ⟨f * env.E particle * (Real.sin theta * Real.cos phi),
                        f * env.E particle * (Real.sin theta * Real.sin phi),
                        f * env.E particle * Real.cos theta⟩ ∧
          (0 ≤ f * env.E particle →
            Real.sqrt (s.momentum.x ^ 2 + s.momentum.y ^ 2 + s.momentum.z ^ 2)
              = f * env.E particle) := by
  have hunit : ∀ theta phi : ℝ, (Real.sin theta * Real.cos phi) ^ 2
      + (Real.sin theta * Real.sin phi) ^ 2 + Real.cos theta ^ 2 = 1 := by
    intro theta phi
    linear_combination Real.sin theta ^ 2 * Real.sin_sq_add_cos_sq phi
      + Real.sin_sq_add_cos_sq theta
  refine ⟨fun theta phi => by simpa [direction, hsin, hcos] using hunit theta phi, ?_⟩
  obtain ⟨_, energy, g2, fit, hfrac, hfit, hfor, _⟩ :=
    kinematics_ok env fuel generator particle particlesPDGs out p1 g1 h
  refine ⟨energy, g2, fit, hfrac, hfit, ?_⟩
  intro i s hs
  obtain ⟨code, f, pd, _, hf, _, hrec⟩ :=
    kinematicsFor_get env particle energy fit particlesPDGs 0 g2 out g1 hfor i s hs
  refine ⟨f, _, _, by simpa using hf, rfl, rfl, ?_, ?_⟩
  · rw [hrec]
    simp only [direction, samplePhi, Vector3D.scale, hsin, hcos]
    congr 1 <;> ring
  · intro hnonneg
    rw [hrec]
    simp only [direction, samplePhi, Vector3D.scale, hsin, hcos]
    have hu := hunit (env.sampleTheta (env.gen (kinematicsGen env fit g2 i)).2 fit).1
      (-env.pi + 2 * env.pi * (env.gen (kinematicsGen env fit g2 i)).1)
    rw [show ∀ a b c k : ℝ, (a * k) ^ 2 + (b * k) ^ 2 + (c * k) ^ 2
        = k ^ 2 * (a ^ 2 + b ^ 2 + c ^ 2) from fun a b c k => by ring, hu, mul_one]
    exact Real.sqrt_sq hnonneg

/-- Witness of C8: a proton of energy 1 with one secondary of fraction 0.3, azimuthal
draw 0.5 and polar angle 0; the momentum is (0, 0, 0.3) and has magnitude 0.3. -/
theorem kinematics_momentum_witness :
    ∃ out : List (Particle ℝ),
      kinematics (listEnv Real.sin Real.cos Real.pi) 1 [0.3, 0.5, 0] (particleAtOrigin 2212)
        [2212] = .ok (out, particleAtOrigin 2212, []) ∧
      ∀ theta phi : ℝ,
        (direction (listEnv (K := ℝ) Real.sin Real.cos Real.pi) theta phi).x ^ 2
          + (direction (listEnv (K := ℝ) Real.sin Real.cos Real.pi) theta phi).y ^ 2
          + (direction (listEnv (K := ℝ) Real.sin Real.cos Real.pi) theta phi).z ^ 2 = 1 := by
  have h2 : energyFractions (listEnv Real.sin Real.cos Real.pi) 1 [0.3, 0.5, 0] 2212 1
      = .ok ([0.3], [0.5, 0]) := by
    simp [energyFractions, detail.energyScaling, List.lookup]
    norm_num [energyFractionsWhile, energyFractionsFor, listEnv]
  have h3 : kinematics (listEnv Real.sin Real.cos Real.pi) 1 [0.3, 0.5, 0]
      (particleAtOrigin 2212) [2212]
        = .ok ([⟨⟨0, 0, 0⟩, ⟨0, 0, 0.3⟩, 0.93827231, 1, 2212, 0, 0⟩],
               particleAtOrigin 2212, []) := by
    simp [kinematics, h2, particleAtOrigin, detail.thetaParameters, List.lookup]
    norm_num [kinematicsFor, detail.particleData, lookup_cons_self, lookup_cons_of_ne,
      direction, samplePhi, Vector3D.scale, listEnv]
  exact ⟨_, h3, (kinematics_momentum (listEnv Real.sin Real.cos Real.pi) rfl rfl 1 _ _ _ _ _ _
    h3).1⟩

/-- C10: for each of the species -211, 111, 211, 2112, 2212 the cumulative list in
`detail::particleTypes`, and each of the lists `partTypesPiMinus`, `partTypesPiPlus`,
`partTypesNeutron`, `partTypesProton`, has strictly increasing cumulative probabilities,
every value in (0,1], and in particular a final value in (0,1]. -/
theorem cumulative_lists_increasing {F : Type} [LinearOrderedField F] :
    (∀ pdg ∈ detail.pdgCodes, ∃ l : List (F × Int),
      (detail.particleTypes (K := F)).lookup pdg = some l ∧ StrictlyIncreasingCDF l) ∧
    detail.pdgCodes = [-211, 111, 211, 2112, 2212] ∧
    StrictlyIncreasingCDF (detail.partTypesPiMinus (K := F)) ∧
    StrictlyIncreasingCDF (detail.partTypesPiPlus (K := F)) ∧
    StrictlyIncreasingCDF (detail.partTypesNeutron (K := F)) ∧
    StrictlyIncreasingCDF (detail.partTypesProton (K := F)) := by
  refine ⟨?_, rfl, ?_, ?_, ?_, ?_⟩
  · intro pdg hpdg
    simp only [detail.pdgCodes, List.mem_cons, List.mem_singleton, List.not_mem_nil,
      or_false] at hpdg
    rcases hpdg with rfl | rfl | rfl | rfl | rfl
    all_goals
      simp only [detail.particleTypes]
      refine ⟨_, rfl, ?_⟩
      simp only [StrictlyIncreasingCDF]
      norm_num
  · simp only [StrictlyIncreasingCDF, detail.partTypesPiMinus]
    norm_num
  · simp only [StrictlyIncreasingCDF, detail.partTypesPiPlus]
    norm_num
  · simp only [StrictlyIncreasingCDF, detail.partTypesNeutron]
    norm_num
  · simp only [StrictlyIncreasingCDF, detail.partTypesProton]
    norm_num

theorem lookup_five_keys {β : Type} (pdg : Int) (v1 v2 v3 v4 v5 : β) :
    ([(-211, v1), (111, v2), (211, v3), (2112, v4), (2212, v5)] : List (Int × β)).lookup pdg
      = none ↔
    pdg ≠ -211 ∧ pdg ≠ 111 ∧ pdg ≠ 211 ∧ pdg ≠ 2112 ∧ pdg ≠ 2212 := by
  by_cases h1 : pdg = -211
  · subst h1; simp [List.lookup]
  by_cases h2 : pdg = 111
  · subst h2; simp [List.lookup]
  by_cases h3 : pdg = 211
  · subst h3; simp [List.lookup]
  by_cases h4 : pdg = 2112
  · subst h4; simp [List.lookup]
  by_cases h5 : pdg = 2212
  · subst h5; simp [List.lookup]
  simp [lookup_cons_of_ne, h1, h2, h3, h4, h5]

theorem kinematicsFor_bad_code (env : Env K G) (particle : Particle K)
    (energy fit : List K) : ∀ (codes : List Int) (i : Nat) (g : G),
    (∃ c ∈ codes, (detail.particleData env.GeV env.MeV).lookup c = none) →
    i + codes.length ≤ energy.length →
    kinematicsFor env particle energy fit codes i g = .error .outOfRange := by
  intro codes
  induction codes with
  | nil =>
    intro i g hbad _
    obtain ⟨c, hc, _⟩ := hbad
    simp at hc
  | cons c rest ih =>
    intro i g hbad hlen
    have hi : i < energy.length := by simp at hlen; omega
    unfold kinematicsFor
    dsimp only
    rw [List.getElem?_eq_getElem hi]
    dsimp only
    cases hdata : (detail.particleData env.GeV env.MeV).lookup c with
    | none => rfl
    | some pData =>
      dsimp only
      have hrest : ∃ c1 ∈ rest, (detail.particleData env.GeV env.MeV).lookup c1 = none := by
        obtain ⟨c1, hc1, hnone⟩ := hbad
        rcases List.mem_cons.mp hc1 with heq | hmem
        · rw [heq, hdata] at hnone
          exact absurd hnone (by simp)
        · exact ⟨c1, hmem, hnone⟩
      rw [ih (i + 1) _ hrest (by simp at hlen; omega)]

/-- C11: the species code 111 is one of `detail::pdgCodes`, its six coefficients in
`detail::probability` are all zero, and whenever the occurrence probability of a neutral
pion is 0 the call operator returns the one-element sequence holding the unmodified
particle for every occurrence draw `u ≥ 0`, the draw `u = 0` included. -/
theorem neutral_pion_never_interacts (env : Env K G) (generator : G) (detector : Detector K)
    (particle : Particle K) (hpdg : particle.pdg = 111)
    (hprob : env.nuclearInteractionProb (env.p particle)
      (detector.thickness / detector.averageL0) 111 = 0)
    (hu : 0 ≤ (env.gen generator).1) :
    (111 : Int) ∈ detail.pdgCodes ∧
      (detail.probability (K := K)).lookup 111 = some [0, 0, 0, 0, 0, 0] ∧
      call env generator detector particle = .ok ([particle], (env.gen generator).2) := by
  refine ⟨by decide, rfl, ?_⟩
  unfold call
  rw [callFor_match env generator detector particle _ (by rw [hpdg]; decide), hpdg, hprob,
    if_neg (not_lt.mpr hu)]

/-- Witness of C11: a neutral pion with interaction probability 0 and occurrence draw 0
is returned unmodified. -/
theorem neutral_pion_never_interacts_witness :
    call zeroProbEnv [0] slab (particleAtOrigin 111) = .ok ([particleAtOrigin 111], []) :=
  (neutral_pion_never_interacts zeroProbEnv [0] slab (particleAtOrigin 111) rfl rfl
    (by norm_num [zeroProbEnv, ratEnv, listEnv])).2.2

/-- C12: a species code that is not a key of the table consulted is rejected with
`std::out_of_range`, for every `nParticles` (0 included): by `particleComposition`
(table `particleTypes`), by `energyFractions` (table `energyScaling`) and by `kinematics`
(tables `energyScaling` and `thetaParameters`, keyed by the parent). When a secondary
code is not a key of `detail::particleData`, `kinematics` never returns a result, and it
fails with `std::out_of_range` as soon as `energyFractions` returns for a parent that is
a key of `thetaParameters`. -/
theorem unsupported_species_rejected (env : Env K G) (fuel : Nat) (generator : G)
    (pdg : Int) (nParticles : Nat) (particle : Particle K) (particlesPDGs : List Int) :
    ((detail.particleTypes (K := K)).lookup pdg = none →
      particleComposition env fuel generator pdg nParticles = .error .outOfRange) ∧
    ((detail.energyScaling (K := K)).lookup pdg = none →
      energyFractions env fuel generator pdg nParticles = .error .outOfRange) ∧
    (((detail.energyScaling (K := K)).lookup particle.pdg = none ∨
        (detail.thetaParameters (K := K)).lookup particle.pdg = none) →
      kinematics env fuel generator particle particlesPDGs = .error .outOfRange) ∧
    ((∃ c ∈ particlesPDGs, (detail.particleData env.GeV env.MeV).lookup c = none) →
      (∀ out p1 g1,
        kinematics env fuel generator particle particlesPDGs ≠ .ok (out, p1, g1)) ∧
      (∀ energy g2 fit, particlesPDGs.length < 2 ^ 32 →
        energyFractions env fuel generator particle.pdg (particlesPDGs.length % 2 ^ 32)
          = .ok (energy, g2) →
        (detail.thetaParameters (K := K)).lookup particle.pdg = some fit →
        kinematics env fuel generator particle particlesPDGs = .error .outOfRange)) := by
  refine ⟨?_, ?_, ?_, ?_⟩
  · intro h
    simp [particleComposition, h]
  · intro h
    simp [energyFractions, h]
  · intro h
    have hscaling : (detail.energyScaling (K := K)).lookup particle.pdg = none := by
      rcases h with h | h
      · exact h
      · unfold detail.thetaParameters at h
        unfold detail.energyScaling
        rw [lookup_five_keys] at h ⊢
        exact h
    simp [kinematics, energyFractions, hscaling]
  · intro hbad
    constructor
    · intro out p1 g1 hok
      obtain ⟨_, energy, g2, fit, _, _, hfor, _⟩ :=
        kinematics_ok env fuel generator particle particlesPDGs out p1 g1 hok
      obtain ⟨c, hc, hnone⟩ := hbad
      obtain ⟨j, hj⟩ := List.getElem?_of_mem hc
      obtain ⟨_, pd, _, hsome, _⟩ :=
        (kinematicsFor_ok env particle energy fit particlesPDGs 0 g2 out g1 hfor).2 j c hj
      rw [hnone] at hsome
      exact absurd hsome (by simp)
    · intro energy g2 fit hlen hfrac hfit
      have hsize := (energyFractions_ok env fuel generator particle.pdg _ energy g2 hfrac).1
      rw [Nat.mod_eq_of_lt hlen] at hsize
      unfold kinematics
      rw [hfrac]
      dsimp only
      rw [hfit]
      dsimp only
      rw [kinematicsFor_bad_code env particle energy fit particlesPDGs 0 g2 hbad (by omega)]

/-- Witness of C12: the species code 11 is rejected by all three functions, also for
`nParticles = 0`, and a proton with the secondary code 22 is rejected by `kinematics`. -/
theorem unsupported_species_rejected_witness :
    particleComposition ratEnv 1 [0.5] 11 0 = .error .outOfRange ∧
      energyFractions ratEnv 1 [0.5] 11 0 = .error .outOfRange ∧
      kinematics ratEnv 1 [0.5] (particleAtOrigin 11) [] = .error .outOfRange ∧
      kinematics ratEnv 1 [0.5] (particleAtOrigin 2212) [22] = .error .outOfRange := by
  have h := unsupported_species_rejected ratEnv 1 [0.5] 11 0 (particleAtOrigin 11) []
  have h1 := unsupported_species_rejected ratEnv 1 [0.5] 11 0 (particleAtOrigin 2212) [22]
  refine ⟨h.1 rfl, h.2.1 rfl, h.2.2.1 (Or.inl rfl), ?_⟩
  refine (h1.2.2.2 ⟨22, by simp, rfl⟩).2 [0.5] [] _ (by norm_num) ?_ rfl
  simp [energyFractions, particleAtOrigin, detail.energyScaling, List.lookup]
  norm_num [energyFractionsWhile, energyFractionsFor, ratEnv, listEnv]

/-- C13 as stated fails: `detail::parametrizations` has no record for the species code
111 (the neutral pion). -/
theorem neutral_pion_has_no_record :
    ((detail.parametrizations (K := ℚ)).lookup 111).isSome = false ∧
      (111 : Int) ∈ detail.pdgCodes := by
  constructor
  · rfl
  · decide

/-- C13, amended: the lookup of a record in `detail::parametrizations` succeeds for each
of the four species codes -211, 211, 2112, 2212 and fails for every other code, the code
111 included. -/
theorem parametrizations_lookup {F : Type} [LinearOrderedField F] (pdg : Int) :
    ((detail.parametrizations (K := F)).lookup pdg).isSome = true ↔
      pdg = -211 ∨ pdg = 211 ∨ pdg = 2112 ∨ pdg = 2212 := by
  unfold detail.parametrizations
  by_cases h1 : pdg = -211
  · subst h1; simp [List.lookup]
  by_cases h2 : pdg = 211
  · subst h2; simp [List.lookup]
  by_cases h3 : pdg = 2112
  · subst h3; simp [List.lookup]
  by_cases h4 : pdg = 2212
  · subst h4; simp [List.lookup]
  simp [lookup_cons_of_ne, h1, h2, h3, h4]

theorem advance_add {F S : Type} (env : Env F S) (g : S) (a b : Nat) :
    advance env (advance env g a) b = advance env g (a + b) := by
  simp only [advance]
  rw [Nat.add_comm, Function.iterate_add_apply]

theorem draw_advance {F S : Type} (env : Env F S) (g : S) (a j : Nat) :
    draw env (advance env g a) j = draw env g (a + j) := by
  simp only [draw, advance_add]

theorem energyFractionsFor_fractions (env : Env K G) (pdg : Int) (scalingFactors : List K)
    (nParticles : Nat) : ∀ (k n : Nat) (g : G) (result : List K) (sum : K)
    (r : List K) (s : K) (g1 : G),
    energyFractionsFor env pdg scalingFactors nParticles k n g result sum = .ok (r, s, g1) →
    n + k ≤ result.length →
    g1 = advance env g k ∧
    ∀ j, j < k →
      (nParticles ≤ 10 → ∃ scaling, scalingFactors[n + j]? = some scaling ∧
        r[n + j]? = some (env.energyFraction (draw env g j) scaling (n + j + 1))) ∧
      (10 < nParticles → ∃ fit, (detail.energyScalingFit (K := K)).lookup pdg = some fit ∧
        r[n + j]? = some (env.energyFraction (draw env g j)
          (fit.1 + ((n + j + 1 : Nat) : K) * fit.2) (n + j + 1))) := by
  intro k
  induction k with
  | zero =>
    intro n g result sum r s g1 h _
    simp only [energyFractionsFor, Except.ok.injEq, Prod.mk.injEq] at h
    exact ⟨by simp [advance, h.2.2], fun j hj => absurd hj (by omega)⟩
  | succ k ih =>
    intro n g result sum r s g1 h hlen
    have hn : n < result.length := by omega
    have hkeep : ∀ e : K,
        energyFractionsFor env pdg scalingFactors nParticles k (n + 1) (env.gen g).2
          (result.set n e) (env.add sum e) = .ok (r, s, g1) → r[n]? = some e := by
      intro e he
      obtain ⟨fs, _, hr, _⟩ := energyFractionsFor_ok env pdg scalingFactors nParticles k
        (n + 1) _ _ _ r s g1 he (by simp; omega)
      rw [hr, take_succ_set e result n hn, List.append_assoc, List.append_assoc]
      rw [List.getElem?_append_right (by simp)]
      simp [List.length_take, Nat.min_eq_left (Nat.le_of_lt hn)]
    unfold energyFractionsFor at h
    split_ifs at h with h10
    · split at h
      · exact absurd h (by simp)
      · next scaling hscaling =>
        obtain ⟨hg, hall⟩ := ih (n + 1) _ _ _ r s g1 h (by simp; omega)
        refine ⟨by rw [hg, advance_succ], ?_⟩
        intro j hj
        refine ⟨fun _ => ?_, fun h11 => absurd h10 (by omega)⟩
        cases j with
        | zero => exact ⟨scaling, hscaling, by simpa [draw, advance] using hkeep _ h⟩
        | succ j =>
          obtain ⟨sc, h1, h2⟩ := (hall j (by omega)).1 h10
          refine ⟨sc, ?_, ?_⟩
          · rw [← h1]; congr 1; omega
          · rw [draw_succ, show n + (j + 1) = n + 1 + j from by omega]
            exact h2
    · split at h
      · exact absurd h (by simp)
      · next fit hfit =>
        obtain ⟨hg, hall⟩ := ih (n + 1) _ _ _ r s g1 h (by simp; omega)
        refine ⟨by rw [hg, advance_succ], ?_⟩
        intro j hj
        refine ⟨fun hle => absurd hle h10, fun _ => ?_⟩
        cases j with
        | zero => exact ⟨fit, hfit, by simpa [draw, advance] using hkeep _ h⟩
        | succ j =>
          obtain ⟨ft, h1, h2⟩ := (hall j (by omega)).2 (by omega)
          refine ⟨ft, h1, ?_⟩
          rw [draw_succ, show n + (j + 1) = n + 1 + j from by omega]
          exact h2

theorem energyFractionsWhile_fractions (env : Env K G) (pdg : Int) (scalingFactors : List K)
    (nParticles : Nat) : ∀ (fuel : Nat) (g : G) (result fs : List K) (g1 : G),
    energyFractionsWhile env pdg scalingFactors nParticles fuel g result = .ok (fs, g1) →
    result.length = nParticles →
    ∃ t : Nat, t < fuel ∧ g1 = advance env g ((t + 1) * nParticles) ∧
      ∀ i, i < nParticles →
        (nParticles ≤ 10 → ∃ scaling, scalingFactors[i]? = some scaling ∧
          fs[i]? = some (env.energyFraction (draw env g (t * nParticles + i)) scaling
            (i + 1))) ∧
        (10 < nParticles → ∃ fit,
          (detail.energyScalingFit (K := K)).lookup pdg = some fit ∧
          fs[i]? = some (env.energyFraction (draw env g (t * nParticles + i))
            (fit.1 + ((i + 1 : Nat) : K) * fit.2) (i + 1))) := by
  intro fuel
  induction fuel with
  | zero =>
    intro g result fs g1 h _
    simp [energyFractionsWhile] at h
  | succ fuel ih =>
    intro g result fs g1 h hlen
    unfold energyFractionsWhile at h
    split at h
    · exact absurd h (by simp)
    · next r s g2 hfor =>
      have hfull := energyFractionsFor_full env pdg scalingFactors nParticles g result r s g2
        hfor hlen
      obtain ⟨hg2, hblock⟩ := energyFractionsFor_fractions env pdg scalingFactors nParticles
        nParticles 0 g result 0 r s g2 hfor (by omega)
      split_ifs at h with hs
      · simp only [Except.ok.injEq, Prod.mk.injEq] at h
        refine ⟨0, by omega, by rw [← h.2, hg2]; simp, ?_⟩
        intro i hi
        have hb := hblock i hi
        simp only [Nat.zero_add] at hb
        rw [← h.1]
        simpa using hb
      · obtain ⟨t, ht, hg1, hall⟩ := ih g2 r fs g1 h hfull.1
        refine ⟨t + 1, by omega, ?_, ?_⟩
        · rw [hg1, hg2, advance_add]
          congr 1
          ring
        · intro i hi
          have hb := hall i hi
          rw [hg2, draw_advance] at hb
          rw [show (t + 1) * nParticles + i = nParticles + (t * nParticles + i) from by ring]
          exact hb

theorem scalingEnv_step (scalingFactors : List ℚ) (nParticles k n : Nat) (g result : List ℚ)
    (sum : ℚ) (h : 10 < nParticles) :
    energyFractionsFor scalingEnv 2212 scalingFactors nParticles (k + 1) n g result sum
      = energyFractionsFor scalingEnv 2212 scalingFactors nParticles k (n + 1) g.tail
          (result.set n ((8.40378 + ((n + 1 : Nat) : ℚ) * 8.74162) / 10000))
          (sum + (8.40378 + ((n + 1 : Nat) : ℚ) * 8.74162) / 10000) := by
  have hfit : (detail.energyScalingFit (K := ℚ)).lookup 2212 = some (8.40378, 8.74162) := by
    simp [detail.energyScalingFit, List.lookup]
  have h10 : ¬ nParticles ≤ 10 := by omega
  rw [energyFractionsFor, if_neg h10, hfit]
  rfl

/-- C20 as stated fails: for a proton and 11 secondaries the fraction of rank 1 is
computed from the extrapolated parameter 8.40378 + 1 * 8.74162 and not from the first
energy-scaling coefficient 1.06923 (here `energyFraction` returns its scaling parameter
divided by 10000). -/
theorem energyFractions_rank_one_extrapolated :
    energyFractions scalingEnv 1 [] 2212 11
        = .ok ([0.00171454, 0.002588702, 0.003462864, 0.004337026, 0.005211188,
                0.00608535, 0.006959512, 0.007833674, 0.008707836, 0.009581998,
                0.01045616], []) ∧
      (detail.energyScaling (K := ℚ)).lookup 2212
        = some [1.06923, 2.75259, 5.86034, 13.6034, 42.9559, 58.9314, 69.3068, 78.6077,
                87.4014, 95.5143] ∧
      (detail.energyScalingFit (K := ℚ)).lookup 2212 = some (8.40378, 8.74162) ∧
      scalingEnv.energyFraction (draw scalingEnv [] 0) 1.06923 1 = 0.000106923 ∧
      scalingEnv.energyFraction (draw scalingEnv [] 0) (8.40378 + 1 * 8.74162) 1
        = 0.00171454 := by
  have hs : (detail.energyScaling (K := ℚ)).lookup 2212
      = some [1.06923, 2.75259, 5.86034, 13.6034, 42.9559, 58.9314, 69.3068, 78.6077,
              87.4014, 95.5143] := by
    simp [detail.energyScaling, List.lookup]
  refine ⟨?_, hs, ?_, ?_, ?_⟩
  · simp only [energyFractions, hs, energyFractionsWhile]
    simp only [scalingEnv_step _ 11 _ _ _ _ _ (by decide)]
    simp only [energyFractionsFor]
    norm_num [List.replicate]
  · simp [detail.energyScalingFit, List.lookup]
  · norm_num [scalingEnv]
  · norm_num [scalingEnv]

/-- C20, amended: whenever `energyFractions` returns, the fraction of rank `i + 1`
(for `i < nParticles`) is `energyFraction(draw, s, i + 1)`, the draws being those of the
accepted attempt (attempt number `t + 1`), where `s` is the `(i + 1)`-th of the ten
energy-scaling coefficients of the species whenever `nParticles ≤ 10`, and the
extrapolated value `a + (i + 1) * b` for every rank whenever `nParticles > 10`. -/
theorem energyFractions_scaling_selection (env : Env K G) (fuel : Nat) (generator : G)
    (pdg : Int) (nParticles : Nat) (fractions : List K) (generator1 : G)
    (h : energyFractions env fuel generator pdg nParticles = .ok (fractions, generator1)) :
    ∃ (t : Nat) (scalingFactors : List K),
      (detail.energyScaling (K := K)).lookup pdg = some scalingFactors ∧
      generator1 = advance env generator ((t + 1) * nParticles) ∧
      ∀ i, i < nParticles →
        (nParticles ≤ 10 → ∃ scaling, scalingFactors[i]? = some scaling ∧
          fractions[i]? = some (env.energyFraction
            (draw env generator (t * nParticles + i)) scaling (i + 1))) ∧
        (10 < nParticles → ∃ fit,
          (detail.energyScalingFit (K := K)).lookup pdg = some fit ∧
          fractions[i]? = some (env.energyFraction
            (draw env generator (t * nParticles + i))
            (fit.1 + ((i + 1 : Nat) : K) * fit.2) (i + 1))) := by
  unfold energyFractions at h
  split at h
  · exact absurd h (by simp)
  · next scalingFactors hs =>
    obtain ⟨t, _, hg, hall⟩ := energyFractionsWhile_fractions env pdg scalingFactors
      nParticles fuel generator _ fractions generator1 h (by simp)
    exact ⟨t, scalingFactors, hs, hg, hall⟩

/-- Witness of C20 amended: the two fractions of a proton returned by the second
attempt. -/
theorem energyFractions_scaling_selection_witness :
    energyFractions ratEnv 2 [0.9, 0.8, 0.3, 0.2] 2212 2 = .ok ([0.3, 0.2], []) ∧
      ∃ (t : Nat) (scalingFactors : List ℚ),
        (detail.energyScaling (K := ℚ)).lookup 2212 = some scalingFactors ∧
        ([] : List ℚ) = advance ratEnv [0.9, 0.8, 0.3, 0.2] ((t + 1) * 2) ∧
        ∀ i, i < 2 →
          (2 ≤ 10 → ∃ scaling, scalingFactors[i]? = some scaling ∧
            ([0.3, 0.2] : List ℚ)[i]? = some (ratEnv.energyFraction
              (draw ratEnv [0.9, 0.8, 0.3, 0.2] (t * 2 + i)) scaling (i + 1))) ∧
          (10 < 2 → ∃ fit,
            (detail.energyScalingFit (K := ℚ)).lookup 2212 = some fit ∧
            ([0.3, 0.2] : List ℚ)[i]? = some (ratEnv.energyFraction
              (draw ratEnv [0.9, 0.8, 0.3, 0.2] (t * 2 + i))
              (fit.1 + ((i + 1 : Nat) : ℚ) * fit.2) (i + 1))) := by
  have h : energyFractions ratEnv 2 [0.9, 0.8, 0.3, 0.2] 2212 2 = .ok ([0.3, 0.2], []) := by
    simp [energyFractions, detail.energyScaling, List.lookup]
    norm_num [energyFractionsWhile, energyFractionsFor, ratEnv, listEnv]
  exact ⟨h, energyFractions_scaling_selection ratEnv 2 _ 2212 2 _ _ h⟩

theorem energyFractionsFor_congr (env : Env K G) (pdg : Int) (scalingFactors : List K)
    (nParticles : Nat) : ∀ (k n : Nat) (g : G) (result result1 : List K) (sum : K),
    (∀ e, energyFractionsFor env pdg scalingFactors nParticles k n g result sum = .error e →
      energyFractionsFor env pdg scalingFactors nParticles k n g result1 sum = .error e) ∧
    (∀ r s g1,
      energyFractionsFor env pdg scalingFactors nParticles k n g result sum = .ok (r, s, g1) →
      ∃ r1, energyFractionsFor env pdg scalingFactors nParticles k n g result1 sum
        = .ok (r1, s, g1)) := by
  intro k
  induction k with
  | zero =>
    intro n g result result1 sum
    constructor
    · intro e h
      simp [energyFractionsFor] at h
    · intro r s g1 h
      simp only [energyFractionsFor, Except.ok.injEq, Prod.mk.injEq] at h
      exact ⟨result1, by simp [energyFractionsFor, h.2.1, h.2.2]⟩
  | succ k ih =>
    intro n g result result1 sum
    by_cases h10 : nParticles ≤ 10
    · cases hsc : scalingFactors[n]? with
      | none =>
        constructor
        · intro e h
          simp only [energyFractionsFor, if_pos h10, hsc] at h ⊢
          exact h
        · intro r s g1 h
          simp [energyFractionsFor, h10, hsc] at h
      | some scaling =>
        simp only [energyFractionsFor, if_pos h10, hsc]
        exact ih _ _ _ _ _
    · cases hfit : (detail.energyScalingFit (K := K)).lookup pdg with
      | none =>
        constructor
        · intro e h
          simp only [energyFractionsFor, if_neg h10, hfit] at h ⊢
          exact h
        · intro r s g1 h
          simp [energyFractionsFor, h10, hfit] at h
      | some fit =>
        simp only [energyFractionsFor, if_neg h10, hfit]
        exact ih _ _ _ _ _

theorem energyFractionsFor_fresh (env : Env K G) (pdg : Int) (scalingFactors : List K)
    (nParticles : Nat) (g : G) (result result1 r : List K) (s : K) (g1 : G)
    (h : energyFractionsFor env pdg scalingFactors nParticles nParticles 0 g result 0
      = .ok (r, s, g1))
    (hlen : result.length = nParticles) (hlen1 : result1.length = nParticles) :
    energyFractionsFor env pdg scalingFactors nParticles nParticles 0 g result1 0
      = .ok (r, s, g1) := by
  obtain ⟨r1, h1⟩ := (energyFractionsFor_congr env pdg scalingFactors nParticles nParticles 0
    g result result1 0).2 r s g1 h
  have hr := (energyFractionsFor_full env pdg scalingFactors nParticles g result r s g1 h
    hlen).1
  have hr1 := (energyFractionsFor_full env pdg scalingFactors nParticles g result1 r1 s g1 h1
    hlen1).1
  have hb := (energyFractionsFor_fractions env pdg scalingFactors nParticles nParticles 0 g
    result 0 r s g1 h (by omega)).2
  have hb1 := (energyFractionsFor_fractions env pdg scalingFactors nParticles nParticles 0 g
    result1 0 r1 s g1 h1 (by omega)).2
  have heq : r1 = r := by
    apply List.ext_getElem?
    intro j
    by_cases hj : j < nParticles
    · by_cases h10 : nParticles ≤ 10
      · obtain ⟨sc, hsc, hv⟩ := (hb j hj).1 h10
        obtain ⟨sc1, hsc1, hv1⟩ := (hb1 j hj).1 h10
        rw [hsc] at hsc1
        simp only [Nat.zero_add] at hv hv1
        rw [hv, hv1, ← Option.some.inj hsc1]
      · obtain ⟨ft, hft, hv⟩ := (hb j hj).2 (by omega)
        obtain ⟨ft1, hft1, hv1⟩ := (hb1 j hj).2 (by omega)
        rw [hft] at hft1
        simp only [Nat.zero_add] at hv hv1
        rw [hv, hv1, ← Option.some.inj hft1]
    · rw [List.getElem?_eq_none (by omega), List.getElem?_eq_none (by omega)]
  rw [h1, heq]

theorem energyFractionsWhile_congr (env : Env K G) (pdg : Int) (scalingFactors : List K)
    (nParticles : Nat) : ∀ (fuel : Nat) (g : G) (result result1 : List K),
    result.length = nParticles → result1.length = nParticles →
    energyFractionsWhile env pdg scalingFactors nParticles fuel g result
      = energyFractionsWhile env pdg scalingFactors nParticles fuel g result1 := by
  intro fuel
  induction fuel with
  | zero =>
    intro g result result1 _ _
    rfl
  | succ fuel ih =>
    intro g result result1 hlen hlen1
    cases hfor : energyFractionsFor env pdg scalingFactors nParticles nParticles 0 g result 0
      with
    | error e =>
      have h1 := (energyFractionsFor_congr env pdg scalingFactors nParticles nParticles 0 g
        result result1 0).1 e hfor
      simp only [energyFractionsWhile, hfor, h1]
    | ok v =>
      obtain ⟨r, s, g1⟩ := v
      have h1 := energyFractionsFor_fresh env pdg scalingFactors nParticles g result result1
        r s g1 hfor hlen hlen1
      simp only [energyFractionsWhile, hfor, h1]

theorem energyFractionsWhile_reject (env : Env K G) (pdg : Int) (scalingFactors : List K)
    (nParticles : Nat) : ∀ (k m : Nat) (g : G) (result : List K),
    result.length = nParticles →
    (∀ s, s < k → ∃ (b : List K) (sum : K) (g2 : G),
      energyFractionsFor env pdg scalingFactors nParticles nParticles 0
          (advance env g (s * nParticles)) (List.replicate nParticles 0) 0
        = .ok (b, sum, g2) ∧ 1 < sum) →
    energyFractionsWhile env pdg scalingFactors nParticles (k + m) g result
      = energyFractionsWhile env pdg scalingFactors nParticles m
          (advance env g (k * nParticles)) (List.replicate nParticles 0) := by
  intro k
  induction k with
  | zero =>
    intro m g result hlen _
    have h0 : advance env g (0 * nParticles) = g := by simp [advance]
    rw [h0, Nat.zero_add]
    exact energyFractionsWhile_congr env pdg scalingFactors nParticles m g result _ hlen
      (by simp)
  | succ k ih =>
    intro m g result hlen hrej
    obtain ⟨b, sum, g2, hb, hsum⟩ := hrej 0 (by omega)
    have h0 : advance env g (0 * nParticles) = g := by simp [advance]
    rw [h0] at hb
    have hfor := energyFractionsFor_fresh env pdg scalingFactors nParticles g
      (List.replicate nParticles 0) result b sum g2 hb (by simp) hlen
    have hfull := energyFractionsFor_full env pdg scalingFactors nParticles g result b sum g2
      hfor hlen
    have hg2 := (energyFractionsFor_fractions env pdg scalingFactors nParticles
      nParticles 0 g result 0 b sum g2 hfor (by omega)).1
    rw [show k + 1 + m = (k + m) + 1 from by omega]
    simp only [energyFractionsWhile, hfor, if_neg (not_le.mpr hsum)]
    rw [ih m g2 b hfull.1, hg2, advance_add,
      show nParticles + k * nParticles = (k + 1) * nParticles from by ring]
    intro s hs
    obtain ⟨b1, sum1, g3, hb1, hsum1⟩ := hrej (s + 1) (by omega)
    refine ⟨b1, sum1, g3, ?_, hsum1⟩
    rw [hg2, advance_add,
      show nParticles + s * nParticles = (s + 1) * nParticles from by ring]
    exact hb1

/-- C23: the rejection loop of `energyFractions` has no retry bound. If each of the first
`k` attempts returns a block whose sum is above 1, the call with an iteration budget of
`k + m` behaves as a fresh call with budget `m` from the generator advanced by
`k * nParticles` variates, so that an attempt number `k + 1` is made whenever any budget
is left; and if every attempt has a sum above 1, the call ends within no budget at all:
it never returns, neither a result nor `std::out_of_range`. -/
theorem energyFractions_no_retry_bound (env : Env K G) (generator : G) (pdg : Int)
    (nParticles : Nat) :
    (∀ k, (∀ s, s < k → ∃ (block : List K) (sum : K) (g2 : G),
        energyFractionsAttempt env pdg nParticles (advance env generator (s * nParticles))
          = .ok (block, sum, g2) ∧ 1 < sum) →
      ∀ m, energyFractions env (k + m) generator pdg nParticles
        = energyFractions env m (advance env generator (k * nParticles)) pdg nParticles) ∧
    ((∀ s, ∃ (block : List K) (sum : K) (g2 : G),
        energyFractionsAttempt env pdg nParticles (advance env generator (s * nParticles))
          = .ok (block, sum, g2) ∧ 1 < sum) →
      ∀ fuel, energyFractions env fuel generator pdg nParticles = .error .fuel) := by
  have hfirst : ∀ k, (∀ s, s < k → ∃ (block : List K) (sum : K) (g2 : G),
        energyFractionsAttempt env pdg nParticles (advance env generator (s * nParticles))
          = .ok (block, sum, g2) ∧ 1 < sum) →
      ∀ m, energyFractions env (k + m) generator pdg nParticles
        = energyFractions env m (advance env generator (k * nParticles)) pdg nParticles := by
    intro k hrej m
    cases hs : (detail.energyScaling (K := K)).lookup pdg with
    | none => simp only [energyFractions, hs]
    | some scalingFactors =>
      simp only [energyFractions, hs]
      apply energyFractionsWhile_reject env pdg scalingFactors nParticles k m generator _
        (by simp)
      intro s hsk
      obtain ⟨b, sum, g2, hb, hsum⟩ := hrej s hsk
      simp only [energyFractionsAttempt, hs] at hb
      exact ⟨b, sum, g2, hb, hsum⟩
  refine ⟨hfirst, ?_⟩
  intro hall fuel
  have h := hfirst fuel (fun s _ => hall s) 0
  rw [Nat.add_zero] at h
  rw [h]
  obtain ⟨b, sum, g2, hb, _⟩ := hall 0
  cases hs : (detail.energyScaling (K := K)).lookup pdg with
  | none => simp [energyFractionsAttempt, hs] at hb
  | some scalingFactors => simp only [energyFractions, hs, energyFractionsWhile]

theorem constEnv_attempt (g : Unit) :
    energyFractionsAttempt constEnv 2212 2 g = .ok ([0.9, 0.9], 1.8, ()) := by
  simp [energyFractionsAttempt, detail.energyScaling, List.lookup]
  norm_num [energyFractionsFor, constEnv]

/-- Witness of C23: with a generator that returns 0.9 at every call, every attempt for a
proton and two secondaries sums to 1.8, and the call ends within no budget. -/
theorem energyFractions_no_retry_bound_witness :
    (∀ s, ∃ (block : List ℚ) (sum : ℚ) (g2 : Unit),
        energyFractionsAttempt constEnv 2212 2 (advance constEnv () (s * 2))
          = .ok (block, sum, g2) ∧ 1 < sum) ∧
      ∀ fuel, energyFractions constEnv fuel () 2212 2 = .error .fuel := by
  have hall : ∀ s, ∃ (block : List ℚ) (sum : ℚ) (g2 : Unit),
      energyFractionsAttempt constEnv 2212 2 (advance constEnv () (s * 2))
        = .ok (block, sum, g2) ∧ 1 < sum :=
    fun s => ⟨[0.9, 0.9], 1.8, (), constEnv_attempt _, by norm_num⟩
  exact ⟨hall, (energyFractions_no_retry_bound constEnv () 2212 2).2 hall⟩

theorem filterMap_range_succ {α : Type} (f : Nat → Option α) (m : Nat) :
    (List.range (m + 1)).filterMap f
      = (f 0).toList ++ (List.range m).filterMap (fun i => f (i + 1)) := by
  rw [List.range_succ_eq_map, List.filterMap_cons, List.filterMap_map]
  cases f 0 <;> rfl

theorem particleCompositionWhile_trace (env : Env K G) (particleLookUp : List (K × Int))
    (nParticles : Nat) : ∀ (fuel : Nat) (g : G) (result codes : List Int) (g1 : G),
    particleCompositionWhile env particleLookUp nParticles fuel g result = .ok (codes, g1) →
    result.length ≤ nParticles →
    ∃ m : Nat, m ≤ fuel ∧ g1 = advance env g m ∧
      codes = result ++ (List.range m).filterMap
        (fun i => particleCompositionFor (draw env g i) particleLookUp) ∧
      codes.length = nParticles ∧
      ∀ m1, m1 < m → result.length + ((List.range m1).filterMap
        (fun i => particleCompositionFor (draw env g i) particleLookUp)).length
          < nParticles := by
  intro fuel
  induction fuel with
  | zero =>
    intro g result codes g1 h hlen
    unfold particleCompositionWhile at h
    split_ifs at h with hlt
    simp only [Except.ok.injEq, Prod.mk.injEq] at h
    exact ⟨0, by omega, by simp [advance, h.2], by simp [h.1], by rw [← h.1]; omega,
      fun m1 hm1 => absurd hm1 (by omega)⟩
  | succ fuel ih =>
    intro g result codes g1 h hlen
    unfold particleCompositionWhile at h
    split_ifs at h with hlt
    · dsimp only at h
      have hd : (env.gen g).1 = draw env g 0 := by simp [draw, advance]
      split at h
      · next code hfor =>
        obtain ⟨m, hm, hg, hcodes, hn, hmin⟩ := ih _ _ codes g1 h (by simp; omega)
        refine ⟨m + 1, by omega, by rw [hg, advance_succ], ?_, hn, ?_⟩
        · rw [filterMap_range_succ, ← hd, hfor, hcodes]
          simp [draw_succ]
        · intro m1 hm1
          cases m1 with
          | zero => simpa using hlt
          | succ m1 =>
            have := hmin m1 (by omega)
            rw [filterMap_range_succ, ← hd, hfor]
            simp only [draw_succ, Option.toList, List.length_append, List.length_cons,
              List.length_nil] at this ⊢
            omega
      · next hfor =>
        obtain ⟨m, hm, hg, hcodes, hn, hmin⟩ := ih _ _ codes g1 h hlen
        refine ⟨m + 1, by omega, by rw [hg, advance_succ], ?_, hn, ?_⟩
        · rw [filterMap_range_succ, ← hd, hfor, hcodes]
          simp [draw_succ]
        · intro m1 hm1
          cases m1 with
          | zero => simpa using hlt
          | succ m1 =>
            have := hmin m1 (by omega)
            rw [filterMap_range_succ, ← hd, hfor]
            simp only [draw_succ, Option.toList, List.nil_append] at this ⊢
            exact this
    · simp only [Except.ok.injEq, Prod.mk.injEq] at h
      exact ⟨0, by omega, by simp [advance, h.2], by simp [h.1], by rw [← h.1]; omega,
        fun m1 hm1 => absurd hm1 (by omega)⟩

theorem particleCompositionFor_none_iff (dice : K) : ∀ l : List (K × Int),
    particleCompositionFor dice l = none ↔ ∀ e ∈ l, e.1 ≤ dice
  | [] => by simp [particleCompositionFor]
  | e :: rest => by
    by_cases h : dice < e.1
    · simp [particleCompositionFor, h]
    · simp [particleCompositionFor, h, particleCompositionFor_none_iff dice rest,
        not_lt.mp h]

theorem forall_le_iff_last (l : List (K × Int)) (final : K × Int)
    (hp : (l.map Prod.fst).Pairwise (fun a b => a < b)) (hlast : l.getLast? = some final)
    (dice : K) : (∀ e ∈ l, e.1 ≤ dice) ↔ final.1 ≤ dice := by
  constructor
  · intro h
    exact h final (List.mem_of_getLast?_eq_some hlast)
  · intro h e he
    obtain ⟨ys, rfl⟩ := List.getLast?_eq_some_iff.mp hlast
    rw [List.map_append, List.pairwise_append] at hp
    rcases List.mem_append.mp he with hys | hfin
    · have := hp.2.2 e.1 (List.mem_map_of_mem _ hys) final.1 (by simp)
      exact le_trans (le_of_lt this) h
    · simp only [List.mem_singleton] at hfin
      rw [hfin]
      exact h

theorem particleTypes_lists {F : Type} [LinearOrderedField F] (pdg : Int)
    (l : List (F × Int)) (hl : (detail.particleTypes (K := F)).lookup pdg = some l) :
    (l.map Prod.fst).Pairwise (fun a b => a < b) ∧
      ∃ final, l.getLast? = some final ∧ 0 ≤ final.1 ∧ final.1 < 1 := by
  have hkey : pdg = -211 ∨ pdg = 111 ∨ pdg = 211 ∨ pdg = 2112 ∨ pdg = 2212 := by
    by_contra hne
    push_neg at hne
    have hnone : (detail.particleTypes (K := F)).lookup pdg = none := by
      unfold detail.particleTypes
      rw [lookup_five_keys]
      exact hne
    rw [hnone] at hl
    exact absurd hl (by simp)
  rcases hkey with rfl | rfl | rfl | rfl | rfl
  all_goals
    have hl1 := Option.some.inj (Eq.trans (Eq.symm hl) (rfl : _ = some _))
    subst hl1
    refine ⟨by norm_num, _, rfl, by norm_num, by norm_num⟩

theorem particleTypes_final_value {F : Type} [LinearOrderedField F] (pdg : Int)
    (l : List (F × Int)) (hl : (detail.particleTypes (K := F)).lookup pdg = some l) :
    ∃ final, l.getLast? = some final ∧ 0 ≤ final.1 ∧ final.1 < 1 ∧
      ∀ dice : F, final.1 ≤ dice ↔ particleCompositionFor dice l = none := by
  obtain ⟨hp, final, hlast, h0, h1⟩ := particleTypes_lists pdg l hl
  refine ⟨final, hlast, h0, h1, ?_⟩
  intro dice
  rw [particleCompositionFor_none_iff, forall_le_iff_last l final hp hlast]

/-- C24: in `particleComposition` a draw at or above the final cumulative value of the
list selects no species and is discarded: nothing is appended and the loop goes on with
the next variate. Whenever the call returns, having consumed `m` variates, its result is
the first-match mapping applied in order to those of the first `m` draws that select a
species, which are exactly the draws below the final cumulative value; there are
`nParticles` of them and no shorter run of draws holds that many. The final value of the
list of every species in `detail::pdgCodes` lies in [0,1), so that draws in [0,1) that
are discarded exist for every species (the final value itself is one). -/
theorem particleComposition_discarded_draws (env : Env K G) (fuel : Nat) (generator : G)
    (pdg : Int) (nParticles : Nat) (codes : List Int) (generator1 : G)
    (h : particleComposition env fuel generator pdg nParticles = .ok (codes, generator1)) :
    (∀ species ∈ detail.pdgCodes, ∃ (l : List (K × Int)) (final : K × Int),
      (detail.particleTypes (K := K)).lookup species = some l ∧
      l.getLast? = some final ∧ 0 ≤ final.1 ∧ final.1 < 1 ∧
      ∀ dice : K, final.1 ≤ dice ↔ particleCompositionFor dice l = none) ∧
    (∀ (l : List (K × Int)) (fuel1 : Nat) (g : G) (result : List Int),
      result.length < nParticles → particleCompositionFor (env.gen g).1 l = none →
      particleCompositionWhile env l nParticles (fuel1 + 1) g result
        = particleCompositionWhile env l nParticles fuel1 (env.gen g).2 result) ∧
    ∃ (l : List (K × Int)) (final : K × Int) (m : Nat),
      (detail.particleTypes (K := K)).lookup pdg = some l ∧ l.getLast? = some final ∧
      (∀ dice : K, dice < final.1 ↔
        (l.find? (fun e => decide (dice < e.1))).isSome = true) ∧
      generator1 = advance env generator m ∧
      codes = (List.range m).filterMap (fun i =>
        (l.find? (fun e => decide (draw env generator i < e.1))).map Prod.snd) ∧
      codes.length = nParticles ∧
      ∀ m1, m1 < m → ((List.range m1).filterMap (fun i =>
        (l.find? (fun e => decide (draw env generator i < e.1))).map Prod.snd)).length
          < nParticles := by
  refine ⟨?_, ?_, ?_⟩
  · intro species hs
    have hsome : ∃ l, (detail.particleTypes (K := K)).lookup species = some l := by
      simp only [detail.pdgCodes, List.mem_cons, List.mem_singleton, List.not_mem_nil,
        or_false] at hs
      rcases hs with rfl | rfl | rfl | rfl | rfl <;> exact ⟨_, rfl⟩
    obtain ⟨l, hl⟩ := hsome
    obtain ⟨final, h1, h2, h3, h4⟩ := particleTypes_final_value species l hl
    exact ⟨l, final, hl, h1, h2, h3, h4⟩
  · intro l fuel1 g result hlt hnone
    rw [particleCompositionWhile, if_pos hlt]
    simp only [hnone]
  · unfold particleComposition at h
    split at h
    · exact absurd h (by simp)
    · next l hl =>
      obtain ⟨final, hlast, _, _, hiff⟩ := particleTypes_final_value pdg l hl
      obtain ⟨m, _, hg, hcodes, hn, hmin⟩ :=
        particleCompositionWhile_trace env l nParticles fuel generator [] codes generator1 h
          (by simp)
      have hfun : (fun i => particleCompositionFor (draw env generator i) l)
          = (fun i => (l.find? (fun e => decide (draw env generator i < e.1))).map
              Prod.snd) := by
        funext i
        exact particleCompositionFor_eq_find _ l
      rw [hfun] at hcodes hmin
      refine ⟨l, final, m, hl, hlast, ?_, hg, by simpa using hcodes, hn, ?_⟩
      · intro dice
        have hd := hiff dice
        rw [particleCompositionFor_eq_find] at hd
        constructor
        · intro hlt
          by_contra hne
          have hnone : l.find? (fun e => decide (dice < e.1)) = none := by
            cases hf : l.find? (fun e => decide (dice < e.1)) with
            | none => rfl
            | some e => rw [hf] at hne; simp at hne
          have := hd.mpr (by rw [hnone]; rfl)
          exact absurd hlt (not_lt.mpr this)
        · intro hsome
          by_contra hge
          have hnone := hd.mp (not_lt.mp hge)
          cases hf : l.find? (fun e => decide (dice < e.1)) with
          | none => rw [hf] at hsome; simp at hsome
          | some e => rw [hf] at hnone; simp at hnone
      · intro m1 hm1
        simpa using hmin m1 hm1

/-- Witness of C24: for a negative pion and one secondary the draw 0.999 is discarded and
the code comes from the second draw 0.5. -/
theorem particleComposition_discarded_draws_witness :
    particleComposition ratEnv 2 [0.999, 0.5] (-211) 1 = .ok ([-211], []) ∧
    ∃ (l : List (ℚ × Int)) (final : ℚ × Int) (m : Nat),
      (detail.particleTypes (K := ℚ)).lookup (-211) = some l ∧ l.getLast? = some final ∧
      (∀ dice : ℚ, dice < final.1 ↔
        (l.find? (fun e => decide (dice < e.1))).isSome = true) ∧
      ([] : List ℚ) = advance ratEnv [0.999, 0.5] m ∧
      ([-211] : List Int) = (List.range m).filterMap (fun i =>
        (l.find? (fun e => decide (draw ratEnv [0.999, 0.5] i < e.1))).map Prod.snd) ∧
      ([-211] : List Int).length = 1 ∧
      ∀ m1, m1 < m → ((List.range m1).filterMap (fun i =>
        (l.find? (fun e => decide (draw ratEnv [0.999, 0.5] i < e.1))).map Prod.snd)).length
          < 1 := by
  have h : particleComposition ratEnv 2 [0.999, 0.5] (-211) 1 = .ok ([-211], []) := by
    norm_num [particleComposition, particleCompositionWhile, particleCompositionFor,
      detail.particleTypes, ratEnv, listEnv, List.lookup]
  exact ⟨h, (particleComposition_discarded_draws ratEnv 2 _ (-211) 1 _ _ h).2.2⟩

theorem energyFractionsFor_ne_outOfBounds (env : Env K G) (pdg : Int)
    (scalingFactors : List K) (nParticles : Nat) :
    ∀ (k n : Nat) (g : G) (result : List K) (sum : K),
    (nParticles ≤ 10 → n + k ≤ scalingFactors.length) →
    energyFractionsFor env pdg scalingFactors nParticles k n g result sum
      ≠ .error .outOfBounds := by
  intro k
  induction k with
  | zero =>
    intro n g result sum _
    simp [energyFractionsFor]
  | succ k ih =>
    intro n g result sum hlen
    by_cases h10 : nParticles ≤ 10
    · have hn : n < scalingFactors.length := by have := hlen h10; omega
      simp only [energyFractionsFor, if_pos h10, List.getElem?_eq_getElem hn]
      exact ih _ _ _ _ (fun h => by have := hlen h; omega)
    · cases hfit : (detail.energyScalingFit (K := K)).lookup pdg with
      | none => simp [energyFractionsFor, h10, hfit]
      | some fit =>
        simp only [energyFractionsFor, if_neg h10, hfit]
        exact ih _ _ _ _ (fun h => absurd h h10)

theorem energyFractionsWhile_ne_outOfBounds (env : Env K G) (pdg : Int)
    (scalingFactors : List K) (nParticles : Nat)
    (hlen : nParticles ≤ 10 → nParticles ≤ scalingFactors.length) :
    ∀ (fuel : Nat) (g : G) (result : List K),
    energyFractionsWhile env pdg scalingFactors nParticles fuel g result
      ≠ .error .outOfBounds := by
  intro fuel
  induction fuel with
  | zero =>
    intro g result
    simp [energyFractionsWhile]
  | succ fuel ih =>
    intro g result
    have hfor := energyFractionsFor_ne_outOfBounds env pdg scalingFactors nParticles
      nParticles 0 g result 0 (fun h => by have := hlen h; omega)
    unfold energyFractionsWhile
    split
    · next e he =>
      intro heq
      simp only [Except.error.injEq] at heq
      exact hfor (heq ▸ he)
    · split_ifs
      · simp
      · exact ih _ _

theorem energyFractionsFor_scaling_unused (env : Env K G) (pdg : Int)
    (scalingFactors scalingFactors1 : List K) (nParticles : Nat) (h10 : 10 < nParticles) :
    ∀ (k n : Nat) (g : G) (result : List K) (sum : K),
    energyFractionsFor env pdg scalingFactors nParticles k n g result sum
      = energyFractionsFor env pdg scalingFactors1 nParticles k n g result sum := by
  intro k
  induction k with
  | zero =>
    intro n g result sum
    simp [energyFractionsFor]
  | succ k ih =>
    intro n g result sum
    have hn : ¬ nParticles ≤ 10 := by omega
    simp only [energyFractionsFor, if_neg hn]
    cases (detail.energyScalingFit (K := K)).lookup pdg with
    | none => rfl
    | some fit => exact ih _ _ _ _

theorem energyScaling_lengths {F : Type} [LinearOrderedField F] (pdg : Int) (sf : List F)
    (h : (detail.energyScaling (K := F)).lookup pdg = some sf) : sf.length = 10 := by
  have hmem := mem_of_lookup pdg sf _ h
  simp only [detail.energyScaling, List.mem_cons, Prod.mk.injEq, List.mem_singleton,
    List.not_mem_nil, or_false] at hmem
  rcases hmem with ⟨_, rfl⟩ | ⟨_, rfl⟩ | ⟨_, rfl⟩ | ⟨_, rfl⟩ | ⟨_, rfl⟩ <;> rfl

/-- C25: every energy-scaling array of `detail::energyScaling` has 10 entries and
`energyFractions` indexes it only while `nParticles ≤ 10`, at positions below
`nParticles`: no call, for any `nParticles`, ends with an index out of bounds, and for
`nParticles > 10` the array is not read at all (the loop gives the same outcome with any
other array in its place). -/
theorem energyFractions_index_safe (env : Env K G) (fuel : Nat) (generator : G) (pdg : Int)
    (nParticles : Nat) :
    (∀ scalingFactors : List K,
      (detail.energyScaling (K := K)).lookup pdg = some scalingFactors →
      scalingFactors.length = 10) ∧
    energyFractions env fuel generator pdg nParticles ≠ .error .outOfBounds ∧
    (10 < nParticles → ∀ (scalingFactors scalingFactors1 result : List K),
      energyFractionsFor env pdg scalingFactors nParticles nParticles 0 generator result 0
        = energyFractionsFor env pdg scalingFactors1 nParticles nParticles 0 generator
            result 0) := by
  refine ⟨fun sf h => energyScaling_lengths pdg sf h, ?_, ?_⟩
  · unfold energyFractions
    split
    · simp
    · next sf hs =>
      exact energyFractionsWhile_ne_outOfBounds env pdg sf nParticles
        (fun h => by rw [energyScaling_lengths pdg sf hs]; exact h) fuel generator _
  · intro h10 sf sf1 result
    exact energyFractionsFor_scaling_unused env pdg sf sf1 nParticles h10 _ _ _ _ _

/-- Witness of C25: for a proton and 11 secondaries the pass of the loop is the same
with the empty array in place of the energy-scaling array. -/
theorem energyFractions_index_safe_witness :
    energyFractionsFor ratEnv 2212 detail.eScalingProton 11 11 0 [] (List.replicate 11 0) 0
      = energyFractionsFor ratEnv 2212 [] 11 11 0 [] (List.replicate 11 0) 0 :=
  (energyFractions_index_safe ratEnv 1 [] 2212 11).2.2 (by decide) _ _ _

theorem particleCompositionWhile_ne_outOfRange (env : Env K G)
    (particleLookUp : List (K × Int)) (nParticles : Nat) :
    ∀ (fuel : Nat) (g : G) (result : List Int),
    particleCompositionWhile env particleLookUp nParticles fuel g result
      ≠ .error .outOfRange := by
  intro fuel
  induction fuel with
  | zero =>
    intro g result
    unfold particleCompositionWhile
    split_ifs <;> simp
  | succ fuel ih =>
    intro g result
    unfold particleCompositionWhile
    split_ifs
    · dsimp only
      split
      · exact ih _ _
      · exact ih _ _
    · simp

theorem energyFractionsFor_ne_outOfRange (env : Env K G) (pdg : Int)
    (scalingFactors : List K) (nParticles : Nat)
    (hfit : ∃ fit, (detail.energyScalingFit (K := K)).lookup pdg = some fit) :
    ∀ (k n : Nat) (g : G) (result : List K) (sum : K),
    energyFractionsFor env pdg scalingFactors nParticles k n g result sum
      ≠ .error .outOfRange := by
  intro k
  induction k with
  | zero =>
    intro n g result sum
    simp [energyFractionsFor]
  | succ k ih =>
    intro n g result sum
    by_cases h10 : nParticles ≤ 10
    · cases hsc : scalingFactors[n]? with
      | none => simp [energyFractionsFor, h10, hsc]
      | some scaling =>
        simp only [energyFractionsFor, if_pos h10, hsc]
        exact ih _ _ _ _
    · obtain ⟨fit, hf⟩ := hfit
      simp only [energyFractionsFor, if_neg h10, hf]
      exact ih _ _ _ _

theorem energyFractionsWhile_ne_outOfRange (env : Env K G) (pdg : Int)
    (scalingFactors : List K) (nParticles : Nat)
    (hfit : ∃ fit, (detail.energyScalingFit (K := K)).lookup pdg = some fit) :
    ∀ (fuel : Nat) (g : G) (result : List K),
    energyFractionsWhile env pdg scalingFactors nParticles fuel g result
      ≠ .error .outOfRange := by
  intro fuel
  induction fuel with
  | zero =>
    intro g result
    simp [energyFractionsWhile]
  | succ fuel ih =>
    intro g result
    have hfor := energyFractionsFor_ne_outOfRange env pdg scalingFactors nParticles hfit
      nParticles 0 g result 0
    unfold energyFractionsWhile
    split
    · next e he =>
      intro heq
      simp only [Except.error.injEq] at heq
      exact hfor (heq ▸ he)
    · split_ifs
      · simp
      · exact ih _ _

/-- C26: every species code of `detail::pdgCodes` is a key of each of the six tables
`probability`, `multiplicity`, `particleTypes`, `energyScaling`, `energyScalingFit` and
`thetaParameters`. Hence, for a particle whose species code is in `detail::pdgCodes`,
`particleComposition` and `energyFractions` never fail with `std::out_of_range`, and
neither does `kinematics` when every secondary code is a key of `detail::particleData`
(the one lookup that is not keyed by the parent). -/
theorem gate_species_in_all_tables (env : Env K G) (fuel : Nat) (generator : G)
    (nParticles : Nat) (particle : Particle K) (particlesPDGs : List Int) :
    (∀ pdg ∈ detail.pdgCodes,
      ((detail.probability (K := K)).lookup pdg).isSome = true ∧
      ((detail.multiplicity (K := K)).lookup pdg).isSome = true ∧
      ((detail.particleTypes (K := K)).lookup pdg).isSome = true ∧
      ((detail.energyScaling (K := K)).lookup pdg).isSome = true ∧
      ((detail.energyScalingFit (K := K)).lookup pdg).isSome = true ∧
      ((detail.thetaParameters (K := K)).lookup pdg).isSome = true) ∧
    (particle.pdg ∈ detail.pdgCodes →
      particleComposition env fuel generator particle.pdg nParticles ≠ .error .outOfRange ∧
      energyFractions env fuel generator particle.pdg nParticles ≠ .error .outOfRange ∧
      ((∀ c ∈ particlesPDGs,
          ((detail.particleData env.GeV env.MeV).lookup c).isSome = true) →
        kinematics env fuel generator particle particlesPDGs ≠ .error .outOfRange)) := by
  have htab : ∀ pdg ∈ detail.pdgCodes,
      ((detail.probability (K := K)).lookup pdg).isSome = true ∧
      ((detail.multiplicity (K := K)).lookup pdg).isSome = true ∧
      ((detail.particleTypes (K := K)).lookup pdg).isSome = true ∧
      ((detail.energyScaling (K := K)).lookup pdg).isSome = true ∧
      ((detail.energyScalingFit (K := K)).lookup pdg).isSome = true ∧
      ((detail.thetaParameters (K := K)).lookup pdg).isSome = true := by
    intro pdg hpdg
    simp only [detail.pdgCodes, List.mem_cons, List.mem_singleton, List.not_mem_nil,
      or_false] at hpdg
    rcases hpdg with rfl | rfl | rfl | rfl | rfl <;>
      exact ⟨rfl, rfl, rfl, rfl, rfl, rfl⟩
  refine ⟨htab, ?_⟩
  intro hpdg
  obtain ⟨_, _, hpt, hes, hfit, hth⟩ := htab particle.pdg hpdg
  obtain ⟨l, hl⟩ := Option.isSome_iff_exists.mp hpt
  obtain ⟨sf, hsf⟩ := Option.isSome_iff_exists.mp hes
  obtain ⟨fit, hfit⟩ := Option.isSome_iff_exists.mp hfit
  obtain ⟨th, hth⟩ := Option.isSome_iff_exists.mp hth
  have hfrac : ∀ n, energyFractions env fuel generator particle.pdg n
      ≠ .error .outOfRange := by
    intro n
    simp only [energyFractions, hsf]
    exact energyFractionsWhile_ne_outOfRange env particle.pdg sf n ⟨fit, hfit⟩ fuel
      generator _
  refine ⟨?_, hfrac nParticles, ?_⟩
  · simp only [particleComposition, hl]
    exact particleCompositionWhile_ne_outOfRange env l nParticles fuel generator []
  · intro hdata
    unfold kinematics
    split
    · next e he =>
      intro heq
      simp only [Except.error.injEq] at heq
      exact hfrac _ (heq ▸ he)
    · next energy g2 _ =>
      rw [hth]
      dsimp only
      split
      · next e he =>
        intro heq
        simp only [Except.error.injEq] at heq
        exact kinematicsFor_ne_outOfRange env particle energy th particlesPDGs 0 g2 hdata
          (heq ▸ he)
      · simp

/-- Witness of C26: a neutral pion passes the gate and none of the three functions fails
with `std::out_of_range`. -/
theorem gate_species_in_all_tables_witness :
    particleComposition ratEnv 1 [0.5] (particleAtOrigin (K := ℚ) 111).pdg 1
        ≠ .error .outOfRange ∧
      energyFractions ratEnv 1 [0.5] (particleAtOrigin (K := ℚ) 111).pdg 1
        ≠ .error .outOfRange ∧
      kinematics ratEnv 1 [0.5] (particleAtOrigin 111) [] ≠ .error .outOfRange := by
  have h := (gate_species_in_all_tables ratEnv 1 [0.5] 1 (particleAtOrigin 111) []).2
    (by decide)
  exact ⟨h.1, h.2.1, h.2.2 (by simp)⟩

/-- C29: the two encodings of the fit data agree. For every species code with a record
in `detail::parametrizations` (the four codes -211, 211, 2112, 2212), each field of the
record equals the entry of the same species in the corresponding standalone table. -/
theorem encodings_agree {F : Type} [LinearOrderedField F] (pdg : Int) (record : detail.Parameters F)
    (h : (detail.parametrizations (K := F)).lookup pdg = some record) :
    (detail.parametrizations (K := F)).map Prod.fst = [-211, 211, 2112, 2212] ∧
    (detail.probability (K := F)).lookup pdg = some record.nuclearInteractionProbability ∧
    (detail.multiplicity (K := F)).lookup pdg = some record.multiplicity ∧
    (detail.particleTypes (K := F)).lookup pdg = some record.particleTypes ∧
    (detail.energyScaling (K := F)).lookup pdg = some record.energyScaling ∧
    (detail.energyScalingFit (K := F)).lookup pdg = some record.energyScalingExtrapolation ∧
    (detail.thetaParameters (K := F)).lookup pdg = some record.thetaAngle := by
  have hmem := mem_of_lookup pdg record _ h
  simp only [detail.parametrizations, List.mem_cons, Prod.mk.injEq, List.mem_singleton,
    List.not_mem_nil, or_false] at hmem
  rcases hmem with ⟨rfl, rfl⟩ | ⟨rfl, rfl⟩ | ⟨rfl, rfl⟩ | ⟨rfl, rfl⟩ <;>
    exact ⟨rfl, rfl, rfl, rfl, rfl, rfl, rfl⟩

/-- Witness of C29: the record of the proton. -/
theorem encodings_agree_witness :
    (detail.probability (K := ℚ)).lookup 2212 = some detail.nuclIntProbProton ∧
      (detail.multiplicity (K := ℚ)).lookup 2212 = some detail.multProton ∧
      (detail.particleTypes (K := ℚ)).lookup 2212 = some detail.partTypesProton ∧
      (detail.energyScaling (K := ℚ)).lookup 2212 = some detail.eScalingProton ∧
      (detail.energyScalingFit (K := ℚ)).lookup 2212 = some detail.eScalingFitProton ∧
      (detail.thetaParameters (K := ℚ)).lookup 2212 = some detail.thAngleProton :=
  (encodings_agree 2212
    ⟨detail.nuclIntProbProton, detail.multProton, detail.partTypesProton,
      detail.eScalingProton, detail.eScalingFitProton, detail.thAngleProton⟩ rfl).2

/-- C22: in every iteration of its loop `kinematics` first draws one variate `u` and
sets `phi = -pi + 2 * pi * u`, and only then samples the polar angle, from the generator
advanced by that draw; the momentum of the secondary is built from these two angles.
For `pi > 0` and `0 ≤ u < 1` the angle `phi` lies in `[-pi, pi)`, hence in `[-pi, pi]`. -/
theorem azimuthal_angle (env : Env K G) (hpi : 0 < env.pi) (fuel : Nat) (generator : G)
    (particle : Particle K) (particlesPDGs : List Int) (out : List (Particle K))
    (p1 : Particle K) (g1 : G)
    (h : kinematics env fuel generator particle particlesPDGs = .ok (out, p1, g1)) :
    (∀ g : G, samplePhi env g = -env.pi + 2 * env.pi * (env.gen g).1) ∧
    (∀ g : G, 0 ≤ (env.gen g).1 → (env.gen g).1 < 1 →
      -env.pi ≤ samplePhi env g ∧ samplePhi env g < env.pi ∧ samplePhi env g ≤ env.pi) ∧
    ∃ (energy : List K) (g2 : G) (fit : List K),
      energyFractions env fuel generator particle.pdg (particlesPDGs.length % 2 ^ 32)
        = .ok (energy, g2) ∧
      (detail.thetaParameters (K := K)).lookup particle.pdg = some fit ∧
      ∀ (i : Nat) (s : Particle K), out[i]? = some s →
        ∃ f, energy[i]? = some f ∧
          s.momentum = (direction env
            (env.sampleTheta (env.gen (kinematicsGen env fit g2 i)).2 fit).1
            (-env.pi + 2 * env.pi * (env.gen (kinematicsGen env fit g2 i)).1)).scale
              (f * env.E particle) := by
  refine ⟨fun g => rfl, ?_, ?_⟩
  · intro g h0 h1
    have hlt : samplePhi env g < env.pi := by
      simp only [samplePhi]
      nlinarith
    refine ⟨?_, hlt, le_of_lt hlt⟩
    simp only [samplePhi]
    nlinarith
  · obtain ⟨_, energy, g2, fit, hfrac, hfit, hfor, _⟩ :=
      kinematics_ok env fuel generator particle particlesPDGs out p1 g1 h
    refine ⟨energy, g2, fit, hfrac, hfit, ?_⟩
    intro i s hs
    obtain ⟨code, f, pd, _, hf, _, hrec⟩ :=
      kinematicsFor_get env particle energy fit particlesPDGs 0 g2 out g1 hfor i s hs
    refine ⟨f, by simpa using hf, ?_⟩
    rw [hrec]
    rfl

/-- Witness of C22: with the stand-in 3 for `pi` and the draw 0.5 the angle is 0, which
lies in [-3, 3). -/
theorem azimuthal_angle_witness :
    (0 : ℚ) < ratEnv.pi ∧
      (∃ out : List (Particle ℚ),
        kinematics ratEnv 2 [0.3, 0.2, 0.5, 0, 0.5, 0] (particleAtOrigin 2212) [-211, 2112]
          = .ok (out, particleAtOrigin 2212, [])) ∧
      -ratEnv.pi ≤ samplePhi ratEnv [0.5] ∧ samplePhi ratEnv [0.5] < ratEnv.pi ∧
      samplePhi ratEnv [0.5] ≤ ratEnv.pi := by
  have hpi : (0 : ℚ) < ratEnv.pi := by norm_num [ratEnv, listEnv]
  exact ⟨hpi, ⟨_, kinematics_example⟩,
    (azimuthal_angle ratEnv hpi 2 _ _ _ _ _ _ kinematics_example).2.1 [0.5]
      (by norm_num [ratEnv, listEnv]) (by norm_num [ratEnv, listEnv])⟩

end ParametricNuclearInt

namespace GeneralMixture

variable {K G : Type} [LinearOrderedField K]

theorem natAbs_ne_eleven (pdg : Int) : pdg.natAbs ≠ 11 ↔ pdg ≠ 11 ∧ pdg ≠ -11 := by
  omega

/-- C14: for a particle whose species code is neither 11 nor -11, with
`tau = tInX0 / beta^2`, the call operator draws from `gaussmix` with the parameters of
`getGaussian` when `tau > 0.6 / Z^0.6` and `tau > 10`, from `gaussmix` with the parameters
of `getGaussmix` when `0.6 / Z^0.6 < tau ≤ 10`, and from `semigauss` with the parameters of
`getSemigauss` when `tau ≤ 0.6 / Z^0.6`; the returned angle is `M_SQRT2` times that draw. -/
theorem regime_selection (self : GeneralMixture K) (env : ScatterEnv K G) (generator : G)
    (detector : MaterialProperties K) (particle : Particle K)
    (hpdg : particle.pdg ≠ 11 ∧ particle.pdg ≠ -11) :
    (tob2 env detector particle > 0.6 / env.pow detector.material.Z 0.6 →
      tob2 env detector particle > 10 →
      call self env generator detector particle =
        (env.sqrt2 * (gaussmix env generator (getGaussian env (env.beta particle)
            (env.p particle) (tInX0 detector) self.genMixtureScalor)).1,
          (gaussmix env generator (getGaussian env (env.beta particle)
            (env.p particle) (tInX0 detector) self.genMixtureScalor)).2)) ∧
    (tob2 env detector particle > 0.6 / env.pow detector.material.Z 0.6 →
      tob2 env detector particle ≤ 10 →
      call self env generator detector particle =
        (env.sqrt2 * (gaussmix env generator (getGaussmix env (env.beta particle)
            (env.p particle) (tInX0 detector) detector.material.Z
            self.genMixtureScalor)).1,
          (gaussmix env generator (getGaussmix env (env.beta particle)
            (env.p particle) (tInX0 detector) detector.material.Z
            self.genMixtureScalor)).2)) ∧
    (tob2 env detector particle ≤ 0.6 / env.pow detector.material.Z 0.6 →
      call self env generator detector particle =
        (env.sqrt2 * (semigauss env generator (getSemigauss env (env.beta particle)
            (env.p particle) (tInX0 detector) detector.material.Z
            self.genMixtureScalor)).1,
          (semigauss env generator (getSemigauss env (env.beta particle)
            (env.p particle) (tInX0 detector) detector.material.Z
            self.genMixtureScalor)).2)) := by
  have habs : particle.pdg.natAbs ≠ 11 := (natAbs_ne_eleven _).mpr hpdg
  refine ⟨?_, ?_, ?_⟩
  · intro h1 h2
    simp only [tob2, tInX0] at h1 h2
    simp only [call, tInX0, if_pos habs, if_pos h1, if_pos h2]
  · intro h1 h2
    simp only [tob2, tInX0] at h1 h2
    simp only [call, tInX0, if_pos habs, if_pos h1, if_neg (not_lt.mpr h2)]
  · intro h1
    simp only [tob2, tInX0] at h1
    simp only [call, tInX0, if_pos habs, if_neg (not_lt.mpr h1)]

/-- Witness of C14: a positive pion crossing plates with `tau` equal to 20, 5 and 0.1;
each call consumes the two variates of its mixture draw. -/
theorem regime_selection_witness :
    (call defaultMixture ratScatterEnv [0.7, 0.5] (plate 20)
        (ParametricNuclearInt.particleAtOrigin 211)).2 = [] ∧
    (call defaultMixture ratScatterEnv [0.7, 0.5] (plate 5)
        (ParametricNuclearInt.particleAtOrigin 211)).2 = [] ∧
    (call defaultMixture ratScatterEnv [0.7, 0.5] (plate 0.1)
        (ParametricNuclearInt.particleAtOrigin 211)).2 = [] := by
  have hpdg : (ParametricNuclearInt.particleAtOrigin (K := ℚ) 211).pdg ≠ 11 ∧
      (ParametricNuclearInt.particleAtOrigin (K := ℚ) 211).pdg ≠ -11 := by
    simp [ParametricNuclearInt.particleAtOrigin]
  refine ⟨?_, ?_, ?_⟩
  · rw [(regime_selection defaultMixture ratScatterEnv [0.7, 0.5] (plate 20) _ hpdg).1
      (by norm_num [tob2, tInX0, plate, ratScatterEnv, listScatterEnv])
      (by norm_num [tob2, tInX0, plate, ratScatterEnv, listScatterEnv])]
    simp only [gaussmix]
    split_ifs <;> simp [ratScatterEnv, listScatterEnv]
  · rw [(regime_selection defaultMixture ratScatterEnv [0.7, 0.5] (plate 5) _ hpdg).2.1
      (by norm_num [tob2, tInX0, plate, ratScatterEnv, listScatterEnv])
      (by norm_num [tob2, tInX0, plate, ratScatterEnv, listScatterEnv])]
    simp only [gaussmix]
    split_ifs <;> simp [ratScatterEnv, listScatterEnv]
  · rw [(regime_selection defaultMixture ratScatterEnv [0.7, 0.5] (plate 0.1) _ hpdg).2.2
      (by norm_num [tob2, tInX0, plate, ratScatterEnv, listScatterEnv])]
    simp only [semigauss]
    split_ifs <;> simp [ratScatterEnv, listScatterEnv]

/-- C15: for a particle with species code 11 or -11 the call operator returns
`M_SQRT2 * highlandForumla(p, beta, tInX0, true) * g`, where `g` is one draw of the
unit normal distribution, and advances the generator by that draw only. No other member
of the environment is used: the result is the same under every environment with the same
Highland formula, normal distribution, `p`, `beta` and `M_SQRT2`, whatever its uniform
distribution, square root, logarithm and power function, and whatever the scale. -/
theorem electron_fallback (self : GeneralMixture K) (env : ScatterEnv K G) (generator : G)
    (detector : MaterialProperties K) (particle : Particle K)
    (hpdg : particle.pdg = 11 ∨ particle.pdg = -11) :
    call self env generator detector particle =
      (env.sqrt2 * env.highlandForumla (env.p particle) (env.beta particle)
          (tInX0 detector) true * (env.gaussDist generator).1,
        (env.gaussDist generator).2) ∧
    ∀ (self1 : GeneralMixture K) (env1 : ScatterEnv K G),
      env1.highlandForumla = env.highlandForumla → env1.gaussDist = env.gaussDist →
      env1.p = env.p → env1.beta = env.beta → env1.sqrt2 = env.sqrt2 →
      call self1 env1 generator detector particle
        = call self env generator detector particle := by
  have habs : ¬ particle.pdg.natAbs ≠ 11 := by
    rw [natAbs_ne_eleven]
    rcases hpdg with h | h <;> simp [h]
  have hcall : ∀ (s : GeneralMixture K) (e : ScatterEnv K G),
      call s e generator detector particle =
        (e.sqrt2 * e.highlandForumla (e.p particle) (e.beta particle)
            (tInX0 detector) true * (e.gaussDist generator).1,
          (e.gaussDist generator).2) := by
    intro s e
    simp only [call, tInX0, if_neg habs, mul_assoc]
  refine ⟨hcall self env, ?_⟩
  intro self1 env1 h1 h2 h3 h4 h5
  rw [hcall self1 env1, hcall self env, h1, h2, h3, h4, h5]

/-- Witness of C15: an electron crossing a plate of 0.01 radiation lengths with the
normal draw 0.4. -/
theorem electron_fallback_witness :
    call defaultMixture ratScatterEnv [0.4, 0.7] (plate 0.01)
        (ParametricNuclearInt.particleAtOrigin 11) =
      (ratScatterEnv.sqrt2 * ratScatterEnv.highlandForumla
          (ratScatterEnv.p (ParametricNuclearInt.particleAtOrigin 11))
          (ratScatterEnv.beta (ParametricNuclearInt.particleAtOrigin 11))
          (tInX0 (plate 0.01)) true * (ratScatterEnv.gaussDist [0.4, 0.7]).1,
        (ratScatterEnv.gaussDist [0.4, 0.7]).2) :=
  (electron_fallback defaultMixture ratScatterEnv [0.4, 0.7] (plate 0.01)
    (ParametricNuclearInt.particleAtOrigin 11) (Or.inl rfl)).1

/-- C16: `gaussmix` and `semigauss` each consume exactly two uniform variates, `u1` then
`u2`, in every branch. If `u1` exceeds the tail weight both return
`sqrt(coreVar) * sqrt(-2 ln u2) * totalSigma`; otherwise `gaussmix` returns
`sqrt(tailVar) * sqrt(-2 ln u2) * totalSigma` and `semigauss` returns
`a * b * sqrt((1 - u2) / (u2 * b^2 + a^2)) * totalSigma`. -/
theorem mixture_draw (env : ScatterEnv K G) (generator : G) (params : Fin 4 → K)
    (params_sg : Fin 6 → K) :
    (gaussmix env generator params).2
        = (env.uniformDist (env.uniformDist generator).2).2 ∧
    (semigauss env generator params_sg).2
        = (env.uniformDist (env.uniformDist generator).2).2 ∧
    ((env.uniformDist generator).1 > params 3 →
      (gaussmix env generator params).1 =
        env.sqrt (params 1)
          * env.sqrt (-2 * env.log (env.uniformDist (env.uniformDist generator).2).1)
          * params 0) ∧
    ((env.uniformDist generator).1 ≤ params 3 →
      (gaussmix env generator params).1 =
        env.sqrt (params 2)
          * env.sqrt (-2 * env.log (env.uniformDist (env.uniformDist generator).2).1)
          * params 0) ∧
    ((env.uniformDist generator).1 > params_sg 3 →
      (semigauss env generator params_sg).1 =
        env.sqrt (params_sg 2)
          * env.sqrt (-2 * env.log (env.uniformDist (env.uniformDist generator).2).1)
          * params_sg 4) ∧
    ((env.uniformDist generator).1 ≤ params_sg 3 →
      (semigauss env generator params_sg).1 =
        params_sg 0 * params_sg 1
          * env.sqrt ((1 - (env.uniformDist (env.uniformDist generator).2).1)
              / ((env.uniformDist (env.uniformDist generator).2).1 * params_sg 1 ^ 2
                + params_sg 0 ^ 2))
          * params_sg 4) := by
  refine ⟨?_, ?_, ?_, ?_, ?_, ?_⟩
  · simp only [gaussmix]
    split_ifs <;> rfl
  · simp only [semigauss]
    split_ifs <;> rfl
  · intro h
    simp [gaussmix, h]
  · intro h
    simp [gaussmix, not_lt.mpr h]
  · intro h
    simp [semigauss, h]
  · intro h
    simp [semigauss, not_lt.mpr h, pow_two, mul_assoc]

/-- Witness of C16: a core draw (`u1 = 0.7` above the weight 0.5) and a tail draw
(`u1 = 0.2`) of `gaussmix`. -/
theorem mixture_draw_witness :
    (gaussmix ratScatterEnv [0.7, 0.5] ![2, 1, 4, 0.5]).1 =
        ratScatterEnv.sqrt 1 * ratScatterEnv.sqrt (-2 * ratScatterEnv.log 0.5) * 2 ∧
      (gaussmix ratScatterEnv [0.2, 0.5] ![2, 1, 4, 0.5]).1 =
        ratScatterEnv.sqrt 4 * ratScatterEnv.sqrt (-2 * ratScatterEnv.log 0.5) * 2 := by
  constructor
  · have h := (mixture_draw ratScatterEnv [0.7, 0.5] ![2, 1, 4, 0.5] ![1, 1, 1, 0, 1, 1]).2.2.1
      (by norm_num [ratScatterEnv, listScatterEnv])
    simpa [ratScatterEnv, listScatterEnv] using h
  · have h := (mixture_draw ratScatterEnv [0.2, 0.5] ![2, 1, 4, 0.5]
      ![1, 1, 1, 0, 1, 1]).2.2.2.1 (by norm_num [ratScatterEnv, listScatterEnv])
    simpa [ratScatterEnv, listScatterEnv] using h

/-- C17: the parameters of `getGaussmix` with tail weight `w ≠ 0`, and those of
`getGaussian`, satisfy `(1 - w) * coreVar + w * tailVar = 1`, and both have the total
width `15 / beta / p * sqrt(tInX0) * scale`. -/
theorem variance_normalisation (env : ScatterEnv K G) (beta p tInX0 Z scale : K) :
    (getGaussmix env beta p tInX0 Z scale 3 ≠ 0 →
      (1 - getGaussmix env beta p tInX0 Z scale 3) * getGaussmix env beta p tInX0 Z scale 1
        + getGaussmix env beta p tInX0 Z scale 3 * getGaussmix env beta p tInX0 Z scale 2
        = 1) ∧
    (1 - getGaussian env beta p tInX0 scale 3) * getGaussian env beta p tInX0 scale 1
        + getGaussian env beta p tInX0 scale 3 * getGaussian env beta p tInX0 scale 2 = 1 ∧
    getGaussmix env beta p tInX0 Z scale 0 = 15 / beta / p * env.sqrt tInX0 * scale ∧
    getGaussian env beta p tInX0 scale 0 = 15 / beta / p * env.sqrt tInX0 * scale := by
  refine ⟨?_, ?_, ?_, ?_⟩
  · intro hw
    simp only [getGaussmix, Matrix.cons_val_one, Matrix.head_cons, Matrix.cons_val_two,
      Matrix.tail_cons, Matrix.cons_val_three] at hw ⊢
    rw [mul_div_cancel₀ _ hw]
    ring
  · simp only [getGaussian, Matrix.cons_val_one, Matrix.head_cons, Matrix.cons_val_two,
      Matrix.tail_cons, Matrix.cons_val_three]
    norm_num
  · simp [getGaussmix]
  · simp [getGaussian]

/-- Witness of C17: the parameters of `getGaussmix` at `tInX0 = 5`, where the tail weight
is not 0. -/
theorem variance_normalisation_witness :
    getGaussmix ratScatterEnv 1 1 5 1 1 3 ≠ 0 ∧
      (1 - getGaussmix ratScatterEnv 1 1 5 1 1 3) * getGaussmix ratScatterEnv 1 1 5 1 1 1
        + getGaussmix ratScatterEnv 1 1 5 1 1 3 * getGaussmix ratScatterEnv 1 1 5 1 1 2
        = 1 := by
  have hw : getGaussmix ratScatterEnv 1 1 5 1 1 3 ≠ 0 := by
    norm_num [getGaussmix, ratScatterEnv, listScatterEnv]
  exact ⟨hw, (variance_normalisation ratScatterEnv 1 1 5 1 1).1 hw⟩

/-- C18: over the real numbers, with `std::sqrt` the real square root and `std::log` the
real logarithm, `getGaussian` returns `(15 / beta / p * sqrt(tInX0) * scale, 1, 1, 0.5)`,
and with these parameters `gaussmix` returns `totalSigma * sqrt(-2 ln u2)`: the value
does not depend on the first variate `u1`. -/
theorem gaussian_single_component (env : ScatterEnv ℝ G) (hsqrt : env.sqrt = Real.sqrt)
    (hlog : env.log = Real.log) (beta p tInX0 scale : ℝ) :
    getGaussian env beta p tInX0 scale
        = ![15 / beta / p * Real.sqrt tInX0 * scale, 1, 1, 0.5] ∧
    (∀ generator : G,
      (gaussmix env generator (getGaussian env beta p tInX0 scale)).1 =
        15 / beta / p * Real.sqrt tInX0 * scale
          * Real.sqrt (-2 * Real.log (env.uniformDist (env.uniformDist generator).2).1)) ∧
    (∀ generator generator1 : G,
      (env.uniformDist (env.uniformDist generator).2).1
          = (env.uniformDist (env.uniformDist generator1).2).1 →
      (gaussmix env generator (getGaussian env beta p tInX0 scale)).1
        = (gaussmix env generator1 (getGaussian env beta p tInX0 scale)).1) := by
  have hval : ∀ generator : G,
      (gaussmix env generator (getGaussian env beta p tInX0 scale)).1 =
        15 / beta / p * Real.sqrt tInX0 * scale
          * Real.sqrt (-2 * Real.log (env.uniformDist (env.uniformDist generator).2).1) := by
    intro generator
    simp only [gaussmix, getGaussian, hsqrt, hlog, Matrix.cons_val_zero, Matrix.cons_val_one,
      Matrix.head_cons, Matrix.cons_val_two, Matrix.tail_cons, Real.sqrt_one, one_mul]
    split_ifs <;> ring
  refine ⟨by simp [getGaussian, hsqrt], hval, ?_⟩
  intro generator generator1 h
  rw [hval, hval, h]

/-- Witness of C18: two generators with different first variates and the same second
variate give the same value. -/
theorem gaussian_single_component_witness :
    (gaussmix (listScatterEnv Real.sqrt Real.log Real.rpow (Real.sqrt 2)) [0.7, 0.5]
        (getGaussian (listScatterEnv Real.sqrt Real.log Real.rpow (Real.sqrt 2)) 1 1 20 1)).1
      = (gaussmix (listScatterEnv Real.sqrt Real.log Real.rpow (Real.sqrt 2)) [0.2, 0.5]
        (getGaussian (listScatterEnv Real.sqrt Real.log Real.rpow (Real.sqrt 2)) 1 1 20
          1)).1 :=
  (gaussian_single_component (listScatterEnv Real.sqrt Real.log Real.rpow (Real.sqrt 2))
    rfl rfl 1 1 20 1).2.2 [0.7, 0.5] [0.2, 0.5] (by simp [listScatterEnv])

/-- C19 as stated fails: with the stored tail weight 0 and the first variate `u1 = 0`,
which lies in [0,1), `semigauss` returns the tail value
`a * b * sqrt((1 - u2) / (u2 * b^2 + a^2)) * totalSigma` (here the square root of one
third) and not the Gaussian-core value `sqrt(coreVar) * sqrt(-2 ln u2) * totalSigma`. -/
theorem semigauss_zero_weight_zero_draw :
    (![1, 1, 1, 0, 1, 1] : Fin 6 → ℝ) 3 = 0 ∧
      ((listScatterEnv Real.sqrt Real.log Real.rpow (Real.sqrt 2)).uniformDist
        [0, 1 / 2]).1 = 0 ∧
      (semigauss (listScatterEnv Real.sqrt Real.log Real.rpow (Real.sqrt 2)) [0, 1 / 2]
        ![1, 1, 1, 0, 1, 1]).1 = Real.sqrt (1 / 3) ∧
      (semigauss (listScatterEnv Real.sqrt Real.log Real.rpow (Real.sqrt 2)) [0, 1 / 2]
        ![1, 1, 1, 0, 1, 1]).1 ≠ Real.sqrt 1 * Real.sqrt (-2 * Real.log (1 / 2)) * 1 := by
  have hval : (semigauss (listScatterEnv Real.sqrt Real.log Real.rpow (Real.sqrt 2))
      [0, 1 / 2] ![1, 1, 1, 0, 1, 1]).1 = Real.sqrt (1 / 3) := by
    simp only [semigauss, listScatterEnv]
    norm_num
  refine ⟨by simp, by simp [listScatterEnv], hval, ?_⟩
  rw [hval]
  have hlt : Real.sqrt (1 / 3) < 1 := by
    rw [Real.sqrt_lt' (by norm_num)]
    norm_num
  have hlog : (1 : ℝ) < -2 * Real.log (1 / 2) := by
    have h2 := Real.log_two_gt_d9
    rw [one_div, Real.log_inv]
    linarith
  have hgt : 1 < Real.sqrt (-2 * Real.log (1 / 2)) := by
    rw [Real.lt_sqrt (by norm_num)]
    simpa using hlog
  rw [Real.sqrt_one, one_mul, mul_one]
  exact ne_of_lt (lt_trans hlt hgt)

/-- C19, amended: whenever the fitted tail weight computed in `getSemigauss` is not
positive, the stored tail weight is exactly 0; and with a stored tail weight 0
`semigauss` returns the Gaussian-core value `sqrt(coreVar) * sqrt(-2 ln u2) * totalSigma`
for every first variate `u1 > 0`, and the tail value
`a * b * sqrt((1 - u2) / (u2 * b^2 + a^2)) * totalSigma` for `u1 = 0`. -/
theorem semigauss_floor (env : ScatterEnv K G) (beta p tInX0 Z scale : K) :
    getSemigauss env beta p tInX0 Z scale 3
        = (if semigaussEpsi env beta tInX0 Z > 0 then semigaussEpsi env beta tInX0 Z else 0) ∧
    (semigaussEpsi env beta tInX0 Z ≤ 0 → getSemigauss env beta p tInX0 Z scale 3 = 0) ∧
    (∀ (generator : G) (params : Fin 6 → K), params 3 = 0 →
      0 < (env.uniformDist generator).1 →
      (semigauss env generator params).1 =
        env.sqrt (params 2)
          * env.sqrt (-2 * env.log (env.uniformDist (env.uniformDist generator).2).1)
          * params 4) ∧
    (∀ (generator : G) (params : Fin 6 → K), params 3 = 0 →
      (env.uniformDist generator).1 = 0 →
      (semigauss env generator params).1 =
        params 0 * params 1
          * env.sqrt ((1 - (env.uniformDist (env.uniformDist generator).2).1)
              / ((env.uniformDist (env.uniformDist generator).2).1 * params 1 ^ 2
                + params 0 ^ 2))
          * params 4) := by
  have hstored : getSemigauss env beta p tInX0 Z scale 3
      = (if semigaussEpsi env beta tInX0 Z > 0 then semigaussEpsi env beta tInX0 Z
          else 0) := by
    simp [getSemigauss, semigaussEpsi]
  refine ⟨hstored, ?_, ?_, ?_⟩
  · intro hle
    rw [hstored, if_neg (not_lt.mpr hle)]
  · intro generator params hzero hpos
    simp [semigauss, hzero, hpos]
  · intro generator params hzero hu
    simp [semigauss, hzero, hu, pow_two, mul_assoc]

/-- Witness of C19 amended: with stored weight 0 and first variate 0.3 the value is the
Gaussian-core value. -/
theorem semigauss_floor_witness :
    (semigauss ratScatterEnv [0.3, 0.5] ![1, 2, 4, 0, 3, 1]).1 =
      ratScatterEnv.sqrt 4 * ratScatterEnv.sqrt (-2 * ratScatterEnv.log 0.5) * 3 := by
  have h := (semigauss_floor ratScatterEnv 1 1 1 1 1).2.2.1 [0.3, 0.5] ![1, 2, 4, 0, 3, 1]
    (by simp) (by norm_num [ratScatterEnv, listScatterEnv])
  simpa [ratScatterEnv, listScatterEnv] using h

theorem coreVariance_lt_one {F : Type} [LinearOrderedField F] (d1 : F) :
    (-1.843e-3 * d1 + 3.347e-2) * d1 + 8.471e-1 < 1 := by
  have h := sq_nonneg (d1 - 9.08)
  norm_num at h ⊢
  nlinarith

/-- C27: the core variance `(-1.843e-3 * d1 + 3.347e-2) * d1 + 8.471e-1` of `getGaussmix`
is strictly below 1 for every `d1`; hence, whenever the tail weight `w` of the returned
parameters satisfies `0 < w < 1`, the tail variance `(1 - (1 - w) * coreVar) / w` is
strictly above 1 and so above the core variance. -/
theorem gaussmix_variances (env : ScatterEnv K G) (beta p tInX0 Z scale : K) :
    (∀ d1 : K, (-1.843e-3 * d1 + 3.347e-2) * d1 + 8.471e-1 < 1) ∧
    getGaussmix env beta p tInX0 Z scale 1
      = (-1.843e-3 * env.log (tInX0 / (beta * beta)) + 3.347e-2)
          * env.log (tInX0 / (beta * beta)) + 8.471e-1 ∧
    getGaussmix env beta p tInX0 Z scale 1 < 1 ∧
    (0 < getGaussmix env beta p tInX0 Z scale 3 →
      getGaussmix env beta p tInX0 Z scale 3 < 1 →
      getGaussmix env beta p tInX0 Z scale 2
        = (1 - (1 - getGaussmix env beta p tInX0 Z scale 3)
            * getGaussmix env beta p tInX0 Z scale 1) / getGaussmix env beta p tInX0 Z scale 3 ∧
      1 < getGaussmix env beta p tInX0 Z scale 2 ∧
      getGaussmix env beta p tInX0 Z scale 1 < getGaussmix env beta p tInX0 Z scale 2) := by
  have hcore : getGaussmix env beta p tInX0 Z scale 1
      = (-1.843e-3 * env.log (tInX0 / (beta * beta)) + 3.347e-2)
          * env.log (tInX0 / (beta * beta)) + 8.471e-1 := by
    simp [getGaussmix]
  have hlt : getGaussmix env beta p tInX0 Z scale 1 < 1 := by
    rw [hcore]
    exact coreVariance_lt_one _
  have htail : getGaussmix env beta p tInX0 Z scale 2
      = (1 - (1 - getGaussmix env beta p tInX0 Z scale 3)
          * getGaussmix env beta p tInX0 Z scale 1) / getGaussmix env beta p tInX0 Z scale 3 := by
    simp [getGaussmix]
  refine ⟨coreVariance_lt_one, hcore, hlt, ?_⟩
  intro hw0 hw1
  have hgt : 1 < getGaussmix env beta p tInX0 Z scale 2 := by
    rw [htail, lt_div_iff₀ hw0]
    nlinarith
  exact ⟨htail, hgt, lt_trans hlt hgt⟩

/-- Witness of C27: the parameters of `getGaussmix` at `tInX0 = 5`, where the tail weight
lies strictly between 0 and 1. -/
theorem gaussmix_variances_witness :
    0 < getGaussmix ratScatterEnv 1 1 5 1 1 3 ∧ getGaussmix ratScatterEnv 1 1 5 1 1 3 < 1 ∧
      1 < getGaussmix ratScatterEnv 1 1 5 1 1 2 ∧
      getGaussmix ratScatterEnv 1 1 5 1 1 1 < getGaussmix ratScatterEnv 1 1 5 1 1 2 := by
  have h0 : 0 < getGaussmix ratScatterEnv 1 1 5 1 1 3 := by
    norm_num [getGaussmix, ratScatterEnv, listScatterEnv]
  have h1 : getGaussmix ratScatterEnv 1 1 5 1 1 3 < 1 := by
    norm_num [getGaussmix, ratScatterEnv, listScatterEnv]
  exact ⟨h0, h1, ((gaussmix_variances ratScatterEnv 1 1 5 1 1).2.2.2 h0 h1).2⟩

theorem tail_ratio_bounds (a b u : ℝ) (ha : 0 < a) (hb : 0 < b) (hu0 : 0 ≤ u) (hu1 : u ≤ 1) :
    0 ≤ (1 - u) / (u * b * b + a * a) ∧ (1 - u) / (u * b * b + a * a) ≤ 1 / (a * a) := by
  have hden : 0 < u * b * b + a * a := by positivity
  have haa : 0 < a * a := by positivity
  constructor
  · exact div_nonneg (by linarith) (le_of_lt hden)
  · rw [div_le_div_iff₀ hden haa]
    have : 0 ≤ u * b * b := by positivity
    nlinarith

theorem tail_ratio_antitone (a b u v : ℝ) (ha : 0 < a) (hb : 0 < b) (hu0 : 0 ≤ u)
    (huv : u ≤ v) :
    (1 - v) / (v * b * b + a * a) ≤ (1 - u) / (u * b * b + a * a) := by
  have hv0 : 0 ≤ v := le_trans hu0 huv
  have hdu : 0 < u * b * b + a * a := by positivity
  have hdv : 0 < v * b * b + a * a := by positivity
  rw [div_le_div_iff₀ hdv hdu]
  have hbb : 0 < b * b := by positivity
  have haa : 0 < a * a := by positivity
  nlinarith [mul_nonneg (sub_nonneg.mpr huv) (le_of_lt hbb),
    mul_nonneg (sub_nonneg.mpr huv) (le_of_lt haa)]

/-- C28: over the real numbers, with `std::sqrt` the real square root, the value that
`semigauss` returns in its tail branch, `a * b * sqrt((1 - u) / (u * b^2 + a^2)) *
totalSigma` with `u` the second variate, lies in `[0, b * totalSigma]` for `a > 0`,
`b > 0`, `totalSigma ≥ 0` and `u` in [0,1]; it equals `b * totalSigma` at `u = 0` and 0
at `u = 1`, and it does not increase when `u ≥ 0` increases. -/
theorem semigauss_tail_bounded (env : ScatterEnv ℝ G) (hsqrt : env.sqrt = Real.sqrt)
    (params : Fin 6 → ℝ) (ha : 0 < params 0) (hb : 0 < params 1) (hs : 0 ≤ params 4) :
    (∀ g : G, (env.uniformDist g).1 ≤ params 3 →
      (semigauss env g params).1 = params 0 * params 1
        * Real.sqrt ((1 - (env.uniformDist (env.uniformDist g).2).1)
            / ((env.uniformDist (env.uniformDist g).2).1 * params 1 ^ 2 + params 0 ^ 2))
        * params 4) ∧
    (∀ g : G, (env.uniformDist g).1 ≤ params 3 →
      0 ≤ (env.uniformDist (env.uniformDist g).2).1 →
      (env.uniformDist (env.uniformDist g).2).1 ≤ 1 →
      0 ≤ (semigauss env g params).1 ∧ (semigauss env g params).1 ≤ params 1 * params 4) ∧
    (∀ g : G, (env.uniformDist g).1 ≤ params 3 →
      (env.uniformDist (env.uniformDist g).2).1 = 0 →
      (semigauss env g params).1 = params 1 * params 4) ∧
    (∀ g : G, (env.uniformDist g).1 ≤ params 3 →
      (env.uniformDist (env.uniformDist g).2).1 = 1 →
      (semigauss env g params).1 = 0) ∧
    (∀ g g1 : G, (env.uniformDist g).1 ≤ params 3 → (env.uniformDist g1).1 ≤ params 3 →
      0 ≤ (env.uniformDist (env.uniformDist g).2).1 →
      (env.uniformDist (env.uniformDist g).2).1 ≤ (env.uniformDist (env.uniformDist g1).2).1 →
      (semigauss env g1 params).1 ≤ (semigauss env g params).1) := by
  have hval : ∀ g : G, (env.uniformDist g).1 ≤ params 3 →
      (semigauss env g params).1 = params 0 * params 1
        * Real.sqrt ((1 - (env.uniformDist (env.uniformDist g).2).1)
            / ((env.uniformDist (env.uniformDist g).2).1 * params 1 * params 1
              + params 0 * params 0))
        * params 4 := by
    intro g h
    simp [semigauss, not_lt.mpr h, hsqrt]
  have hsqrt_a : Real.sqrt (1 / (params 0 * params 0)) = 1 / params 0 := by
    rw [show 1 / (params 0 * params 0) = (1 / params 0) ^ 2 from by field_simp; ring]
    exact Real.sqrt_sq (by positivity)
  have hab : 0 ≤ params 0 * params 1 := by positivity
  refine ⟨?_, ?_, ?_, ?_, ?_⟩
  · intro g h
    rw [hval g h, pow_two, pow_two, mul_assoc (env.uniformDist (env.uniformDist g).2).1]
  · intro g h h0 h1
    rw [hval g h]
    obtain ⟨hr0, hr1⟩ := tail_ratio_bounds (params 0) (params 1) _ ha hb h0 h1
    constructor
    · positivity
    · have hle := Real.sqrt_le_sqrt hr1
      rw [hsqrt_a] at hle
      calc params 0 * params 1
            * Real.sqrt ((1 - (env.uniformDist (env.uniformDist g).2).1)
              / ((env.uniformDist (env.uniformDist g).2).1 * params 1 * params 1
                + params 0 * params 0)) * params 4
          ≤ params 0 * params 1 * (1 / params 0) * params 4 :=
            mul_le_mul_of_nonneg_right (mul_le_mul_of_nonneg_left hle hab) hs
        _ = params 1 * params 4 := by field_simp
  · intro g h h0
    rw [hval g h, h0]
    simp only [sub_zero, zero_mul, zero_add, hsqrt_a]
    field_simp
  · intro g h h1
    rw [hval g h, h1]
    simp
  · intro g g1 h h1 h0 hle
    rw [hval g h, hval g1 h1]
    have hmono := Real.sqrt_le_sqrt
      (tail_ratio_antitone (params 0) (params 1) _ _ ha hb h0 hle)
    exact mul_le_mul_of_nonneg_right (mul_le_mul_of_nonneg_left hmono hab) hs

/-- Witness of C28: with `a = 1`, `b = 2`, `totalSigma = 3`, stored weight 0 and first
variate 0, the tail value at `u = 0` is 6 and at `u = 1` it is 0. -/
theorem semigauss_tail_bounded_witness :
    (semigauss (listScatterEnv Real.sqrt Real.log Real.rpow (Real.sqrt 2)) [0, 0]
        ![1, 2, 4, 0, 3, 1]).1 = 2 * 3 ∧
      (semigauss (listScatterEnv Real.sqrt Real.log Real.rpow (Real.sqrt 2)) [0, 1]
        ![1, 2, 4, 0, 3, 1]).1 = 0 := by
  have h := semigauss_tail_bounded (listScatterEnv Real.sqrt Real.log Real.rpow (Real.sqrt 2))
    rfl ![1, 2, 4, 0, 3, 1] (by simp) (by simp) (by simp)
  constructor
  · simpa using h.2.2.1 [0, 0] (by simp [listScatterEnv]) (by simp [listScatterEnv])
  · simpa using h.2.2.2.1 [0, 1] (by simp [listScatterEnv]) (by simp [listScatterEnv])


end GeneralMixture

end Fatras
